import Mathlib

/-!
Guard: scan orchestration and summarization client

A shallow embedding of the scan pipeline of `guard-dev/guard`
(`backend/awsmiddleware`, `backend/modelapi/geminiapi`) and of the checks of
its scanners, together with theorems about them.

Conventions of the embedding

* A Go call either returns normally, returns a non-nil `error`, or panics:
  `GoResult`.  An `error` is represented by its `Error()` text, so that
  `fmt.Errorf("...: %v", err)` is string concatenation.
* A Go slice is a `List`; the `nil` slice and the empty slice are both `[]`.
* A Go pointer that may be `nil` is an `Option`.
* Everything the program learns from the outside (the language model, the
  cancellation of the context, the cloud provider) is an explicit argument.
  The calls the program makes to the outside are recorded in a `Trace`; an
  answer of the outside may depend on the moment of the call, which is the
  length of the trace at that point.
* A client of the cloud provider is a record of the outcomes of its calls.
  A policy document is what `url.QueryUnescape` and the JSON scanner make of
  its text; decoding of the JSON value into the Go types of the program
  follows `json.Unmarshal`, also where a member is repeated: a field is
  decoded again into the value it holds, a slice into the elements of the
  array under it.
-/

namespace Guard

/-! ## Go run-time conventions -/

/-- Outcome of a Go call: a normal return with a nil error, a return with a
non-nil error (its text), or a run-time panic (its text). -/
inductive GoResult (α : Type) where
  | ok (val : α)
  | err (msg : String)
  | panic (msg : String)
  deriving Repr, DecidableEq

/-- The panic text of a nil pointer dereference. -/
def nilDereference : String :=
  "runtime error: invalid memory address or nil pointer dereference"

/-- The panic text of indexing position 0 of an empty slice. -/
def indexOutOfRange : String :=
  "runtime error: index out of range [0] with length 0"

/-- Two's complement wrap-around of an integer to the range of `int64`. -/
def wrapInt64 (x : Int) : Int :=
  (x + 2 ^ 63) % 2 ^ 64 - 2 ^ 63

/-- The helper `aws.StringValue`: the pointed-to string, or `""` for nil. -/
def aws.StringValue (p : Option String) : String :=
  p.getD ""

/-! ## Values decoded from a model response -/

/-- A value of a function call's `Args` map (`map[string]any` built from a
protobuf struct).  Numbers are finite `float64` values, of which only the
presence matters here, so `json.Marshal` of an `Args` map cannot fail. -/
inductive JSONValue where
  | null
  | bool (b : Bool)
  | number
  | string (s : String)
  | array (items : List JSONValue)
  | object (fields : List (String × JSONValue))
  deriving Repr

/-- The name `encoding/json` gives the kind of a value in a type error. -/
def JSONValue.kind : JSONValue → String
  | .null => "null"
  | .bool _ => "bool"
  | .number => "number"
  | .string _ => "string"
  | .array _ => "array"
  | .object _ => "object"

/-- Case folding of one character of an object key as `encoding/json` does
it when it looks for the struct field of a key: ASCII letters fold to lower
case, and so do the two non-ASCII characters whose simple case folding is an
ASCII letter (the long s U+017F and the Kelvin sign U+212A). -/
def foldChar (c : Char) : Char :=
  if c = Char.ofNat 0x017F then 's'
  else if c = Char.ofNat 0x212A then 'k'
  else if 'A' ≤ c ∧ c ≤ 'Z' then Char.ofNat (c.toNat + 32)
  else c

/-- A key selects the struct field tagged `field` (a lower-case ASCII name)
when it is that name exactly or up to case folding. -/
def keyMatches (field key : String) : Bool :=
  key == field || String.mk (key.data.map foldChar) == field

/-- The text of the `json.UnmarshalTypeError` for a value of the wrong kind
met while decoding a field of an anonymous struct. -/
def unmarshalTypeError (v : JSONValue) (field goType : String) : String :=
  "json: cannot unmarshal " ++ v.kind ++ " into Go struct field ." ++ field ++
    " of type " ++ goType

namespace geminiapi

/-! ## The generative-model client (`modelapi/geminiapi`) -/

/-- A part of a candidate's content.  Only `genai.FunctionCall` is inspected;
any other part is known by the name `%T` prints for its dynamic type. -/
inductive Part where
  | FunctionCall (Name : String) (Args : List (String × JSONValue))
  | other (goType : String)
  deriving Repr

/-- The struct `genai.Content`. -/
structure Content where
  Parts : List Part
  deriving Repr

/-- The struct `genai.Candidate`; `Content` is a pointer. -/
structure Candidate where
  Content : Option Content
  deriving Repr

/-- The struct `genai.GenerateContentResponse`. -/
structure GenerateContentResponse where
  Candidates : List Candidate
  deriving Repr

/-- What one call of `model.GenerateContent` returns: a response pointer and
an error, either of which may be nil. -/
structure Outcome where
  resp : Option GenerateContentResponse
  err : Option String
  deriving Repr

/-- The declaration of a callable function offered to the model. -/
structure FunctionDeclaration where
  Name : String
  Description : String
  Properties : List String
  Required : List String
  deriving Repr, DecidableEq

/-- The configuration of a `genai.GenerativeModel` as the client sets it. -/
structure GenerativeModel where
  name : String
  SystemInstruction : String
  Tools : List FunctionDeclaration
  AllowedFunctionNames : List String
  deriving Repr, DecidableEq

end geminiapi

/-- One call of `Gemini.SummarizeFindings`. -/
structure SummarizeCall where
  service : String
  region : String
  findings : List String
  deriving Repr, DecidableEq

/-- The calls to the outside that a run makes, in order. -/
inductive Event where
  | NewScanner (service region : String)
  | SummarizeFindings (call : SummarizeCall)
  | GenerateContent (model : geminiapi.GenerativeModel) (prompt : String)
  | Backoff (delay : Int)
  deriving Repr, DecidableEq

/-- The record of a run: its events, oldest first. -/
abbrev Trace := List Event

/-- The calls of `SummarizeFindings` recorded in a trace. -/
def Trace.summarizeCalls (tr : Trace) : List SummarizeCall :=
  tr.filterMap fun e => match e with
    | .SummarizeFindings c => some c
    | _ => none

/-- The model calls (model configuration and prompt) recorded in a trace. -/
def Trace.modelCalls (tr : Trace) : List (geminiapi.GenerativeModel × String) :=
  tr.filterMap fun e => match e with
    | .GenerateContent m p => some (m, p)
    | _ => none

/-- The backoff waits (in nanoseconds) recorded in a trace. -/
def Trace.waits (tr : Trace) : List Int :=
  tr.filterMap fun e => match e with
    | .Backoff d => some d
    | _ => none

/-- The scanners constructed in a trace, as (service, region). -/
def Trace.scanners (tr : Trace) : List (String × String) :=
  tr.filterMap fun e => match e with
    | .NewScanner s r => some (s, r)
    | _ => none

namespace geminiapi

/-- The struct `Gemini`: the client handle, seen through what its model and
the caller's context answer.  `GenerateContent t m p` is the outcome of
calling model `m` with prompt `p` at moment `t`; `ctxDone t` is `some e` when
the backoff wait begun at moment `t` ends because the context is done, `e`
being the text of `ctx.Err()`. -/
structure Gemini where
  GenerateContent : Nat → GenerativeModel → String → Outcome
  ctxDone : Nat → Option String

/-- The constant `maxRetries`. -/
def maxRetries : Nat := 3

/-- The constant `baseDelay`, one second in nanoseconds (`time.Duration`). -/
def baseDelay : Int := 1000000000

/-- The function `exponentialBackoff`: `baseDelay * time.Duration(1<<uint(attempt))`
in `int64` arithmetic. -/
def exponentialBackoff (attempt : Int) : Int :=
  let shift : Nat := (attempt % 2 ^ 64).toNat
  let factor : Int := if shift < 64 then wrapInt64 (2 ^ shift) else 0
  wrapInt64 (baseDelay * factor)

/-- The retry condition of `generateContentWithRetry`,
`err != nil || resp == nil || len(resp.Candidates) == 0 ||
len(resp.Candidates[0].Content.Parts) == 0`, evaluated left to right; the last
disjunct dereferences `Content`. -/
def attemptFailed (o : Outcome) : GoResult Bool :=
  match o.err with
  | some _ => .ok true
  | none =>
    match o.resp with
    | none => .ok true
    | some r =>
      match r.Candidates with
      | [] => .ok true
      | c :: _ =>
        match c.Content with
        | none => .panic nilDereference
        | some content => .ok (content.Parts.length == 0)

/-- The statements after the loop of `generateContentWithRetry`: the final
error check on the last outcome. -/
def finalCheck (resp : Option GenerateContentResponse) (err : Option String) :
    GoResult (Option GenerateContentResponse) :=
  match err with
  | some e => .err e
  | none => .ok resp

/-- The loop of `generateContentWithRetry` from iteration `attempt` on, with
`remaining = maxRetries - attempt` iterations left; `resp` and `err` are the
variables of the function. -/
def retryLoop (g : Gemini) (model : GenerativeModel) (prompt : String) :
    (remaining : Nat) → (attempt : Nat) → Option GenerateContentResponse → Option String →
    Trace → GoResult (Option GenerateContentResponse) × Trace
  | 0, _, resp, err, tr => (finalCheck resp err, tr)
  | remaining + 1, attempt, _, _, tr =>
    let o := g.GenerateContent tr.length model prompt
    let tr1 := tr ++ [Event.GenerateContent model prompt]
    match attemptFailed o with
    | .panic m => (.panic m, tr1)
    | .err e => (.err e, tr1)
    | .ok false => (finalCheck o.resp o.err, tr1)
    | .ok true =>
      if attempt < maxRetries - 1 then
        let delay := exponentialBackoff attempt
        let tr2 := tr1 ++ [Event.Backoff delay]
        match g.ctxDone tr1.length with
        | some e => (.err e, tr2)
        | none => retryLoop g model prompt remaining (attempt + 1) o.resp o.err tr2
      else
        retryLoop g model prompt remaining (attempt + 1) o.resp o.err tr1

/-- The method `generateContentWithRetry`.  The value `ok none` is the return
of a nil response with a nil error. -/
def generateContentWithRetry (g : Gemini) (model : GenerativeModel) (prompt : String)
    (tr : Trace) : GoResult (Option GenerateContentResponse) × Trace :=
  retryLoop g model prompt maxRetries 0 none none tr

/-- The expression `resp.Candidates[0].Content.Parts[0]`. -/
def firstPart (resp : Option GenerateContentResponse) : GoResult Part :=
  match resp with
  | none => .panic nilDereference
  | some r =>
    match r.Candidates with
    | [] => .panic indexOutOfRange
    | c :: _ =>
      match c.Content with
      | none => .panic nilDereference
      | some content =>
        match content.Parts with
        | [] => .panic indexOutOfRange
        | p :: _ => .ok p

/-- The fields of the struct that `summarizeIssues` decodes into, with the
first type error met so far. -/
structure SummaryFields where
  Summary : String
  Remedies : String
  saved : Option String
  deriving Repr, DecidableEq

/-- The method `saveError` of the decoder: the first error is kept. -/
def saveError (saved : Option String) (e : String) : Option String :=
  match saved with
  | some e0 => some e0
  | none => some e

/-- Decoding of one JSON value into a Go `string` field named `field`: a
string is stored, `null` leaves the field as it is, anything else is a type
error (the first one is kept) and decoding goes on. -/
def decodeString (field : String) (v : JSONValue) (old : String) (saved : Option String) :
    String × Option String :=
  match v with
  | .string s => (s, saved)
  | .null => (old, saved)
  | other => (old, saveError saved (unmarshalTypeError other field "string"))

/-- One object entry decoded into the struct of `summarizeIssues`. -/
def decodeSummaryEntry (acc : SummaryFields) (kv : String × JSONValue) : SummaryFields :=
  if keyMatches "summary" kv.1 then
    let r := decodeString "summary" kv.2 acc.Summary acc.saved
    { acc with Summary := r.1, saved := r.2 }
  else if keyMatches "remedies" kv.1 then
    let r := decodeString "remedies" kv.2 acc.Remedies acc.saved
    { acc with Remedies := r.1, saved := r.2 }
  else acc

/-- The steps `json.Marshal(functionCall.Args)` and `json.Unmarshal(data, &result)`
of `summarizeIssues`.  `Args` lists the entries of the map in the order
`json.Marshal` writes them (sorted by key). -/
def decodeSummary (Args : List (String × JSONValue)) : GoResult (String × String) :=
  let r := Args.foldl decodeSummaryEntry { Summary := "", Remedies := "", saved := none }
  match r.saved with
  | some e => .err e
  | none => .ok (r.Summary, r.Remedies)

/-- The fields of the struct that `generateCommands` decodes into; `spare`
holds the elements of the array under `Commands` that lie beyond its length,
left there by an earlier, longer array. -/
structure CommandFields where
  Commands : List String
  spare : List String := []
  saved : Option String
  deriving Repr, DecidableEq

/-- Decoding of the elements of a JSON array into a `[]string`: element `i`
is decoded as a `string` into the element the array under the slice holds at
position `i` (`old`), or into a new empty one when there is none. -/
def decodeStringItems (field : String) :
    List JSONValue → List String → Option String → List String × Option String
  | [], _, saved => ([], saved)
  | v :: vs, old, saved =>
    let r := decodeString field v (old.head?.getD "") saved
    let rest := decodeStringItems field vs old.tail r.2
    (r.1 :: rest.1, rest.2)

/-- One object entry decoded into the struct of `generateCommands`.  An array
is decoded element by element into the slice as it is and the slice is cut to
the length of the array, an empty array giving a new empty slice; `null` sets
the slice to nil. -/
def decodeCommandsEntry (acc : CommandFields) (kv : String × JSONValue) : CommandFields :=
  if keyMatches "commands" kv.1 then
    match kv.2 with
    | .array items =>
      let old := acc.Commands ++ acc.spare
      let r := decodeStringItems "commands" items old acc.saved
      match items with
      | [] => { Commands := [], spare := [], saved := r.2 }
      | _ :: _ => { Commands := r.1, spare := old.drop items.length, saved := r.2 }
    | .null => { acc with Commands := [], spare := [] }
    | other =>
      { acc with saved := saveError acc.saved (unmarshalTypeError other "commands" "[]string") }
  else acc

/-- The steps `json.Marshal(functionCall.Args)` and `json.Unmarshal(data, &result)`
of `generateCommands`. -/
def decodeCommands (Args : List (String × JSONValue)) : GoResult (List String) :=
  let r := Args.foldl decodeCommandsEntry { Commands := [], saved := none }
  match r.saved with
  | some e => .err e
  | none => .ok r.Commands

/-- The function `GetSummarizeIssuesFunction`. -/
def GetSummarizeIssuesFunction : FunctionDeclaration :=
  { Name := "summarize_issues"
    Description := "Summarize a list of findings and provide general remedies."
    Properties := ["summary", "remedies"]
    Required := ["summary", "remedies"] }

/-- The function `GetGenerateCommandsFunction`. -/
def GetGenerateCommandsFunction : FunctionDeclaration :=
  { Name := "generate_commands"
    Description :=
      "Generate AWS CLI commands for remediation based on the summary and remedies."
    Properties := ["commands"]
    Required := ["commands"] }

/-- The `systemPrompt` of `summarizeIssues`. -/
def summarizeSystemPrompt (service region : String) : String :=
  "\n\t\tYou are a cloud auditing expert. You will be analyzing some findings from AWS resources.\n\t\tHere are some findings from service "
    ++ service ++ " from region " ++ region ++
    ". Some findings might be just noise,\n\t\tjust simply ignore those.\n\t"

/-- The argument `strings.Join(findings[:maxItems], "\n")` of the user prompt
of `summarizeIssues`, with `maxItems` as the function computes it. -/
def findingsBlock (findings : List String) : String :=
  let maxItems := if findings.length < 50 then findings.length else 50
  String.intercalate "\n" (findings.take maxItems)

/-- The `userPrompt` of `summarizeIssues` around a findings block. -/
def summarizeUserPrompt (service region block : String) : String :=
  "\n\t\tAnalyze and summarize these findings from " ++ service ++ " in region " ++ region ++
    ":\n\t\t<Findings Start>\n\t\t" ++ block ++
    "\n\t\t<Findings End>\n\n\t\tProvide:\n\t\t1. A brief summary of the problems found.\n\t\t2. A general description of the remedies to address the issues.\n\t"

/-- The model that `summarizeIssues` configures. -/
def summarizeModel (service region : String) : GenerativeModel :=
  { name := "gemini-1.5-pro-002"
    SystemInstruction := summarizeSystemPrompt service region
    Tools := [GetSummarizeIssuesFunction]
    AllowedFunctionNames := ["summarize_issues"] }

/-- The method `summarizeIssues`. -/
def summarizeIssues (g : Gemini) (service region : String) (findings : List String)
    (tr : Trace) : GoResult (String × String) × Trace :=
  let userPrompt := summarizeUserPrompt service region (findingsBlock findings)
  match generateContentWithRetry g (summarizeModel service region) userPrompt tr with
  | (.err e, tr1) => (.err e, tr1)
  | (.panic m, tr1) => (.panic m, tr1)
  | (.ok resp, tr1) =>
    match firstPart resp with
    | .panic m => (.panic m, tr1)
    | .err e => (.err e, tr1)
    | .ok (.FunctionCall _ Args) => (decodeSummary Args, tr1)
    | .ok (.other goType) => (.err ("expected FunctionCall, got " ++ goType), tr1)

/-- The `systemPrompt` of `generateCommands`. -/
def commandsSystemPrompt (service region : String) : String :=
  "\n\t\tYou are a cloud automation expert. You will be generating AWS CLI commands to address issues in AWS resources.\n\t\tThe commands will be for service "
    ++ service ++ " in region " ++ region ++ ".\n\t"

/-- The `userPrompt` of `generateCommands`. -/
def commandsUserPrompt (summary remedies : String) : String :=
  "\n\t\tBased on the following summary and remedies, generate AWS CLI commands to address the issues:\n\n\t\tSummary:\n\t\t"
    ++ summary ++ "\n\n\t\tRemedies:\n\t\t" ++ remedies ++
    "\n\n\t\tProvide a list of AWS CLI command(s) which can be used to remediate the issues programmatically.\n\t\tMake sure that the commands are effective and do the job.\n\t"

/-- The model that `generateCommands` configures. -/
def commandsModel (service region : String) : GenerativeModel :=
  { name := "gemini-1.5-flash-002"
    SystemInstruction := commandsSystemPrompt service region
    Tools := [GetGenerateCommandsFunction]
    AllowedFunctionNames := ["generate_commands"] }

/-- The method `generateCommands`. -/
def generateCommands (g : Gemini) (service region summary remedies : String)
    (tr : Trace) : GoResult (List String) × Trace :=
  let userPrompt := commandsUserPrompt summary remedies
  match generateContentWithRetry g (commandsModel service region) userPrompt tr with
  | (.err e, tr1) => (.err e, tr1)
  | (.panic m, tr1) => (.panic m, tr1)
  | (.ok resp, tr1) =>
    match firstPart resp with
    | .panic m => (.panic m, tr1)
    | .err e => (.err e, tr1)
    | .ok (.FunctionCall _ Args) => (decodeCommands Args, tr1)
    | .ok (.other goType) => (.err ("expected FunctionCall, got " ++ goType), tr1)

end geminiapi

namespace types

/-- The struct `types.SummarizeFindings`. -/
structure SummarizeFindings where
  Summary : String
  Remedies : String
  Commands : List String
  deriving Repr, DecidableEq

end types

namespace geminiapi

/-- The method `SummarizeFindings`: the summarize call, then the command
generation call. -/
def SummarizeFindings (g : Gemini) (service region : String) (findings : List String)
    (tr : Trace) : GoResult types.SummarizeFindings × Trace :=
  let tr0 := tr ++ [Event.SummarizeFindings ⟨service, region, findings⟩]
  match summarizeIssues g service region findings tr0 with
  | (.err e, tr1) => (.err e, tr1)
  | (.panic m, tr1) => (.panic m, tr1)
  | (.ok (summary, remedies), tr1) =>
    match generateCommands g service region summary remedies tr1 with
    | (.err e, tr2) => (.err e, tr2)
    | (.panic m, tr2) => (.panic m, tr2)
    | (.ok commands, tr2) =>
      (.ok { Summary := summary, Remedies := remedies, Commands := commands }, tr2)

end geminiapi

namespace postgres

/-- The struct `postgres.CreateNewScanItemEntryParams`. -/
structure CreateNewScanItemEntryParams where
  ScanItemID : Int := 0
  Findings : List String
  Title : String
  Summary : String
  Remedy : String
  Commands : List String
  deriving Repr, DecidableEq

/-- The struct `postgres.ScanItem`, without the fields `ScanID` and `Created`,
which the scan pipeline never sets. -/
structure ScanItem where
  ScanItemID : Int := 0
  Service : String := ""
  Region : String := ""
  ResourceCost : Int := 0
  Findings : List String := []
  Summary : String := ""
  Remedy : String := ""
  deriving Repr, DecidableEq

end postgres

/-! ## The scanners (`awsmiddleware/*scanner`)

The cloud account is taken not to change during a scan: what a method of a
scanner that wraps provider calls returns is a function of its arguments.
Such methods are fields of the scanner's `Account`; the methods embedded here
are definitions. -/

/-- One category of a process-and-summarize function: the title of its
entry, the text that its `fmt.Errorf` puts before the summarizer's error, and
its findings. -/
structure Category where
  Title : String
  failure : String
  findings : List String
  deriving Repr, DecidableEq

/-- The body shared by the process-and-summarize functions of the six
scanners: one block
`if len(findings) > 0 { summary, err := scanner.Gemini.SummarizeFindings(...);
if err != nil { return nil, fmt.Errorf(failure + ": %v", err) };
scanItems = append(scanItems, ...) }` per category, in order, followed by
`return scanItems, nil`. -/
def summarizeCategories (g : geminiapi.Gemini) (service region : String) :
    List Category → List postgres.CreateNewScanItemEntryParams → Trace →
    GoResult (List postgres.CreateNewScanItemEntryParams) × Trace
  | [], scanItems, tr => (.ok scanItems, tr)
  | c :: cs, scanItems, tr =>
    if c.findings.length > 0 then
      match geminiapi.SummarizeFindings g service region c.findings tr with
      | (.err e, tr1) => (.err (c.failure ++ ": " ++ e), tr1)
      | (.panic m, tr1) => (.panic m, tr1)
      | (.ok summary, tr1) =>
        summarizeCategories g service region cs
          (scanItems ++ [{ Findings := c.findings, Title := c.Title, Summary := summary.Summary,
                           Remedy := summary.Remedies, Commands := summary.Commands }]) tr1
    else summarizeCategories g service region cs scanItems tr

/-- What a scanner returns: the flat findings and the entries, or an error. -/
abbrev ScanReturn := GoResult (List String × List postgres.CreateNewScanItemEntryParams)

/-- The last statements of every scanner: the error check on the
process-and-summarize call, then the flat findings built by `flat` and the
entries. -/
def finishScan (flat : List String)
    (r : GoResult (List postgres.CreateNewScanItemEntryParams) × Trace) : ScanReturn × Trace :=
  match r with
  | (.err e, tr) => (.err e, tr)
  | (.panic m, tr) => (.panic m, tr)
  | (.ok scanItems, tr) => (.ok (flat, scanItems), tr)

namespace s3scanner

/-- The struct `s3.Bucket` (its name). -/
structure Bucket where
  Name : Option String := none
  deriving Repr, DecidableEq

/-- The answers of the methods of `S3Scanner` that wrap provider calls.  A
check returns `(bool, string, error)`. -/
structure Account where
  ListBuckets : Except String (List Bucket)
  IsBucketPublic : String → Bool × String × Option String
  IsEncryptionEnabled : String → Bool × String × Option String
  IsVersioningEnabled : String → Bool × String × Option String
  IsLoggingEnabled : String → Bool × String × Option String
  CheckBlockPublicAccess : String → Bool × String × Option String
  IsLifecyclePolicyEnabled : String → Bool × String × Option String
  IsMFADeleteEnabled : String → Bool × String × Option String

/-- The struct `S3Scanner`. -/
structure S3Scanner where
  account : Account
  Gemini : geminiapi.Gemini

/-- The local slices of `ScanS3`. -/
structure Findings where
  allFindings : List String := []
  publicAccessFindings : List String := []
  encryptionFindings : List String := []
  versioningFindings : List String := []
  loggingFindings : List String := []
  blockPublicAccessFindings : List String := []
  lifecyclePolicyFindings : List String := []
  mfaDeleteFindings : List String := []
  deriving Repr, DecidableEq

/-- The finding that `ScanS3` records for one check of one bucket: the
check's finding, or a diagnostic when the check returned an error. -/
def checkFinding (concern bucketName : String) (r : Bool × String × Option String) : String :=
  match r.2.2 with
  | some err => "Error checking " ++ concern ++ " for bucket " ++ bucketName ++ ": " ++ err
  | none => r.2.1

/-- The body of the loop of `ScanS3` over the buckets. -/
def scanBucket (scanner : S3Scanner) (f : Findings) (bucket : Bucket) : Findings :=
  let bucketName := aws.StringValue bucket.Name
  { allFindings := f.allFindings ++ ["Found S3 Bucket: " ++ bucketName]
    publicAccessFindings := f.publicAccessFindings ++
      [checkFinding "public access" bucketName (scanner.account.IsBucketPublic bucketName)]
    encryptionFindings := f.encryptionFindings ++
      [checkFinding "encryption" bucketName (scanner.account.IsEncryptionEnabled bucketName)]
    versioningFindings := f.versioningFindings ++
      [checkFinding "versioning" bucketName (scanner.account.IsVersioningEnabled bucketName)]
    loggingFindings := f.loggingFindings ++
      [checkFinding "logging" bucketName (scanner.account.IsLoggingEnabled bucketName)]
    blockPublicAccessFindings := f.blockPublicAccessFindings ++
      [checkFinding "block public access settings" bucketName
        (scanner.account.CheckBlockPublicAccess bucketName)]
    lifecyclePolicyFindings := f.lifecyclePolicyFindings ++
      [checkFinding "lifecycle policy" bucketName
        (scanner.account.IsLifecyclePolicyEnabled bucketName)]
    mfaDeleteFindings := f.mfaDeleteFindings ++
      [checkFinding "MFA delete" bucketName (scanner.account.IsMFADeleteEnabled bucketName)] }

/-- The categories of `processAndSummarizeS3Findings`, in the order of its blocks. -/
def categories (publicAccess encryption versioning logging blockPublicAccess lifecyclePolicy
    mfaDelete : List String) : List Category :=
  [ ⟨"Public Access", "error summarizing public access findings", publicAccess⟩,
    ⟨"Encryption", "error summarizing encryption findings", encryption⟩,
    ⟨"Versioning", "error summarizing versioning findings", versioning⟩,
    ⟨"Logging", "error summarizing logging findings", logging⟩,
    ⟨"Block Public Access", "error summarizing block public access findings", blockPublicAccess⟩,
    ⟨"Lifecycle Policy", "error summarizing lifecycle policy findings", lifecyclePolicy⟩,
    ⟨"MFA Delete", "error summarizing MFA delete findings", mfaDelete⟩ ]

/-- The method `processAndSummarizeS3Findings`. -/
def processAndSummarizeS3Findings (scanner : S3Scanner) (service region : String)
    (publicAccess encryption versioning logging blockPublicAccess lifecyclePolicy
      mfaDelete : List String) (tr : Trace) :
    GoResult (List postgres.CreateNewScanItemEntryParams) × Trace :=
  summarizeCategories scanner.Gemini service region
    (categories publicAccess encryption versioning logging blockPublicAccess lifecyclePolicy
      mfaDelete) [] tr

/-- The method `ScanS3`. -/
def ScanS3 (scanner : S3Scanner) (region : String) (tr : Trace) : ScanReturn × Trace :=
  match scanner.account.ListBuckets with
  | .error err => (.err err, tr)
  | .ok buckets =>
    let f := buckets.foldl (scanBucket scanner) {}
    finishScan
      (f.allFindings ++ f.publicAccessFindings ++ f.encryptionFindings ++ f.versioningFindings ++
        f.loggingFindings ++ f.blockPublicAccessFindings ++ f.lifecyclePolicyFindings ++
        f.mfaDeleteFindings)
      (processAndSummarizeS3Findings scanner "s3" region f.publicAccessFindings
        f.encryptionFindings f.versioningFindings f.loggingFindings f.blockPublicAccessFindings
        f.lifecyclePolicyFindings f.mfaDeleteFindings tr)

end s3scanner

namespace ec2scanner

/-- The struct `ec2.Instance` (the fields the scanner reads). -/
structure Instance where
  InstanceId : Option String := none
  PublicIpAddress : Option String := none
  BlockDeviceMappings : List (Option String) := []
  SecurityGroups : List (Option String) := []
  IamInstanceProfile : Option (Option String) := none
  Monitoring : Option (Option String) := none
  MetadataOptions : Option (Option String) := none
  deriving Repr, DecidableEq

/-- The struct `ec2.Address` (the fields the scanner reads). -/
structure Address where
  AssociationId : Option String := none
  PublicIp : Option String := none
  deriving Repr, DecidableEq

/-- The answers of the methods of `EC2Scanner` that wrap provider calls, and
of the provider call `DescribeAddresses`. -/
structure Account where
  ListInstances : Except String (List Instance)
  HasPublicIP : Instance → Bool × String
  AreVolumesEncrypted : Instance → Bool × List String
  CheckSecurityGroups : Instance → List String
  CheckInstanceIAMRole : Instance → List String
  CheckCloudWatchMonitoring : Instance → List String
  CheckMetadataVersion : Instance → List String
  DescribeAddresses : Except String (List Address)

/-- The struct `EC2Scanner`. -/
structure EC2Scanner where
  account : Account
  Gemini : geminiapi.Gemini

/-- The method `CheckUnassociatedElasticIPs`. -/
def CheckUnassociatedElasticIPs (scanner : EC2Scanner) : Except String (List String) :=
  match scanner.account.DescribeAddresses with
  | .error err => .error ("error describing Elastic IPs: " ++ err)
  | .ok addresses =>
    .ok (addresses.foldl (fun findings address =>
      if address.AssociationId.isNone then
        findings ++ ["Elastic IP " ++ aws.StringValue address.PublicIp ++
          " is not associated with any instance"]
      else findings) [])

/-- The local slices of `ScanEC2`. -/
structure Findings where
  publicIPFindings : List String := []
  volumeEncryptionFindings : List String := []
  securityGroupFindings : List String := []
  iamRoleFindings : List String := []
  cloudWatchMonitoringFindings : List String := []
  metadataFindings : List String := []
  elasticIPFindings : List String := []
  deriving Repr, DecidableEq

/-- The body of the loop of `ScanEC2` over the instances. -/
def scanInstance (scanner : EC2Scanner) (f : Findings) (inst : Instance) : Findings :=
  let publicIP := scanner.account.HasPublicIP inst
  let volumes := scanner.account.AreVolumesEncrypted inst
  { f with
    publicIPFindings :=
      if publicIP.1 then f.publicIPFindings ++ [publicIP.2] else f.publicIPFindings
    volumeEncryptionFindings :=
      if !volumes.1 then f.volumeEncryptionFindings ++ volumes.2 else f.volumeEncryptionFindings
    securityGroupFindings :=
      f.securityGroupFindings ++ scanner.account.CheckSecurityGroups inst
    iamRoleFindings := f.iamRoleFindings ++ scanner.account.CheckInstanceIAMRole inst
    cloudWatchMonitoringFindings :=
      f.cloudWatchMonitoringFindings ++ scanner.account.CheckCloudWatchMonitoring inst
    metadataFindings := f.metadataFindings ++ scanner.account.CheckMetadataVersion inst }

/-- The categories of `processAndSummarizeFindings`, in the order of its blocks. -/
def categories (publicIPFindings volumeEncryptionFindings securityGroupFindings iamRoleFindings
    cloudWatchMonitoringFindings metadataFindings elasticIPFindings : List String) :
    List Category :=
  [ ⟨"Public IP Findings", "error summarizing public IP findings", publicIPFindings⟩,
    ⟨"Volume Encryption Findings", "error summarizing volume encryption findings",
      volumeEncryptionFindings⟩,
    ⟨"Security Group Findings", "error summarizing security group findings",
      securityGroupFindings⟩,
    ⟨"IAM Role Findings", "error summarizing IAM role findings", iamRoleFindings⟩,
    ⟨"CloudWatch Monitoring Findings", "error summarizing CloudWatch monitoring findings",
      cloudWatchMonitoringFindings⟩,
    ⟨"Metadata Findings", "error summarizing metadata findings", metadataFindings⟩,
    ⟨"Elastic IP Findings", "error summarizing Elastic IP findings", elasticIPFindings⟩ ]

/-- The method `processAndSummarizeFindings` of the EC2 scanner. -/
def processAndSummarizeFindings (scanner : EC2Scanner) (service region : String)
    (publicIPFindings volumeEncryptionFindings securityGroupFindings iamRoleFindings
      cloudWatchMonitoringFindings metadataFindings elasticIPFindings : List String)
    (tr : Trace) : GoResult (List postgres.CreateNewScanItemEntryParams) × Trace :=
  summarizeCategories scanner.Gemini service region
    (categories publicIPFindings volumeEncryptionFindings securityGroupFindings iamRoleFindings
      cloudWatchMonitoringFindings metadataFindings elasticIPFindings) [] tr

/-- The method `ScanEC2`.  The call of `processAndSummarizeFindings` passes
`region` and then `"ec2"`, as the source does. -/
def ScanEC2 (scanner : EC2Scanner) (region : String) (tr : Trace) : ScanReturn × Trace :=
  match scanner.account.ListInstances with
  | .error err => (.err err, tr)
  | .ok instances =>
    let f0 := instances.foldl (scanInstance scanner) {}
    let f : Findings :=
      match CheckUnassociatedElasticIPs scanner with
      | .error err =>
        { f0 with elasticIPFindings :=
            f0.elasticIPFindings ++ ["Error checking unassociated Elastic IPs: " ++ err] }
      | .ok elasticIPFinding =>
        { f0 with elasticIPFindings := f0.elasticIPFindings ++ elasticIPFinding }
    finishScan
      (f.publicIPFindings ++ f.volumeEncryptionFindings ++ f.securityGroupFindings ++
        f.iamRoleFindings ++ f.cloudWatchMonitoringFindings ++ f.metadataFindings ++
        f.elasticIPFindings)
      (processAndSummarizeFindings scanner region "ec2" f.publicIPFindings
        f.volumeEncryptionFindings f.securityGroupFindings f.iamRoleFindings
        f.cloudWatchMonitoringFindings f.metadataFindings f.elasticIPFindings tr)

end ec2scanner

namespace ecsscanner

/-- The answers of the methods of `ECSScanner` that wrap provider calls, and
of the provider call `ListTaskDefinitions`.  Cluster and task definition ARNs
are non-nil string pointers. -/
structure Account where
  ListClusters : Except String (List String)
  ListTaskDefinitions : Except String (List String)
  CheckTaskDefinitionIAMRoles : String → Except String (List String)
  CheckTaskNetworkMode : String → Except String (List String)
  CheckLoggingConfiguration : String → Except String (List String)
  CheckSensitiveEnvironmentVariables : String → Except String (List String)
  CheckResourceLimits : String → Except String (List String)

/-- The struct `ECSScanner`. -/
structure ECSScanner where
  account : Account
  Gemini : geminiapi.Gemini

/-- The local slices of `ScanECS`. -/
structure Findings where
  allFindings : List String := []
  iamRoleFindings : List String := []
  networkModeFindings : List String := []
  loggingConfigFindings : List String := []
  sensitiveEnvVarFindings : List String := []
  resourceLimitsFindings : List String := []
  deriving Repr, DecidableEq

/-- The body of the inner loop of `ScanECS` over the task definitions. -/
def scanTaskDefinition (scanner : ECSScanner) (f : Findings) (taskDefArn : String) : Findings :=
  let f1 : Findings :=
    match scanner.account.CheckTaskDefinitionIAMRoles taskDefArn with
    | .error err =>
      { f with allFindings := f.allFindings ++
          ["Error checking IAM roles for task definition " ++ taskDefArn ++ ": " ++ err] }
    | .ok iamFindings => { f with iamRoleFindings := f.iamRoleFindings ++ iamFindings }
  let f2 : Findings :=
    match scanner.account.CheckTaskNetworkMode taskDefArn with
    | .error err =>
      { f1 with allFindings := f1.allFindings ++
          ["Error checking network mode for task definition " ++ taskDefArn ++ ": " ++ err] }
    | .ok networkFindings =>
      { f1 with networkModeFindings := f1.networkModeFindings ++ networkFindings }
  let f3 : Findings :=
    match scanner.account.CheckLoggingConfiguration taskDefArn with
    | .error err =>
      { f2 with allFindings := f2.allFindings ++
          ["Error checking logging configuration for task definition " ++ taskDefArn ++ ": " ++
            err] }
    | .ok logFindings => { f2 with loggingConfigFindings := f2.loggingConfigFindings ++ logFindings }
  let f4 : Findings :=
    match scanner.account.CheckSensitiveEnvironmentVariables taskDefArn with
    | .error err =>
      { f3 with allFindings := f3.allFindings ++
          ["Error checking sensitive environment variables for task definition " ++ taskDefArn ++
            ": " ++ err] }
    | .ok sensitiveFindings =>
      { f3 with sensitiveEnvVarFindings := f3.sensitiveEnvVarFindings ++ sensitiveFindings }
  match scanner.account.CheckResourceLimits taskDefArn with
  | .error err =>
    { f4 with allFindings := f4.allFindings ++
        ["Error checking resource limits for task definition " ++ taskDefArn ++ ": " ++ err] }
  | .ok resourceFindings =>
    { f4 with resourceLimitsFindings := f4.resourceLimitsFindings ++ resourceFindings }

/-- The body of the outer loop of `ScanECS` over the clusters. -/
def scanCluster (scanner : ECSScanner) (f : Findings) (clusterArn : String) : Findings :=
  match scanner.account.ListTaskDefinitions with
  | .error err =>
    { f with allFindings := f.allFindings ++
        ["Error listing task definitions for cluster " ++ clusterArn ++ ": " ++ err] }
  | .ok taskDefinitionArns => taskDefinitionArns.foldl (scanTaskDefinition scanner) f

/-- The categories of `ProcessAndSummarizeFindings`, in the order of its blocks. -/
def categories (iamRoles networkModes loggingConfigs sensitiveEnvVars resourceLimits :
    List String) : List Category :=
  [ ⟨"IAM Roles", "error summarizing IAM roles", iamRoles⟩,
    ⟨"Network Modes", "error summarizing network modes", networkModes⟩,
    ⟨"Logging Configurations", "error summarizing logging configuration", loggingConfigs⟩,
    ⟨"Sensitive Environment Variables", "error summarizing sensitive environment variables",
      sensitiveEnvVars⟩,
    ⟨"Resource Limits", "error summarizing resource limits", resourceLimits⟩ ]

/-- The method `ProcessAndSummarizeFindings` of the ECS scanner. -/
def ProcessAndSummarizeFindings (scanner : ECSScanner) (service region : String)
    (iamRoles networkModes loggingConfigs sensitiveEnvVars resourceLimits : List String)
    (tr : Trace) : GoResult (List postgres.CreateNewScanItemEntryParams) × Trace :=
  summarizeCategories scanner.Gemini service region
    (categories iamRoles networkModes loggingConfigs sensitiveEnvVars resourceLimits) [] tr

/-- The method `ScanECS`. -/
def ScanECS (scanner : ECSScanner) (region : String) (tr : Trace) : ScanReturn × Trace :=
  match scanner.account.ListClusters with
  | .error err => (.err err, tr)
  | .ok clusters =>
    let f := clusters.foldl (scanCluster scanner) {}
    finishScan
      (f.allFindings ++ f.iamRoleFindings ++ f.networkModeFindings ++ f.loggingConfigFindings ++
        f.sensitiveEnvVarFindings ++ f.resourceLimitsFindings)
      (ProcessAndSummarizeFindings scanner "ecs" region f.iamRoleFindings f.networkModeFindings
        f.loggingConfigFindings f.sensitiveEnvVarFindings f.resourceLimitsFindings tr)

end ecsscanner

namespace lambdascanner

/-- The struct `lambda.FunctionConfiguration` (the fields the scanner reads);
`Environment` is the `Variables` map of a non-nil environment, `VpcConfig` the
`SubnetIds` of a non-nil configuration. -/
structure FunctionConfiguration where
  FunctionName : Option String := none
  Role : Option String := none
  Environment : Option (Option (List (String × String))) := none
  Timeout : Option Int := none
  VpcConfig : Option (List String) := none
  deriving Repr, DecidableEq

/-- The answers of the methods of `LambdaScanner` that wrap provider calls. -/
structure Account where
  ListFunctions : Except String (List FunctionConfiguration)
  CheckFunctionIAMRole : FunctionConfiguration → Except String (List String)
  CheckSensitiveEnvironmentVariables : FunctionConfiguration → List String
  CheckCloudWatchLogs : FunctionConfiguration → Except String (List String)
  CheckFunctionTimeout : FunctionConfiguration → List String
  CheckVpcConfiguration : FunctionConfiguration → List String

/-- The struct `LambdaScanner`. -/
structure LambdaScanner where
  account : Account
  Gemini : geminiapi.Gemini

/-- The local slices of `ScanLambda`. -/
structure Findings where
  allFindings : List String := []
  iamRoleFindings : List String := []
  envVariableFindings : List String := []
  cloudWatchLogFindings : List String := []
  timeoutFindings : List String := []
  vpcFindings : List String := []
  deriving Repr, DecidableEq

/-- The body of the loop of `ScanLambda` over the functions. -/
def scanFunction (scanner : LambdaScanner) (f : Findings) (function : FunctionConfiguration) :
    Findings :=
  let name := aws.StringValue function.FunctionName
  { allFindings := f.allFindings ++ ["Found Lambda Function: " ++ name]
    iamRoleFindings :=
      match scanner.account.CheckFunctionIAMRole function with
      | .error err =>
        f.iamRoleFindings ++ ["Error checking IAM role for function " ++ name ++ ": " ++ err]
      | .ok iamFindings => f.iamRoleFindings ++ iamFindings
    envVariableFindings :=
      f.envVariableFindings ++ scanner.account.CheckSensitiveEnvironmentVariables function
    cloudWatchLogFindings :=
      match scanner.account.CheckCloudWatchLogs function with
      | .error err =>
        f.cloudWatchLogFindings ++
          ["Error checking CloudWatch logs for function " ++ name ++ ": " ++ err]
      | .ok logFindings => f.cloudWatchLogFindings ++ logFindings
    timeoutFindings := f.timeoutFindings ++ scanner.account.CheckFunctionTimeout function
    vpcFindings := f.vpcFindings ++ scanner.account.CheckVpcConfiguration function }

/-- The categories of `processAndSummarizeFindings`, in the order of its blocks. -/
def categories (iamRoleFindings envVariableFindings cloudWatchLogFindings timeoutFindings
    vpcFindings : List String) : List Category :=
  [ ⟨"Lambda IAM Role Findings", "error summarizing IAM role findings", iamRoleFindings⟩,
    ⟨"Sensitive Environment Variable Findings",
      "error summarizing environment variable findings", envVariableFindings⟩,
    ⟨"CloudWatch Log Findings", "error summarizing CloudWatch log findings",
      cloudWatchLogFindings⟩,
    ⟨"Timeout Configuration Findings", "error summarizing timeout configuration findings",
      timeoutFindings⟩,
    ⟨"VPC Configuration Findings", "error summarizing VPC configuration findings",
      vpcFindings⟩ ]

/-- The method `processAndSummarizeFindings` of the Lambda scanner. -/
def processAndSummarizeFindings (scanner : LambdaScanner) (service region : String)
    (iamRoleFindings envVariableFindings cloudWatchLogFindings timeoutFindings
      vpcFindings : List String) (tr : Trace) :
    GoResult (List postgres.CreateNewScanItemEntryParams) × Trace :=
  summarizeCategories scanner.Gemini service region
    (categories iamRoleFindings envVariableFindings cloudWatchLogFindings timeoutFindings
      vpcFindings) [] tr

/-- The method `ScanLambda`. -/
def ScanLambda (scanner : LambdaScanner) (region : String) (tr : Trace) : ScanReturn × Trace :=
  match scanner.account.ListFunctions with
  | .error err => (.err err, tr)
  | .ok functions =>
    let f := functions.foldl (scanFunction scanner) {}
    finishScan
      (f.allFindings ++ f.iamRoleFindings ++ f.envVariableFindings ++ f.cloudWatchLogFindings ++
        f.timeoutFindings ++ f.vpcFindings)
      (processAndSummarizeFindings scanner "lambda" region f.iamRoleFindings
        f.envVariableFindings f.cloudWatchLogFindings f.timeoutFindings f.vpcFindings tr)

end lambdascanner

namespace dynamodbscanner

/-- The answers of the methods of `DynamoDBScanner` that wrap provider calls.
Table names are non-nil string pointers. -/
structure Account where
  ListTables : Except String (List String)
  CheckTableEncryption : String → Except String (List String)
  CheckPointInTimeRecovery : String → Except String (List String)
  CheckAutoScaling : String → Except String (List String)
  CheckTTLStatus : String → Except String (List String)
  CheckUnusedIndexes : String → Except String (List String)

/-- The struct `DynamoDBScanner`. -/
structure DynamoDBScanner where
  account : Account
  Gemini : geminiapi.Gemini

/-- The local slices of `ScanDynamoDB`. -/
structure Findings where
  encryptionFindings : List String := []
  pitrFindings : List String := []
  autoScalingFindings : List String := []
  ttlFindings : List String := []
  unusedIndexesFindings : List String := []
  deriving Repr, DecidableEq

/-- The findings that `ScanDynamoDB` records for one check of one table: the
check's findings, or a diagnostic when the check returned an error. -/
def checkFindings (concern tableName : String) (r : Except String (List String)) :
    List String :=
  match r with
  | .error err => ["Error checking " ++ concern ++ " for table " ++ tableName ++ ": " ++ err]
  | .ok result => result

/-- The body of the loop of `ScanDynamoDB` over the tables. -/
def scanTable (scanner : DynamoDBScanner) (f : Findings) (tableName : String) : Findings :=
  { encryptionFindings := f.encryptionFindings ++
      checkFindings "encryption" tableName (scanner.account.CheckTableEncryption tableName)
    pitrFindings := f.pitrFindings ++
      checkFindings "point-in-time recovery" tableName
        (scanner.account.CheckPointInTimeRecovery tableName)
    autoScalingFindings := f.autoScalingFindings ++
      checkFindings "auto scaling" tableName (scanner.account.CheckAutoScaling tableName)
    ttlFindings := f.ttlFindings ++
      checkFindings "TTL" tableName (scanner.account.CheckTTLStatus tableName)
    unusedIndexesFindings := f.unusedIndexesFindings ++
      checkFindings "unused indexes" tableName (scanner.account.CheckUnusedIndexes tableName) }

/-- The categories of `processAndSummarizeDynamoDBFindings`, in the order of
its blocks. -/
def categories (encryptionFindings pitrFindings autoScalingFindings ttlFindings
    unusedIndexesFindings : List String) : List Category :=
  [ ⟨"Encryption Settings", "error summarizing encryption findings", encryptionFindings⟩,
    ⟨"Point-in-Time Recovery (PITR)", "error summarizing PITR findings", pitrFindings⟩,
    ⟨"Auto Scaling Settings", "error summarizing auto scaling findings", autoScalingFindings⟩,
    ⟨"Time-to-Live (TTL) Settings", "error summarizing TTL findings", ttlFindings⟩,
    ⟨"Unused Indexes", "error summarizing unused indexes findings", unusedIndexesFindings⟩ ]

/-- The method `processAndSummarizeDynamoDBFindings`. -/
def processAndSummarizeDynamoDBFindings (scanner : DynamoDBScanner) (service region : String)
    (encryptionFindings pitrFindings autoScalingFindings ttlFindings
      unusedIndexesFindings : List String) (tr : Trace) :
    GoResult (List postgres.CreateNewScanItemEntryParams) × Trace :=
  summarizeCategories scanner.Gemini service region
    (categories encryptionFindings pitrFindings autoScalingFindings ttlFindings
      unusedIndexesFindings) [] tr

/-- The method `ScanDynamoDB`. -/
def ScanDynamoDB (scanner : DynamoDBScanner) (region : String) (tr : Trace) :
    ScanReturn × Trace :=
  match scanner.account.ListTables with
  | .error err => (.err err, tr)
  | .ok tables =>
    let f := tables.foldl (scanTable scanner) {}
    finishScan
      (f.encryptionFindings ++ f.pitrFindings ++ f.autoScalingFindings ++ f.ttlFindings ++
        f.unusedIndexesFindings)
      (processAndSummarizeDynamoDBFindings scanner "dynamodb" region f.encryptionFindings
        f.pitrFindings f.autoScalingFindings f.ttlFindings f.unusedIndexesFindings tr)

end dynamodbscanner

namespace iamscanner

/-- The struct `iam.User` (the field the scanner reads). -/
structure User where
  UserName : Option String := none
  deriving Repr, DecidableEq

/-- The struct `iam.Role` (the field the scanner reads). -/
structure Role where
  RoleName : Option String := none
  deriving Repr, DecidableEq

/-- The answers of the methods of `IAMScanner` that wrap provider calls, and
of the provider calls `GetAccountSummary` (its `SummaryMap`, a map to non-nil
`int64` pointers) and `ListRoles`. -/
structure Account where
  ListUsers : Except String (List User)
  CheckUnusedAccessKeys : User → List String
  CheckOverlyPermissivePolicies : User → List String
  CheckPrivilegeEscalation : User → List String
  CheckUserMFAStatus : User → List String
  GetAccountSummary : Except String (String → Option Int)
  ListRoles : Except String (List Role)
  CheckRoleTrustPolicies : Role → List String

/-- The struct `IAMScanner`. -/
structure IAMScanner where
  account : Account
  Gemini : geminiapi.Gemini

/-- The method `CheckRootAccountUsage`. -/
def CheckRootAccountUsage (scanner : IAMScanner) : Except String (List String) :=
  match scanner.account.GetAccountSummary with
  | .error err => .error ("error retrieving account summary: " ++ err)
  | .ok summaryMap =>
    let findings1 : List String :=
      match summaryMap "AccountAccessKeysPresent" with
      | some accountAccessKeysPresent =>
        if accountAccessKeysPresent > 0 then ["WARNING: Root account has active access keys."]
        else []
      | none => []
    let findings2 : List String :=
      match summaryMap "AccountMFAEnabled" with
      | some accountMFAEnabled =>
        if accountMFAEnabled = 0 then
          findings1 ++ ["WARNING: MFA is not enabled for the root account."]
        else findings1
      | none => findings1
    if findings2.length = 0 then
      .ok (findings2 ++ ["Root account usage appears secure based on available information."])
    else .ok findings2

/-- The local slices of `ScanIAM`. -/
structure Findings where
  unusedAccessKeysFindings : List String := []
  overlyPermissivePoliciesFindings : List String := []
  privilegeEscalationFindings : List String := []
  mfaFindings : List String := []
  rootAccountFindings : List String := []
  roleTrustFindings : List String := []
  deriving Repr, DecidableEq

/-- The body of the loop of `ScanIAM` over the users. -/
def scanUser (scanner : IAMScanner) (f : Findings) (user : User) : Findings :=
  { f with
    unusedAccessKeysFindings :=
      f.unusedAccessKeysFindings ++ scanner.account.CheckUnusedAccessKeys user
    overlyPermissivePoliciesFindings :=
      f.overlyPermissivePoliciesFindings ++ scanner.account.CheckOverlyPermissivePolicies user
    privilegeEscalationFindings :=
      f.privilegeEscalationFindings ++ scanner.account.CheckPrivilegeEscalation user
    mfaFindings := f.mfaFindings ++ scanner.account.CheckUserMFAStatus user }

/-- The root account step of `ScanIAM`. -/
def scanRootAccount (scanner : IAMScanner) (f : Findings) : Findings :=
  match CheckRootAccountUsage scanner with
  | .error err =>
    { f with rootAccountFindings :=
        f.rootAccountFindings ++ ["Error checking root account usage: " ++ err] }
  | .ok rootAccountFindingsResult =>
    { f with rootAccountFindings := f.rootAccountFindings ++ rootAccountFindingsResult }

/-- The role trust policy step of `ScanIAM`. -/
def scanRoles (scanner : IAMScanner) (f : Findings) : Findings :=
  match scanner.account.ListRoles with
  | .error err =>
    { f with roleTrustFindings := f.roleTrustFindings ++ ["Error listing roles: " ++ err] }
  | .ok roles =>
    { f with roleTrustFindings :=
        roles.foldl (fun roleTrustFindings role =>
          roleTrustFindings ++ scanner.account.CheckRoleTrustPolicies role) f.roleTrustFindings }

/-- The categories of `processAndSummarizeFindings`, in the order of its blocks. -/
def categories (unusedKeys overlyPermissivePolicies privilegeEscalation mfaStatus
    roleTrustPolicies rootAccountFindings : List String) : List Category :=
  [ ⟨"Unused Access Keys", "error summarizing unused keys", unusedKeys⟩,
    ⟨"Overly Permissive Policies", "error summarizing overly permissive policies",
      overlyPermissivePolicies⟩,
    ⟨"Privilege Escalation Risks", "error summarizing privilege escalation risks",
      privilegeEscalation⟩,
    ⟨"MFA Status", "error summarizing MFA status", mfaStatus⟩,
    ⟨"Role Trust Policies", "error summarizing role trust policies", roleTrustPolicies⟩,
    ⟨"Root Account Security", "error summarizing root account findings",
      rootAccountFindings⟩ ]

/-- The method `processAndSummarizeFindings` of the IAM scanner. -/
def processAndSummarizeFindings (scanner : IAMScanner) (service region : String)
    (unusedKeys overlyPermissivePolicies privilegeEscalation mfaStatus roleTrustPolicies
      rootAccountFindings : List String) (tr : Trace) :
    GoResult (List postgres.CreateNewScanItemEntryParams) × Trace :=
  summarizeCategories scanner.Gemini service region
    (categories unusedKeys overlyPermissivePolicies privilegeEscalation mfaStatus
      roleTrustPolicies rootAccountFindings) [] tr

/-- The method `ScanIAM`.  The flat findings are built from five of the six
categories, as the source does. -/
def ScanIAM (scanner : IAMScanner) (region : String) (tr : Trace) : ScanReturn × Trace :=
  match scanner.account.ListUsers with
  | .error err => (.err err, tr)
  | .ok users =>
    let f := scanRoles scanner (scanRootAccount scanner (users.foldl (scanUser scanner) {}))
    finishScan
      (f.unusedAccessKeysFindings ++ f.overlyPermissivePoliciesFindings ++
        f.privilegeEscalationFindings ++ f.mfaFindings ++ f.roleTrustFindings)
      (processAndSummarizeFindings scanner "iam" region f.unusedAccessKeysFindings
        f.overlyPermissivePoliciesFindings f.privilegeEscalationFindings f.mfaFindings
        f.roleTrustFindings f.rootAccountFindings tr)

end iamscanner

namespace awsmiddleware

/-! ## The scan orchestrator (`awsmiddleware/scanner.go`) -/

/-- The cloud provider: for the credentials and the region a scanner is
constructed with, what the account answers to that scanner. -/
structure Cloud where
  s3 : String → String → String → String → s3scanner.Account
  ec2 : String → String → String → String → ec2scanner.Account
  ecs : String → String → String → String → ecsscanner.Account
  lambda : String → String → String → String → lambdascanner.Account
  dynamodb : String → String → String → String → dynamodbscanner.Account
  iam : String → String → String → String → iamscanner.Account

/-- The struct `AWSMiddleware` (its summarization client). -/
structure AWSMiddleware where
  gemini : geminiapi.Gemini

/-- The struct `ScanResults`. -/
structure ScanResults where
  ScanItem : postgres.ScanItem
  ScanItemEntries : List postgres.CreateNewScanItemEntryParams
  deriving Repr, DecidableEq

/-- The `switch service` of `scanService`: the scanner of a supported service
is constructed and run, any other name gives the unsupported-service error. -/
def dispatch (cloud : Cloud) (a : AWSMiddleware)
    (accessKey secretKey sessionToken region service : String) (tr : Trace) :
    ScanReturn × Trace :=
  let tr1 := tr ++ [Event.NewScanner service region]
  if service = "s3" then
    s3scanner.ScanS3 ⟨cloud.s3 accessKey secretKey sessionToken region, a.gemini⟩ region tr1
  else if service = "ec2" then
    ec2scanner.ScanEC2 ⟨cloud.ec2 accessKey secretKey sessionToken region, a.gemini⟩ region tr1
  else if service = "ecs" then
    ecsscanner.ScanECS ⟨cloud.ecs accessKey secretKey sessionToken region, a.gemini⟩ region tr1
  else if service = "lambda" then
    lambdascanner.ScanLambda ⟨cloud.lambda accessKey secretKey sessionToken region, a.gemini⟩
      region tr1
  else if service = "dynamodb" then
    dynamodbscanner.ScanDynamoDB ⟨cloud.dynamodb accessKey secretKey sessionToken region, a.gemini⟩
      region tr1
  else if service = "iam" then
    iamscanner.ScanIAM ⟨cloud.iam accessKey secretKey sessionToken region, a.gemini⟩ region tr1
  else (.err ("unsupported service: " ++ service), tr)

/-- The method `scanService`.  It returns the scan item together with either
the entries and a nil error, or nil entries and the error; after a panic
nothing is returned. -/
def scanService (cloud : Cloud) (a : AWSMiddleware)
    (accessKey secretKey sessionToken region service : String) (tr : Trace) :
    (postgres.ScanItem × GoResult (List postgres.CreateNewScanItemEntryParams)) × Trace :=
  let result : postgres.ScanItem := { Service := service, Region := region }
  match dispatch cloud a accessKey secretKey sessionToken region service tr with
  | (.err err, tr1) => ((result, .err err), tr1)
  | (.panic m, tr1) => ((result, .panic m), tr1)
  | (.ok (findings, scanItemEntries), tr1) =>
    (({ result with Findings := findings }, .ok scanItemEntries), tr1)

/-- The inner loop of `StartScan`, over the services of one region. -/
def scanServices (cloud : Cloud) (a : AWSMiddleware)
    (accessKey secretKey sessionToken region : String) :
    List String → List ScanResults → Trace → GoResult (List ScanResults) × Trace
  | [], results, tr => (.ok results, tr)
  | service :: services, results, tr =>
    match scanService cloud a accessKey secretKey sessionToken region service tr with
    | ((_, .err err), tr1) =>
      (.err ("error scanning " ++ service ++ " in " ++ region ++ ": " ++ err), tr1)
    | ((_, .panic m), tr1) => (.panic m, tr1)
    | ((result, .ok scanItems), tr1) =>
      scanServices cloud a accessKey secretKey sessionToken region services
        (results ++ [{ ScanItem := result, ScanItemEntries := scanItems }]) tr1

/-- The outer loop of `StartScan`, over the regions. -/
def scanRegions (cloud : Cloud) (a : AWSMiddleware)
    (accessKey secretKey sessionToken : String) (services : List String) :
    List String → List ScanResults → Trace → GoResult (List ScanResults) × Trace
  | [], results, tr => (.ok results, tr)
  | region :: regions, results, tr =>
    match scanServices cloud a accessKey secretKey sessionToken region services results tr with
    | (.ok results1, tr1) =>
      scanRegions cloud a accessKey secretKey sessionToken services regions results1 tr1
    | (.err err, tr1) => (.err err, tr1)
    | (.panic m, tr1) => (.panic m, tr1)

/-- The method `StartScan`. -/
def StartScan (cloud : Cloud) (a : AWSMiddleware) (accessKey secretKey sessionToken : String)
    (regions services : List String) (tr : Trace) : GoResult (List ScanResults) × Trace :=
  scanRegions cloud a accessKey secretKey sessionToken services regions [] tr

end awsmiddleware

namespace geminiapi

/-! ## Vocabulary of the statements about the retry loop -/

/-- The outcome of attempt `k` (counted from 0) of a call of
`generateContentWithRetry` that starts with trace `tr`: every earlier attempt
has added its model call and its backoff wait to the trace. -/
def attemptOutcome (g : Gemini) (model : GenerativeModel) (prompt : String) (tr : Trace)
    (k : Nat) : Outcome :=
  g.GenerateContent (tr.length + 2 * k) model prompt

/-- Whether the backoff wait after attempt `k` of a call of
`generateContentWithRetry` that starts with trace `tr` ends because the
context is done, and with which error. -/
def waitDone (g : Gemini) (tr : Trace) (k : Nat) : Option String :=
  g.ctxDone (tr.length + 2 * k + 1)

end geminiapi

/-! ## Vocabulary of the statements about the scanners -/

/-- The categories that have at least one finding, in order. -/
def nonEmptyCategories (cats : List Category) : List Category :=
  cats.filter fun c => decide (c.findings.length > 0)

/-- The call of `SummarizeFindings` for each of the given categories, in order. -/
def callsFor (service region : String) (cats : List Category) : List SummarizeCall :=
  cats.map fun c => { service := service, region := region, findings := c.findings }

/-- What the run `run` of a process-and-summarize function over the
categories `cats`, started with trace `tr`, must satisfy.  The summarizer is
called for a leading part of the non-empty categories, once each and in
order, and for nothing else.  If an error is returned, the calls end with the
category whose summarization failed and the error is that category's failure
text followed by the summarizer's error.  If entries are returned, every
non-empty category was summarized, and the entries are, in order, one per
non-empty category, each with the title and the (non-empty) findings of its
category.  If the summarizer succeeds whenever it is called, entries are
returned. -/
def SummarizeContract (g : geminiapi.Gemini) (service region : String) (cats : List Category)
    (tr : Trace) (run : GoResult (List postgres.CreateNewScanItemEntryParams) × Trace) : Prop :=
  ∃ calls : List SummarizeCall,
    Trace.summarizeCalls run.2 = Trace.summarizeCalls tr ++ calls ∧
    calls <+: callsFor service region (nonEmptyCategories cats) ∧
    (∀ e, run.1 = .err e →
      ∃ pre c post e0, nonEmptyCategories cats = pre ++ c :: post ∧
        calls = callsFor service region (pre ++ [c]) ∧ e = c.failure ++ ": " ++ e0) ∧
    (∀ entries, run.1 = .ok entries →
      calls = callsFor service region (nonEmptyCategories cats) ∧
      entries.length = (nonEmptyCategories cats).length ∧
      entries.map (fun e => (e.Title, e.Findings)) =
        (nonEmptyCategories cats).map (fun c => (c.Title, c.findings)) ∧
      ∀ e ∈ entries, e.Findings ≠ []) ∧
    ((∀ t f, ∃ r tr', geminiapi.SummarizeFindings g service region f t = (.ok r, tr')) →
      ∃ entries, run.1 = .ok entries)

/-! ## Concrete environments used by the witnesses and the counterexamples -/

namespace examples

/-- A response with one candidate holding the given parts. -/
def respond (parts : List geminiapi.Part) : geminiapi.Outcome :=
  { resp := some { Candidates := [{ Content := some { Parts := parts } }] }, err := none }

/-- A client whose model always answers with an empty candidate list and a
nil error, and whose context is never done. -/
def emptyResponder : geminiapi.Gemini :=
  { GenerateContent := fun _ _ _ => { resp := some { Candidates := [] }, err := none }
    ctxDone := fun _ => none }

/-- A client whose model always answers with a text part. -/
def textResponder : geminiapi.Gemini :=
  { GenerateContent := fun _ _ _ => respond [.other "genai.Text"]
    ctxDone := fun _ => none }

/-- A client whose model always answers with a function call without
arguments. -/
def emptyArgsResponder : geminiapi.Gemini :=
  { GenerateContent := fun _ _ _ => respond [.FunctionCall "summarize_issues" []]
    ctxDone := fun _ => none }

/-- A client whose model always answers with a function call that carries a
summary, remedies and one command. -/
def helpfulResponder : geminiapi.Gemini :=
  { GenerateContent := fun _ _ _ =>
      respond [.FunctionCall "reply"
        [("commands", .array [.string "aws configure list"]),
         ("remedies", .string "Remedies for the findings."),
         ("summary", .string "Summary of the findings.")]]
    ctxDone := fun _ => none }

/-- A client whose model fails twice and then answers as `helpfulResponder`;
the calls of a retry loop started on the empty trace happen at the moments
0, 2 and 4. -/
def thirdTimeResponder : geminiapi.Gemini :=
  { GenerateContent := fun t m p =>
      if t < 4 then { resp := none, err := some "rpc error: code = Unavailable" }
      else helpfulResponder.GenerateContent t m p
    ctxDone := fun _ => none }

/-- A client whose model always returns an error. -/
def failingResponder : geminiapi.Gemini :=
  { GenerateContent := fun _ _ _ => { resp := none, err := some "rpc error: code = Unavailable" }
    ctxDone := fun _ => none }

/-- An S3 account without buckets whose checks report nothing. -/
def emptyS3 : s3scanner.Account :=
  { ListBuckets := .ok []
    IsBucketPublic := fun _ => (false, "", none)
    IsEncryptionEnabled := fun _ => (false, "", none)
    IsVersioningEnabled := fun _ => (false, "", none)
    IsLoggingEnabled := fun _ => (false, "", none)
    CheckBlockPublicAccess := fun _ => (false, "", none)
    IsLifecyclePolicyEnabled := fun _ => (false, "", none)
    IsMFADeleteEnabled := fun _ => (false, "", none) }

/-- An IAM account without users and roles, whose account summary has no
entries. -/
def quietIAM : iamscanner.Account :=
  { ListUsers := .ok []
    CheckUnusedAccessKeys := fun _ => []
    CheckOverlyPermissivePolicies := fun _ => []
    CheckPrivilegeEscalation := fun _ => []
    CheckUserMFAStatus := fun _ => []
    GetAccountSummary := .ok fun _ => none
    ListRoles := .ok []
    CheckRoleTrustPolicies := fun _ => [] }

/-- An IAM account with the single user alice, who has no MFA device, and
whose account summary reports that MFA is not enabled for the root account. -/
def aliceIAM : iamscanner.Account :=
  { quietIAM with
    ListUsers := .ok [{ UserName := some "alice" }]
    CheckUserMFAStatus := fun user =>
      ["WARNING: MFA is not enabled for user " ++ aws.StringValue user.UserName ++ "."]
    GetAccountSummary := .ok fun key => if key = "AccountMFAEnabled" then some 0 else none }

/-- An EC2 account without instances and with one Elastic IP that is not
associated. -/
def idleAddressEC2 : ec2scanner.Account :=
  { ListInstances := .ok []
    HasPublicIP := fun _ => (false, "")
    AreVolumesEncrypted := fun _ => (true, [])
    CheckSecurityGroups := fun _ => []
    CheckInstanceIAMRole := fun _ => []
    CheckCloudWatchMonitoring := fun _ => []
    CheckMetadataVersion := fun _ => []
    DescribeAddresses := .ok [{ AssociationId := none, PublicIp := some "203.0.113.7" }] }

/-- An EC2 account without instances whose only Elastic IP is associated. -/
def quietEC2 : ec2scanner.Account :=
  { idleAddressEC2 with
    DescribeAddresses :=
      .ok [{ AssociationId := some "eipassoc-1", PublicIp := some "203.0.113.7" }] }

/-- An ECS account without clusters. -/
def emptyECS : ecsscanner.Account :=
  { ListClusters := .ok []
    ListTaskDefinitions := .ok []
    CheckTaskDefinitionIAMRoles := fun _ => .ok []
    CheckTaskNetworkMode := fun _ => .ok []
    CheckLoggingConfiguration := fun _ => .ok []
    CheckSensitiveEnvironmentVariables := fun _ => .ok []
    CheckResourceLimits := fun _ => .ok [] }

/-- A Lambda account without functions. -/
def emptyLambda : lambdascanner.Account :=
  { ListFunctions := .ok []
    CheckFunctionIAMRole := fun _ => .ok []
    CheckSensitiveEnvironmentVariables := fun _ => []
    CheckCloudWatchLogs := fun _ => .ok []
    CheckFunctionTimeout := fun _ => []
    CheckVpcConfiguration := fun _ => [] }

/-- A DynamoDB account without tables. -/
def emptyDynamoDB : dynamodbscanner.Account :=
  { ListTables := .ok []
    CheckTableEncryption := fun _ => .ok []
    CheckPointInTimeRecovery := fun _ => .ok []
    CheckAutoScaling := fun _ => .ok []
    CheckTTLStatus := fun _ => .ok []
    CheckUnusedIndexes := fun _ => .ok [] }

/-- A cloud in which every region holds the empty or quiet accounts above. -/
def quietCloud : awsmiddleware.Cloud :=
  { s3 := fun _ _ _ _ => emptyS3
    ec2 := fun _ _ _ _ => quietEC2
    ecs := fun _ _ _ _ => emptyECS
    lambda := fun _ _ _ _ => emptyLambda
    dynamodb := fun _ _ _ _ => emptyDynamoDB
    iam := fun _ _ _ _ => quietIAM }

end examples

namespace examples

/-- A client whose model always returns an error and whose context is done
during the wait after the second attempt of a retry loop started on the empty
trace (that wait begins at moment 3). -/
def cancelledResponder : geminiapi.Gemini :=
  { GenerateContent := fun _ _ _ => { resp := none, err := some "rpc error: code = Unavailable" }
    ctxDone := fun t => if t = 3 then some "context canceled" else none }

end examples

namespace s3scanner

/-- The findings that the loop of `ScanS3` records in one category for a list
of buckets: one per bucket, in the order of the buckets. -/
def categoryFindings (concern : String) (check : String → Bool × String × Option String)
    (buckets : List Bucket) : List String :=
  buckets.map fun bucket =>
    checkFinding concern (aws.StringValue bucket.Name) (check (aws.StringValue bucket.Name))

end s3scanner

namespace examples

/-- An S3 account whose bucket listing fails. -/
def brokenS3 : s3scanner.Account :=
  { emptyS3 with ListBuckets := .error "error listing S3 buckets: AccessDenied" }

/-- A cloud whose S3 bucket listing fails in every region. -/
def brokenS3Cloud : awsmiddleware.Cloud :=
  { quietCloud with s3 := fun _ _ _ _ => brokenS3 }

/-- An S3 account with the buckets logs and data, in which the ACL lookup
fails for logs and the encryption lookup fails for data. -/
def twoBucketsS3 : s3scanner.Account :=
  { ListBuckets := .ok [{ Name := some "logs" }, { Name := some "data" }]
    IsBucketPublic := fun name =>
      if name = "logs" then
        (false, "Error fetching ACL for bucket logs: AccessDenied", some "AccessDenied")
      else (false, "Bucket " ++ name ++ " is not publicly accessible.", none)
    IsEncryptionEnabled := fun name =>
      if name = "data" then (false, "", some "error getting bucket encryption for data: timeout")
      else (true, "Bucket " ++ name ++ " has encryption enabled.", none)
    IsVersioningEnabled := fun name => (true, "Bucket " ++ name ++ " has versioning enabled.", none)
    IsLoggingEnabled := fun name => (true, "Bucket " ++ name ++ " has logging enabled.", none)
    CheckBlockPublicAccess := fun name =>
      (true, "Bucket " ++ name ++ " has Block Public Access enabled.", none)
    IsLifecyclePolicyEnabled := fun name =>
      (true, "Bucket " ++ name ++ " has a lifecycle policy configured.", none)
    IsMFADeleteEnabled := fun name => (true, "Bucket " ++ name ++ " has MFA delete enabled.", none) }

end examples

/-- The titles, out of a scanner's fixed titles, of the categories whose
findings are not empty, in order. -/
def titlesOfNonEmpty (titles : List String) (findings : List (List String)) : List String :=
  (List.zip titles findings).filterMap fun p => if p.2.length > 0 then some p.1 else none

namespace awserr

/-- An error returned by a call of the provider SDK, known by the text of
`Error()` and by the interfaces it implements: neither of the two below,
`awserr.Error` (it has a code), or `awserr.RequestFailure` (it has a code and
the status code of the HTTP response). -/
inductive Error where
  | plain (text : String)
  | coded (code text : String)
  | requestFailure (code : String) (statusCode : Int) (text : String)
  deriving Repr, DecidableEq

/-- The text of `err.Error()`, which `%v` prints. -/
def Error.text : Error → String
  | .plain text => text
  | .coded _ text => text
  | .requestFailure _ _ text => text

/-- The code `awsErr.Code()` when `err.(awserr.Error)` succeeds. -/
def Error.Code : Error → Option String
  | .plain _ => none
  | .coded code _ => some code
  | .requestFailure code _ _ => some code

/-- The status `awsErr.StatusCode()` when `err.(awserr.RequestFailure)` succeeds. -/
def Error.StatusCode : Error → Option Int
  | .plain _ => none
  | .coded _ _ => none
  | .requestFailure _ statusCode _ => some statusCode

end awserr

/-- The helper `aws.BoolValue`: the pointed-to value, or `false` for nil. -/
def aws.BoolValue (p : Option Bool) : Bool :=
  p.getD false

namespace s3scanner

/-! ## The checks of the S3 scanner (`s3scanner/main.go`) -/

/-- The output of `GetBucketVersioning` (the fields the scanner reads). -/
structure GetBucketVersioningOutput where
  Status : Option String := none
  MFADelete : Option String := none
  deriving Repr, DecidableEq

/-- The S3 client of a scanner, seen through what the provider answers: the
configured region and, for each call, its outcome.  `GetBucketLocation` gives
the `LocationConstraint`, `GetBucketPolicyStatus` the `PolicyStatus` pointer
and in it the `IsPublic` pointer, `GetBucketAcl` the `Grantee.URI` of every
grant, and `GetBucketEncryption`, `GetBucketLogging` and
`GetBucketLifecycleConfiguration` whether the pointer the check compares with
nil (`ServerSideEncryptionConfiguration`, `LoggingEnabled`, the output itself)
is non-nil. -/
structure S3Client where
  Region : String
  ListBuckets : Except awserr.Error (List Bucket)
  GetBucketLocation : String → Except awserr.Error (Option String)
  GetBucketPolicyStatus : String → Except awserr.Error (Option (Option Bool))
  GetBucketAcl : String → Except awserr.Error (List (Option String))
  GetBucketEncryption : String → Except awserr.Error Bool
  GetBucketVersioning : String → Except awserr.Error GetBucketVersioningOutput
  GetBucketLogging : String → Except awserr.Error Bool
  GetBucketLifecycleConfiguration : String → Except awserr.Error Bool

/-- The method `getBucketRegion`. -/
def getBucketRegion (client : S3Client) (bucketName : String) : Except awserr.Error String :=
  match client.GetBucketLocation bucketName with
  | .error err => .error err
  | .ok locationConstraint =>
    let region := aws.StringValue locationConstraint
    if region = "" then .ok "us-east-1" else .ok region

/-- The method `ListBuckets`: the buckets of the account whose region is the
client's; a bucket whose region lookup fails is skipped. -/
def ListBuckets (client : S3Client) : Except String (List Bucket) :=
  match client.ListBuckets with
  | .error err => .error ("error listing S3 buckets: " ++ err.text)
  | .ok buckets =>
    .ok (buckets.foldl (fun bucketsInRegion bucket =>
      match getBucketRegion client (aws.StringValue bucket.Name) with
      | .error _ => bucketsInRegion
      | .ok bucketRegion =>
        if bucketRegion = client.Region then bucketsInRegion ++ [bucket] else bucketsInRegion) [])

/-- The first statements of every check: the region of the bucket is looked
up; a failed lookup and a bucket of another region each end the check with a
finding and a nil error (`some`), otherwise the check goes on (`none`). -/
def regionGuard (client : S3Client) (bucketName : String) :
    Option (Bool × String × Option String) :=
  match getBucketRegion client bucketName with
  | .error err =>
    some (false, "Error getting bucket region for " ++ bucketName ++ ": " ++ err.text, none)
  | .ok bucketRegion =>
    if bucketRegion ≠ client.Region then
      some (false, "Skipping bucket " ++ bucketName ++ " as it is in region " ++ bucketRegion ++
        " (current region: " ++ client.Region ++ ")", none)
    else none

/-- The ACL part of `IsBucketPublic`. -/
def checkAcl (client : S3Client) (bucketName : String) : Bool × String × Option String :=
  match client.GetBucketAcl bucketName with
  | .error err =>
    (false, "Error fetching ACL for bucket " ++ bucketName ++ ": " ++ err.text, some err.text)
  | .ok grants =>
    if grants.any (fun uri =>
        aws.StringValue uri == "http://acs.amazonaws.com/groups/global/AllUsers") then
      (true, "WARNING: Bucket " ++ bucketName ++ " has public access via ACL.", none)
    else (false, "Bucket " ++ bucketName ++ " is not publicly accessible.", none)

/-- The method `IsBucketPublic`. -/
def IsBucketPublic (client : S3Client) (bucketName : String) : Bool × String × Option String :=
  match regionGuard client bucketName with
  | some early => early
  | none =>
    match client.GetBucketPolicyStatus bucketName with
    | .error err =>
      if err.Code = some "NoSuchBucketPolicy" then checkAcl client bucketName
      else (false, "Error fetching bucket policy for " ++ bucketName ++ ": " ++ err.text, none)
    | .ok policyStatus =>
      match policyStatus with
      | some isPublic =>
        if aws.BoolValue isPublic then
          (true, "WARNING: Bucket " ++ bucketName ++ " is publicly accessible via policy.", none)
        else checkAcl client bucketName
      | none => checkAcl client bucketName

/-- The method `IsEncryptionEnabled`; `s3.ErrCodeNoSuchBucket` is `"NoSuchBucket"`. -/
def IsEncryptionEnabled (client : S3Client) (bucketName : String) :
    Bool × String × Option String :=
  match regionGuard client bucketName with
  | some early => early
  | none =>
    match client.GetBucketEncryption bucketName with
    | .error err =>
      if err.Code = some "NoSuchBucket" then
        (false, "Bucket " ++ bucketName ++ " not found.", none)
      else if err.StatusCode = some 404 then
        (false, "WARNING: Encryption not enabled on bucket " ++ bucketName ++ ".", none)
      else
        (false, "", some ("error getting bucket encryption for " ++ bucketName ++ ": " ++
          err.text))
    | .ok configured =>
      if configured then (true, "Bucket " ++ bucketName ++ " has encryption enabled.", none)
      else (false, "WARNING: Bucket " ++ bucketName ++ " does not have encryption enabled.", none)

/-- The method `IsVersioningEnabled`; `s3.BucketVersioningStatusEnabled` is
`"Enabled"`. -/
def IsVersioningEnabled (client : S3Client) (bucketName : String) :
    Bool × String × Option String :=
  match regionGuard client bucketName with
  | some early => early
  | none =>
    match client.GetBucketVersioning bucketName with
    | .error err =>
      (false, "", some ("error getting bucket versioning for " ++ bucketName ++ ": " ++ err.text))
    | .ok versioning =>
      if aws.StringValue versioning.Status = "Enabled" then
        (true, "Bucket " ++ bucketName ++ " has versioning enabled.", none)
      else (false, "WARNING: Bucket " ++ bucketName ++ " does not have versioning enabled.", none)

/-- The method `IsLoggingEnabled`. -/
def IsLoggingEnabled (client : S3Client) (bucketName : String) :
    Bool × String × Option String :=
  match regionGuard client bucketName with
  | some early => early
  | none =>
    match client.GetBucketLogging bucketName with
    | .error err =>
      (false, "", some ("error getting bucket logging for " ++ bucketName ++ ": " ++ err.text))
    | .ok loggingEnabled =>
      if loggingEnabled then (true, "Bucket " ++ bucketName ++ " has logging enabled.", none)
      else (false, "WARNING: Bucket " ++ bucketName ++ " does not have logging enabled.", none)

/-- The method `CheckBlockPublicAccess`. -/
def CheckBlockPublicAccess (client : S3Client) (bucketName : String) :
    Bool × String × Option String :=
  match regionGuard client bucketName with
  | some early => early
  | none =>
    match client.GetBucketPolicyStatus bucketName with
    | .error err =>
      if err.Code = some "NoSuchBucketPolicy" then
        (true, "Bucket " ++ bucketName ++
          " does not have a policy, indicating it is not publicly accessible through policy.",
          none)
      else
        (false, "", some ("error checking block public access settings for bucket " ++
          bucketName ++ ": " ++ err.text))
    | .ok policyStatus =>
      match policyStatus with
      | some isPublic =>
        if !aws.BoolValue isPublic then
          (true, "Bucket " ++ bucketName ++ " has Block Public Access enabled.", none)
        else
          (false, "WARNING: Bucket " ++ bucketName ++
            " does not have Block Public Access settings properly configured.", none)
      | none =>
        (false, "WARNING: Bucket " ++ bucketName ++
          " does not have Block Public Access settings properly configured.", none)

/-- The method `IsLifecyclePolicyEnabled`. -/
def IsLifecyclePolicyEnabled (client : S3Client) (bucketName : String) :
    Bool × String × Option String :=
  match regionGuard client bucketName with
  | some early => early
  | none =>
    match client.GetBucketLifecycleConfiguration bucketName with
    | .error err =>
      if err.StatusCode = some 404 then
        (false, "WARNING: Bucket " ++ bucketName ++
          " does not have a lifecycle policy configured.", none)
      else
        (false, "", some ("error getting lifecycle policy for bucket " ++ bucketName ++ ": " ++
          err.text))
    | .ok lifecycle =>
      if lifecycle then
        (true, "Bucket " ++ bucketName ++ " has a lifecycle policy configured.", none)
      else
        (false, "WARNING: Bucket " ++ bucketName ++
          " does not have a lifecycle policy configured.", none)

/-- The method `IsMFADeleteEnabled`. -/
def IsMFADeleteEnabled (client : S3Client) (bucketName : String) :
    Bool × String × Option String :=
  match regionGuard client bucketName with
  | some early => early
  | none =>
    match client.GetBucketVersioning bucketName with
    | .error err =>
      (false, "", some ("error getting bucket versioning for " ++ bucketName ++ ": " ++ err.text))
    | .ok versioning =>
      if aws.StringValue versioning.MFADelete = "Enabled" then
        (true, "Bucket " ++ bucketName ++ " has MFA delete enabled.", none)
      else (false, "WARNING: Bucket " ++ bucketName ++ " does not have MFA delete enabled.", none)

/-- The methods of an `S3Scanner` whose client is `client`. -/
def accountOf (client : S3Client) : Account :=
  { ListBuckets := ListBuckets client
    IsBucketPublic := IsBucketPublic client
    IsEncryptionEnabled := IsEncryptionEnabled client
    IsVersioningEnabled := IsVersioningEnabled client
    IsLoggingEnabled := IsLoggingEnabled client
    CheckBlockPublicAccess := CheckBlockPublicAccess client
    IsLifecyclePolicyEnabled := IsLifecyclePolicyEnabled client
    IsMFADeleteEnabled := IsMFADeleteEnabled client }

/-- Whether a finding begins with the word WARNING. -/
def beginsWithWarning (finding : String) : Bool :=
  "WARNING".data.isPrefixOf finding.data

end s3scanner

namespace examples

/-- The S3 client of a scanner for us-east-1 over an account with the single
bucket b, which has no policy, no encryption configuration and no lifecycle
configuration. -/
def bareS3Client : s3scanner.S3Client :=
  { Region := "us-east-1"
    ListBuckets := .ok [{ Name := some "b" }]
    GetBucketLocation := fun _ => .ok none
    GetBucketPolicyStatus := fun _ =>
      .error (.requestFailure "NoSuchBucketPolicy" 404
        "NoSuchBucketPolicy: The bucket policy does not exist")
    GetBucketAcl := fun _ => .ok []
    GetBucketEncryption := fun _ =>
      .error (.requestFailure "ServerSideEncryptionConfigurationNotFoundError" 404
        "ServerSideEncryptionConfigurationNotFoundError: The server side encryption configuration was not found")
    GetBucketVersioning := fun _ => .ok {}
    GetBucketLogging := fun _ => .ok false
    GetBucketLifecycleConfiguration := fun _ =>
      .error (.requestFailure "NoSuchLifecycleConfiguration" 404
        "NoSuchLifecycleConfiguration: The lifecycle configuration does not exist") }

/-- The client `bareS3Client` with credentials that may not look up the
location of a bucket. -/
def deniedLocationS3Client : s3scanner.S3Client :=
  { bareS3Client with
    GetBucketLocation := fun _ =>
      .error (.requestFailure "AccessDenied" 403 "AccessDenied: Access Denied") }

/-- The client `bareS3Client` with every describe call of a check failing for
lack of permission. -/
def deniedS3Client : s3scanner.S3Client :=
  { bareS3Client with
    GetBucketPolicyStatus := fun _ =>
      .error (.requestFailure "AccessDenied" 403 "AccessDenied: Access Denied")
    GetBucketAcl := fun _ =>
      .error (.requestFailure "AccessDenied" 403 "AccessDenied: Access Denied")
    GetBucketEncryption := fun _ =>
      .error (.requestFailure "AccessDenied" 403 "AccessDenied: Access Denied")
    GetBucketVersioning := fun _ =>
      .error (.requestFailure "AccessDenied" 403 "AccessDenied: Access Denied")
    GetBucketLogging := fun _ =>
      .error (.requestFailure "AccessDenied" 403 "AccessDenied: Access Denied")
    GetBucketLifecycleConfiguration := fun _ =>
      .error (.requestFailure "AccessDenied" 403 "AccessDenied: Access Denied") }

end examples

namespace s3scanner

/-- The region a bucket is looked up to be in: nothing when the location
lookup fails, otherwise the location constraint, an empty one read as
"us-east-1". -/
def lookedUpRegion (client : S3Client) (bucket : Bucket) : Option String :=
  match client.GetBucketLocation (aws.StringValue bucket.Name) with
  | .error _ => none
  | .ok locationConstraint =>
    some (if aws.StringValue locationConstraint = "" then "us-east-1"
      else aws.StringValue locationConstraint)

/-- Whether the looked-up region of a bucket is the client's configured
region. -/
def inConfiguredRegion (client : S3Client) (bucket : Bucket) : Bool :=
  lookedUpRegion client bucket == some client.Region

/-- The flat findings of a scan of the given buckets: the "Found S3 Bucket"
lines, then the seven categories. -/
def flatFindings (account : Account) (buckets : List Bucket) : List String :=
  buckets.map (fun bucket => "Found S3 Bucket: " ++ aws.StringValue bucket.Name) ++
    categoryFindings "public access" account.IsBucketPublic buckets ++
    categoryFindings "encryption" account.IsEncryptionEnabled buckets ++
    categoryFindings "versioning" account.IsVersioningEnabled buckets ++
    categoryFindings "logging" account.IsLoggingEnabled buckets ++
    categoryFindings "block public access settings" account.CheckBlockPublicAccess buckets ++
    categoryFindings "lifecycle policy" account.IsLifecyclePolicyEnabled buckets ++
    categoryFindings "MFA delete" account.IsMFADeleteEnabled buckets

/-- The categories of a scan of the given buckets. -/
def categoriesOf (account : Account) (buckets : List Bucket) : List Category :=
  categories
    (categoryFindings "public access" account.IsBucketPublic buckets)
    (categoryFindings "encryption" account.IsEncryptionEnabled buckets)
    (categoryFindings "versioning" account.IsVersioningEnabled buckets)
    (categoryFindings "logging" account.IsLoggingEnabled buckets)
    (categoryFindings "block public access settings" account.CheckBlockPublicAccess buckets)
    (categoryFindings "lifecycle policy" account.IsLifecyclePolicyEnabled buckets)
    (categoryFindings "MFA delete" account.IsMFADeleteEnabled buckets)

end s3scanner

namespace examples

/-- An S3 client for us-east-1 over an account with four buckets: one without
a location constraint, one in eu-west-1, one whose location lookup is denied
and one in us-east-1. -/
def mixedRegionsS3Client : s3scanner.S3Client :=
  { bareS3Client with
    ListBuckets := .ok [{ Name := some "a" }, { Name := some "b" }, { Name := some "c" },
      { Name := some "d" }]
    GetBucketLocation := fun bucketName =>
      if bucketName = "a" then .ok none
      else if bucketName = "b" then .ok (some "eu-west-1")
      else if bucketName = "c" then
        .error (.requestFailure "AccessDenied" 403 "AccessDenied: Access Denied")
      else .ok (some "us-east-1") }

/-- The client `bareS3Client` whose encryption lookup succeeds without a
server-side encryption configuration. -/
def nilEncryptionS3Client : s3scanner.S3Client :=
  { bareS3Client with GetBucketEncryption := fun _ => .ok false }

end examples

/-- The helper `aws.Int64Value`: the pointed-to value, or 0 for nil. -/
def aws.Int64Value (p : Option Int) : Int :=
  p.getD 0

namespace strings

/-- The lower case of a rune, for every rune whose lower case is an ASCII
character: the letters A to Z, U+0130 (lower case i) and U+212A (lower case
k).  Every other rune is returned as it is; its lower case under
`unicode.ToLower` is not an ASCII character either. -/
def lowerRune (c : Char) : Char :=
  if 'A' ≤ c ∧ c ≤ 'Z' then Char.ofNat (c.toNat + 32)
  else if c = Char.ofNat 0x130 then 'i'
  else if c = Char.ofNat 0x212A then 'k'
  else c

/-- The function `strings.ToLower`, exact in the ASCII characters of its
result, which is what a comparison with an ASCII text reads. -/
def ToLower (s : String) : String :=
  ⟨s.data.map lowerRune⟩

end strings

namespace ec2scanner

/-! ## The checks of the EC2 scanner (`ec2scanner/main.go`) -/

/-- The struct `ec2.IpPermission` (the fields the scanner reads): `FromPort`
and the `CidrIp` of every IP range. -/
structure IpPermission where
  FromPort : Option Int := none
  IpRanges : List (Option String) := []
  deriving Repr, DecidableEq

/-- The EC2 client of a scanner, seen through what the provider answers.
`DescribeInstances` gives the instances of every reservation,
`DescribeVolumes` for a volume id the `Encrypted` pointer of every volume,
`DescribeSecurityGroups` for a group id the `IpPermissions` of every security
group.  An error is its text.  In an instance, `BlockDeviceMappings` holds the
`Ebs.VolumeId` of every mapping, `SecurityGroups` the `GroupId` of every
group, `IamInstanceProfile` the `Arn`, `Monitoring` the `State` and
`MetadataOptions` the `HttpTokens` of the struct pointed to. -/
structure EC2Client where
  DescribeInstances : Except String (List (List Instance))
  DescribeVolumes : Option String → Except String (List (Option Bool))
  DescribeSecurityGroups : Option String → Except String (List (List IpPermission))
  DescribeAddresses : Except String (List Address)

/-- The method `ListInstances`. -/
def ListInstances (client : EC2Client) : Except String (List Instance) :=
  match client.DescribeInstances with
  | .error err => .error ("error describing EC2 instances: " ++ err)
  | .ok reservations =>
    .ok (reservations.foldl (fun instances reservation => instances ++ reservation) [])

/-- The method `HasPublicIP`. -/
def HasPublicIP (inst : Instance) : Bool × String :=
  if inst.PublicIpAddress.isSome then
    (true, "Instance " ++ aws.StringValue inst.InstanceId ++ " has a public IP: " ++
      aws.StringValue inst.PublicIpAddress)
  else (false, "")

/-- The method `AreVolumesEncrypted`; the pair is `allEncrypted` and
`findings`. -/
def AreVolumesEncrypted (client : EC2Client) (inst : Instance) : Bool × List String :=
  inst.BlockDeviceMappings.foldl (fun (state : Bool × List String) volumeId =>
    match client.DescribeVolumes volumeId with
    | .error err =>
      (false, state.2 ++ ["Error retrieving volume " ++ aws.StringValue volumeId ++
        " for instance " ++ aws.StringValue inst.InstanceId ++ ": " ++ err])
    | .ok volumes =>
      volumes.foldl (fun (state : Bool × List String) encrypted =>
        if !aws.BoolValue encrypted then
          (false, state.2 ++ ["Volume " ++ aws.StringValue volumeId ++
            " attached to instance " ++ aws.StringValue inst.InstanceId ++ " is not encrypted"])
        else state) state) (true, [])

/-- The method `CheckSecurityGroups`; `%d` of an integer is its decimal text. -/
def CheckSecurityGroups (client : EC2Client) (inst : Instance) : List String :=
  inst.SecurityGroups.foldl (fun findings groupId =>
    match client.DescribeSecurityGroups groupId with
    | .error err =>
      findings ++ ["Error describing security group " ++ aws.StringValue groupId ++ ": " ++ err]
    | .ok sgDetails =>
      sgDetails.foldl (fun findings securityGroup =>
        securityGroup.foldl (fun findings permission =>
          permission.IpRanges.foldl (fun findings cidrIp =>
            if aws.StringValue cidrIp = "0.0.0.0/0" then
              findings ++ ["Security group " ++ aws.StringValue groupId ++
                " allows open access to port " ++ toString (aws.Int64Value permission.FromPort) ++
                " from any IP address (0.0.0.0/0)"]
            else findings) findings) findings) findings) []

/-- The method `CheckInstanceIAMRole`. -/
def CheckInstanceIAMRole (inst : Instance) : List String :=
  match inst.IamInstanceProfile with
  | some profile =>
    ["Instance " ++ aws.StringValue inst.InstanceId ++
      " has an IAM instance profile attached: " ++ aws.StringValue profile]
  | none =>
    ["WARNING: Instance " ++ aws.StringValue inst.InstanceId ++
      " does not have an IAM role attached"]

/-- The method `CheckCloudWatchMonitoring`. -/
def CheckCloudWatchMonitoring (inst : Instance) : List String :=
  match inst.Monitoring with
  | some state =>
    if aws.StringValue state = "enabled" then
      ["CloudWatch monitoring is enabled for instance " ++ aws.StringValue inst.InstanceId]
    else
      ["WARNING: CloudWatch monitoring is not enabled for instance " ++
        aws.StringValue inst.InstanceId]
  | none =>
    ["WARNING: CloudWatch monitoring is not enabled for instance " ++
      aws.StringValue inst.InstanceId]

/-- The method `CheckMetadataVersion`. -/
def CheckMetadataVersion (inst : Instance) : List String :=
  match inst.MetadataOptions with
  | some httpTokens =>
    if strings.ToLower (aws.StringValue httpTokens) = "required" then
      ["Instance " ++ aws.StringValue inst.InstanceId ++ " is using IMDSv2 for metadata access"]
    else
      ["WARNING: Instance " ++ aws.StringValue inst.InstanceId ++
        " is not using IMDSv2 for metadata access"]
  | none =>
    ["WARNING: Instance " ++ aws.StringValue inst.InstanceId ++
      " is not using IMDSv2 for metadata access"]

/-- The methods of an `EC2Scanner` whose client is `client`. -/
def accountOf (client : EC2Client) : Account :=
  { ListInstances := ListInstances client
    HasPublicIP := HasPublicIP
    AreVolumesEncrypted := AreVolumesEncrypted client
    CheckSecurityGroups := CheckSecurityGroups client
    CheckInstanceIAMRole := CheckInstanceIAMRole
    CheckCloudWatchMonitoring := CheckCloudWatchMonitoring
    CheckMetadataVersion := CheckMetadataVersion
    DescribeAddresses := client.DescribeAddresses }

end ec2scanner

namespace examples

/-- The instance i-1, which has a public IP address and one attached volume,
no security group, no instance profile, no monitoring and no metadata
options. -/
def exposedInstance : ec2scanner.Instance :=
  { InstanceId := some "i-1"
    PublicIpAddress := some "198.51.100.4"
    BlockDeviceMappings := [some "vol-1"] }

/-- An EC2 client over an account with the single instance `exposedInstance`,
whose volume is not encrypted; the account has no Elastic IP. -/
def exposedInstanceEC2Client : ec2scanner.EC2Client :=
  { DescribeInstances := .ok [[exposedInstance]]
    DescribeVolumes := fun _ => .ok [some false]
    DescribeSecurityGroups := fun _ => .ok []
    DescribeAddresses := .ok [] }

/-- The account of `exposedInstanceEC2Client` with an instance that has an
instance profile, detailed monitoring and IMDSv2 required. -/
def hardenedInstanceEC2Client : ec2scanner.EC2Client :=
  { exposedInstanceEC2Client with
    DescribeInstances := .ok [[{ exposedInstance with
      IamInstanceProfile := some (some "arn:aws:iam::123456789012:instance-profile/web")
      Monitoring := some (some "enabled")
      MetadataOptions := some (some "required") }]] }

end examples

namespace time

/-- The largest `time.Duration`, in nanoseconds. -/
def maxDuration : Int := 2 ^ 63 - 1

/-- The smallest `time.Duration`, in nanoseconds. -/
def minDuration : Int := -(2 ^ 63)

/-- The constant `time.Hour`, in nanoseconds. -/
def Hour : Int := 3600000000000

/-- The method `Time.Sub` on instants given in nanoseconds, neither with a
monotonic clock reading: the difference `t - u`, or the largest or smallest
duration when the difference is out of range. -/
def Sub (t u : Int) : Int :=
  if t - u > maxDuration then maxDuration
  else if t - u < minDuration then minDuration
  else t - u

/-- The function `time.Since` when the clock reads `now`. -/
def Since (now t : Int) : Int :=
  Sub now t

end time

namespace iam

/-- The struct `iam.AttachedPolicy`. -/
structure AttachedPolicy where
  PolicyArn : Option String := none
  PolicyName : Option String := none
  deriving Repr, DecidableEq

/-- A policy document as the library functions of the checks see it:
`url.QueryUnescape` fails on it with the given error; or it unescapes to a
text that is not valid JSON, on which `json.Unmarshal` fails with the given
syntax error whatever it decodes into; or it unescapes to the JSON text of the
given value. -/
inductive Document where
  | badEscape (err : String)
  | badSyntax (err : String)
  | json (v : JSONValue)
  deriving Repr

/-- The IAM client of a scanner, seen through what the provider answers; an
error is its text.  `ListAccessKeys` gives the `AccessKeyId` of every key of
the named user, `GetAccessKeyLastUsed` the `LastUsedDate` pointer of a key as
an instant in nanoseconds, `ListAttachedUserPolicies` and
`ListAttachedRolePolicies` the attached policies of the named user or role,
`GetPolicy` the `DefaultVersionId` of the policy with the given ARN,
`GetPolicyVersion` the `Document` of the given version, and `GetRole` the
`AssumeRolePolicyDocument` of the named role.  In an answer without error the
structs and the document texts that the checks dereference are present, as
they are in every answer of the provider. -/
structure IAM where
  ListAccessKeys : Option String → Except String (List (Option String))
  GetAccessKeyLastUsed : Option String → Except String (Option Int)
  ListAttachedUserPolicies : Option String → Except String (List AttachedPolicy)
  ListAttachedRolePolicies : Option String → Except String (List AttachedPolicy)
  GetPolicy : Option String → Except String (Option String)
  GetPolicyVersion : Option String → Option String → Except String Document
  GetRole : Option String → Except String Document

end iam

namespace iamscanner

/-! ## The checks of the IAM scanner (`iamscanner/main.go`) -/

/-- The loop of `CheckUnusedAccessKeys` over the access keys, from the key
with index `i` on; `now i` is what the clock reads when the last-used date of
the key with index `i` is compared. -/
def checkAccessKeys (client : iam.IAM) (now : Nat → Int) (user : User) :
    Nat → List (Option String) → List String → List String
  | _, [], findings => findings
  | i, accessKeyId :: rest, findings =>
    checkAccessKeys client now user (i + 1) rest
      (match client.GetAccessKeyLastUsed accessKeyId with
      | .error err =>
        findings ++ ["Error checking last used time for access key " ++
          aws.StringValue accessKeyId ++ ": " ++ err]
      | .ok lastUsedDate =>
        match lastUsedDate with
        | none =>
          findings ++ ["WARNING: Access key " ++ aws.StringValue accessKeyId ++ " for user " ++
            aws.StringValue user.UserName ++ " has not been used for over 90 days."]
        | some date =>
          if time.Since (now i) date > 90 * 24 * time.Hour then
            findings ++ ["WARNING: Access key " ++ aws.StringValue accessKeyId ++ " for user " ++
              aws.StringValue user.UserName ++ " has not been used for over 90 days."]
          else findings)

/-- The method `CheckUnusedAccessKeys`. -/
def CheckUnusedAccessKeys (client : iam.IAM) (now : Nat → Int) (user : User) : List String :=
  match client.ListAccessKeys user.UserName with
  | .error err =>
    ["Error listing access keys for user " ++ aws.StringValue user.UserName ++ ": " ++ err]
  | .ok keys => checkAccessKeys client now user 0 keys []

end iamscanner

namespace examples

/-- An IAM client over an account whose user alice has the access keys
AKIA1, never used, AKIA2, last used at instant 1000, AKIA3, last used at
instant 999, and AKIA4, whose last-used lookup is denied; nothing is
attached to any user or role. -/
def keysIAMClient : iam.IAM :=
  { ListAccessKeys := fun _ => .ok [some "AKIA1", some "AKIA2", some "AKIA3", some "AKIA4"]
    GetAccessKeyLastUsed := fun accessKeyId =>
      if accessKeyId = some "AKIA1" then .ok none
      else if accessKeyId = some "AKIA2" then .ok (some 1000)
      else if accessKeyId = some "AKIA3" then .ok (some 999)
      else .error "AccessDenied: Access Denied"
    ListAttachedUserPolicies := fun _ => .ok []
    ListAttachedRolePolicies := fun _ => .ok []
    GetPolicy := fun _ => .error "NoSuchEntity: Policy not found"
    GetPolicyVersion := fun _ _ => .error "NoSuchEntity: Policy version not found"
    GetRole := fun _ => .error "NoSuchEntity: Role not found" }

end examples

namespace iamscanner

/-- What one turn of the loop of `CheckUnusedAccessKeys` appends for the key
with index `i`. -/
def accessKeyFindings (client : iam.IAM) (now : Nat → Int) (user : User) (i : Nat)
    (accessKeyId : Option String) : List String :=
  match client.GetAccessKeyLastUsed accessKeyId with
  | .error err =>
    ["Error checking last used time for access key " ++ aws.StringValue accessKeyId ++ ": " ++
      err]
  | .ok lastUsedDate =>
    match lastUsedDate with
    | none =>
      ["WARNING: Access key " ++ aws.StringValue accessKeyId ++ " for user " ++
        aws.StringValue user.UserName ++ " has not been used for over 90 days."]
    | some date =>
      if time.Since (now i) date > 90 * 24 * time.Hour then
        ["WARNING: Access key " ++ aws.StringValue accessKeyId ++ " for user " ++
          aws.StringValue user.UserName ++ " has not been used for over 90 days."]
      else []

end iamscanner

namespace strings

/-- The parts of a text between the occurrences of the separator. -/
def splitChars (sep : Char) : List Char → List (List Char)
  | [] => [[]]
  | c :: cs =>
    if c = sep then [] :: splitChars sep cs
    else
      match splitChars sep cs with
      | [] => [[c]]
      | part :: parts => (c :: part) :: parts

/-- The function `strings.Split` for a separator of one character. -/
def Split (s : String) (sep : Char) : List String :=
  (splitChars sep s.data).map String.mk

/-- Whether the text `substr` occurs in the text `s`. -/
def containsChars (substr : List Char) : List Char → Bool
  | [] => substr.isEmpty
  | c :: cs => substr.isPrefixOf (c :: cs) || containsChars substr cs

/-- The function `strings.Contains`. -/
def Contains (s substr : String) : Bool :=
  containsChars substr.data s.data

end strings

/-- The index expression `m[key]` on a `map[string]interface{}` decoded from a
JSON object, whose members are listed in the order of the text: the value of
the last member with that key, and nil (`null`) when there is none or the map
is nil. -/
def mapIndex (m : List (String × JSONValue)) (key : String) : JSONValue :=
  m.foldl (fun found kv => if kv.1 = key then kv.2 else found) .null

/-- The call `json.Unmarshal` into a nil `map[string]interface{}` of the JSON
text of a value: `null` leaves the map nil, an object fills it, and any other
value is a type error. -/
def unmarshalMap (v : JSONValue) : Except String (List (String × JSONValue)) :=
  match v with
  | .null => .ok []
  | .object fields => .ok fields
  | other =>
    .error ("json: cannot unmarshal " ++ other.kind ++
      " into Go value of type map[string]interface {}")

namespace lambdascanner

/-! ## The role checks of the Lambda scanner (`lambdascanner/main.go`) -/

/-- The statements `roleParts := strings.Split(roleArn, "/")` and
`roleName := roleParts[1]` of `CheckFunctionIAMRole` and `CheckCloudWatchLogs`:
nothing when there are fewer than two parts. -/
def roleNameOf (roleArn : String) : Option String :=
  match strings.Split roleArn '/' with
  | _ :: roleName :: _ => some roleName
  | _ => none

/-- The body of the loop of `CheckFunctionIAMRole` over the attached
policies. -/
def checkRolePolicy (client : iam.IAM) (function : FunctionConfiguration) (roleName : String)
    (findings : List String) (policy : iam.AttachedPolicy) : List String :=
  match client.GetPolicy policy.PolicyArn with
  | .error err =>
    findings ++ ["Error retrieving policy " ++ aws.StringValue policy.PolicyName ++ ": " ++ err]
  | .ok defaultVersionId =>
    match client.GetPolicyVersion policy.PolicyArn defaultVersionId with
    | .error err => findings ++ ["Error retrieving policy version: " ++ err]
    | .ok (.badEscape err) =>
      findings ++ ["Error decoding policy document for policy " ++
        aws.StringValue policy.PolicyName ++ ": " ++ err]
    | .ok (.badSyntax err) =>
      findings ++ ["Error parsing policy document for policy " ++
        aws.StringValue policy.PolicyName ++ ": " ++ err]
    | .ok (.json v) =>
      match unmarshalMap v with
      | .error err =>
        findings ++ ["Error parsing policy document for policy " ++
          aws.StringValue policy.PolicyName ++ ": " ++ err]
      | .ok policyDoc =>
        match mapIndex policyDoc "Statement" with
        | .array statements =>
          statements.foldl (fun findings stmt =>
            match stmt with
            | .object statement =>
              match mapIndex statement "Action" with
              | .string action =>
                if action = "*" then
                  findings ++ ["WARNING: Lambda function " ++
                    aws.StringValue function.FunctionName ++
                    " has overly permissive actions in IAM role " ++ roleName ++ "."]
                else findings
              | _ => findings
            | _ =>
              findings ++ ["Invalid statement structure in policy " ++
                aws.StringValue policy.PolicyName]) findings
        | _ =>
          findings ++ ["Invalid policy document structure for policy " ++
            aws.StringValue policy.PolicyName]

/-- The method `CheckFunctionIAMRole`. -/
def CheckFunctionIAMRole (client : iam.IAM) (function : FunctionConfiguration) :
    Except String (List String) :=
  let roleArn := aws.StringValue function.Role
  if roleArn = "" then
    .ok ["WARNING: Lambda function " ++ aws.StringValue function.FunctionName ++
      " does not have a valid IAM role assigned."]
  else
    match roleNameOf roleArn with
    | none =>
      .ok ["WARNING: Lambda function " ++ aws.StringValue function.FunctionName ++
        " has an invalid IAM role ARN: " ++ roleArn]
    | some roleName =>
      match client.GetRole (some roleName) with
      | .error err =>
        if strings.Contains err "NoSuchEntity" then
          .ok ["WARNING: IAM role " ++ roleName ++ " for Lambda function " ++
            aws.StringValue function.FunctionName ++ " does not exist."]
        else .error ("error getting IAM role " ++ roleName ++ ": " ++ err)
      | .ok _ =>
        match client.ListAttachedRolePolicies (some roleName) with
        | .error err =>
          .error ("error listing attached policies for role " ++ roleName ++ ": " ++ err)
        | .ok policies => .ok (policies.foldl (checkRolePolicy client function roleName) [])

/-- The condition on an action of `CheckCloudWatchLogs`. -/
def isLoggingAction (action : JSONValue) : Bool :=
  match action with
  | .string s => s = "logs:CreateLogGroup" || s = "logs:CreateLogStream" || s = "logs:PutLogEvents"
  | _ => false

/-- The loop of `CheckCloudWatchLogs` over the statements of a policy; the
state is `findings` and `hasLoggingPermission`.  A matching action in a list
ends the loop over that list; a matching single action ends the loop over the
statements. -/
def logStatements (policyName : String) :
    List JSONValue → List String × Bool → List String × Bool
  | [], state => state
  | stmt :: rest, state =>
    match stmt with
    | .object statement =>
      match mapIndex statement "Action" with
      | .array actionList =>
        logStatements policyName rest
          (state.1, if actionList.any isLoggingAction then true else state.2)
      | .string actionStr =>
        if isLoggingAction (.string actionStr) then (state.1, true)
        else logStatements policyName rest state
      | _ => logStatements policyName rest state
    | _ =>
      logStatements policyName rest
        (state.1 ++ ["Invalid statement structure in policy " ++ policyName], state.2)

/-- The body of the loop of `CheckCloudWatchLogs` over the attached policies;
the state is `findings` and `hasLoggingPermission`. -/
def checkLogPolicy (client : iam.IAM) (state : List String × Bool)
    (policy : iam.AttachedPolicy) : List String × Bool :=
  match client.GetPolicy policy.PolicyArn with
  | .error _ => state
  | .ok defaultVersionId =>
    match client.GetPolicyVersion policy.PolicyArn defaultVersionId with
    | .error _ => state
    | .ok (.badEscape err) =>
      (state.1 ++ ["Error decoding policy document for policy " ++
        aws.StringValue policy.PolicyName ++ ": " ++ err], state.2)
    | .ok (.badSyntax _) => state
    | .ok (.json v) =>
      match unmarshalMap v with
      | .error _ => state
      | .ok policyDoc =>
        match mapIndex policyDoc "Statement" with
        | .array statements =>
          logStatements (aws.StringValue policy.PolicyName) statements state
        | _ =>
          (state.1 ++ ["Invalid policy document structure for policy " ++
            aws.StringValue policy.PolicyName], state.2)

/-- The method `CheckCloudWatchLogs`. -/
def CheckCloudWatchLogs (client : iam.IAM) (function : FunctionConfiguration) :
    Except String (List String) :=
  let roleArn := aws.StringValue function.Role
  if roleArn = "" then
    .ok ["WARNING: Lambda function " ++ aws.StringValue function.FunctionName ++
      " does not have a valid IAM role assigned."]
  else
    match roleNameOf roleArn with
    | none =>
      .ok ["WARNING: Lambda function " ++ aws.StringValue function.FunctionName ++
        " has an invalid IAM role ARN: " ++ roleArn]
    | some roleName =>
      match client.GetRole (some roleName) with
      | .error err =>
        if strings.Contains err "NoSuchEntity" then
          .ok ["WARNING: IAM role " ++ roleName ++ " for Lambda function " ++
            aws.StringValue function.FunctionName ++ " does not exist."]
        else .error ("error getting IAM role " ++ roleName ++ ": " ++ err)
      | .ok _ =>
        match client.ListAttachedRolePolicies (some roleName) with
        | .error err =>
          .error ("error listing attached policies for role " ++ roleName ++ ": " ++ err)
        | .ok policies =>
          let state := policies.foldl (checkLogPolicy client) ([], false)
          if state.2 then
            .ok (state.1 ++ ["CloudWatch logging is enabled for Lambda function " ++
              aws.StringValue function.FunctionName ++ "."])
          else
            .ok (state.1 ++ ["WARNING: CloudWatch logging is not enabled for Lambda function " ++
              aws.StringValue function.FunctionName ++ "."])

end lambdascanner

namespace ecsscanner

/-! ## The role check of the ECS scanner (`ecsscanner/main.go`) -/

/-- The statements `arnParts := strings.Split(roleArn, "/")` and
`roleName := arnParts[len(arnParts)-1]` of `CheckTaskDefinitionIAMRoles`:
nothing when there are fewer than two parts. -/
def roleNameOf (roleArn : String) : Option String :=
  let arnParts := strings.Split roleArn '/'
  if arnParts.length < 2 then none else arnParts.getLast?

/-- The method `CheckTaskDefinitionIAMRoles`; `DescribeTaskDefinition` gives
the `ExecutionRoleArn` pointer of the task definition, or the text of the
error. -/
def CheckTaskDefinitionIAMRoles (DescribeTaskDefinition : String → Except String (Option String))
    (iamClient : iam.IAM) (taskDefArn : String) : Except String (List String) :=
  match DescribeTaskDefinition taskDefArn with
  | .error err => .error ("error describing task definition " ++ taskDefArn ++ ": " ++ err)
  | .ok executionRoleArn =>
    match executionRoleArn with
    | some roleArn =>
      match roleNameOf roleArn with
      | none => .error ("invalid ARN format for IAM role: " ++ roleArn)
      | some roleName =>
        match iamClient.GetRole (some roleName) with
        | .error err => .error ("error getting IAM role " ++ roleName ++ ": " ++ err)
        | .ok _ =>
          .ok ["Found IAM role for task definition " ++ taskDefArn ++ ": " ++ roleName]
    | none => .ok ["WARNING: No IAM execution role found for task definition " ++ taskDefArn]

end ecsscanner

namespace examples

/-- An IAM client over an account whose only role is MyRole, with the path
service-role, without attached policies. -/
def pathRoleIAMClient : iam.IAM :=
  { keysIAMClient with
    GetRole := fun roleName =>
      if roleName = some "MyRole" then .ok (.json (.object []))
      else .error "NoSuchEntity: The role cannot be found." }

end examples

/-- A key selects the struct field named `field` (an ASCII name) when it is
that name exactly or up to case folding. -/
def keyMatchesFold (field key : String) : Bool :=
  key == field || key.data.map foldChar == field.data.map foldChar

/-- The text of the `json.UnmarshalTypeError` for a value of the wrong kind
met while decoding the field with path `field` inside the struct type named
`struct`. -/
def unmarshalTypeErrorIn (v : JSONValue) (struct field goType : String) : String :=
  "json: cannot unmarshal " ++ v.kind ++ " into Go struct field " ++ struct ++ "." ++ field ++
    " of type " ++ goType

namespace iamscanner

/-! ## Policy documents (`iamscanner/main.go`) -/

/-- The struct `Principal`. -/
structure Principal where
  AWS : String := ""
  deriving Repr

/-- The struct `Statement`; an `interface{}` field holds the decoded JSON
value, nil being `null`. -/
structure Statement where
  Effect : String := ""
  Action : JSONValue := .null
  Resource : JSONValue := .null
  Principal : Option Principal := none
  deriving Repr

/-- The struct `PolicyDocument`. -/
structure PolicyDocument where
  Version : String := ""
  Statement : List Statement := []
  deriving Repr

/-- Decoding of one JSON value into a Go `string` field: a string is stored,
`null` leaves the field as it is, anything else is a type error (the first
one is kept) and decoding goes on. -/
def decodeStringField (struct field : String) (v : JSONValue) (old : String)
    (saved : Option String) : String × Option String :=
  match v with
  | .string s => (s, saved)
  | .null => (old, saved)
  | other => (old, geminiapi.saveError saved (unmarshalTypeErrorIn other struct field "string"))

/-- One object member decoded into a `Principal`. -/
def decodePrincipalEntry (acc : Principal × Option String) (kv : String × JSONValue) :
    Principal × Option String :=
  if keyMatchesFold "AWS" kv.1 then
    let r := decodeStringField "Principal" "Statement.Principal.AWS" kv.2 acc.1.AWS acc.2
    ({ AWS := r.1 }, r.2)
  else acc

/-- Decoding of one JSON value into the field `Principal *Principal`: `null`
sets the pointer to nil; otherwise a nil pointer is given a new `Principal`,
into which an object is decoded member by member, anything else being a type
error. -/
def decodePrincipal (v : JSONValue) (old : Option Principal) (saved : Option String) :
    Option Principal × Option String :=
  match v with
  | .null => (none, saved)
  | .object fields =>
    let r := fields.foldl decodePrincipalEntry (old.getD {}, saved)
    (some r.1, r.2)
  | other =>
    (some (old.getD {}), geminiapi.saveError saved
      (unmarshalTypeErrorIn other "Statement" "Statement.Principal" "iamscanner.Principal"))

/-- One object member decoded into a `Statement`. -/
def decodeStatementEntry (acc : Statement × Option String) (kv : String × JSONValue) :
    Statement × Option String :=
  if keyMatchesFold "Effect" kv.1 then
    let r := decodeStringField "Statement" "Statement.Effect" kv.2 acc.1.Effect acc.2
    ({ acc.1 with Effect := r.1 }, r.2)
  else if keyMatchesFold "Action" kv.1 then ({ acc.1 with Action := kv.2 }, acc.2)
  else if keyMatchesFold "Resource" kv.1 then ({ acc.1 with Resource := kv.2 }, acc.2)
  else if keyMatchesFold "Principal" kv.1 then
    let r := decodePrincipal kv.2 acc.1.Principal acc.2
    ({ acc.1 with Principal := r.1 }, r.2)
  else acc

/-- Decoding of one element of the `Statement` array into the `Statement`
that the array under the slice holds at that position (`old`): the members of
an object are decoded into its fields, `null` has no effect, anything else is
a type error. -/
def decodeStatement (v : JSONValue) (old : Statement) (saved : Option String) :
    Statement × Option String :=
  match v with
  | .object fields => fields.foldl decodeStatementEntry (old, saved)
  | .null => (old, saved)
  | other =>
    (old, geminiapi.saveError saved
      (unmarshalTypeErrorIn other "PolicyDocument" "Statement" "iamscanner.Statement"))

/-- Decoding of the elements of a JSON array into the slice `[]Statement`:
element `i` is decoded into the element the array under the slice holds at
position `i` (`old`), or into a new zero `Statement` when there is none. -/
def decodeStatements :
    List JSONValue → List Statement → Option String → List Statement × Option String
  | [], _, saved => ([], saved)
  | v :: vs, old, saved =>
    let r := decodeStatement v (old.head?.getD {}) saved
    let rest := decodeStatements vs old.tail r.2
    (r.1 :: rest.1, rest.2)

/-- The `PolicyDocument` being decoded; `spare` holds the elements of the
array under `Statement` that lie beyond its length, left there by an earlier,
longer array, and `saved` the first type error. -/
structure PolicyFields where
  doc : PolicyDocument := {}
  spare : List Statement := []
  saved : Option String := none
  deriving Repr

/-- One object member decoded into a `PolicyDocument`.  An array under
`Statement` is decoded element by element into the slice as it is and the
slice is cut to the length of the array, an empty array giving a new empty
slice; `null` sets the slice to nil. -/
def decodePolicyEntry (acc : PolicyFields) (kv : String × JSONValue) : PolicyFields :=
  if keyMatchesFold "Version" kv.1 then
    let r := decodeStringField "PolicyDocument" "Version" kv.2 acc.doc.Version acc.saved
    { acc with doc := { acc.doc with Version := r.1 }, saved := r.2 }
  else if keyMatchesFold "Statement" kv.1 then
    match kv.2 with
    | .array items =>
      let old := acc.doc.Statement ++ acc.spare
      let r := decodeStatements items old acc.saved
      match items with
      | [] => { doc := { acc.doc with Statement := [] }, spare := [], saved := r.2 }
      | _ :: _ =>
        { doc := { acc.doc with Statement := r.1 }, spare := old.drop items.length,
          saved := r.2 }
    | .null => { acc with doc := { acc.doc with Statement := [] }, spare := [] }
    | other =>
      let e := unmarshalTypeErrorIn other "PolicyDocument" "Statement" "[]iamscanner.Statement"
      { acc with saved := geminiapi.saveError acc.saved e }
  else acc

/-- The call `json.Unmarshal` into a zero `PolicyDocument` of the JSON text of
a value: `null` has no effect, the members of an object are decoded in order
into the fields their keys select, a value that does not fit its field is
skipped, and the error returned is the earliest type error. -/
def unmarshalPolicyDocument (v : JSONValue) : Except String PolicyDocument :=
  match v with
  | .null => .ok {}
  | .object fields =>
    let r := fields.foldl decodePolicyEntry {}
    match r.saved with
    | some e => .error e
    | none => .ok r.doc
  | other =>
    .error ("json: cannot unmarshal " ++ other.kind ++
      " into Go value of type iamscanner.PolicyDocument")

/-- The type switch on `statement.Action` of `CheckOverlyPermissivePolicies`
and `CheckPrivilegeEscalation`: the slice `actions`. -/
def actionsOf (Action : JSONValue) : List String :=
  match Action with
  | .string v => [v]
  | .array v =>
    v.foldl (fun actions a =>
      match a with
      | .string actionStr => actions ++ [actionStr]
      | _ => actions) []
  | _ => []

/-- The body of the loop of `CheckOverlyPermissivePolicies` over the attached
policies. -/
def checkPermissivePolicy (client : iam.IAM) (user : User) (findings : List String)
    (policy : iam.AttachedPolicy) : List String :=
  match client.GetPolicy policy.PolicyArn with
  | .error err =>
    findings ++ ["Error retrieving policy " ++ aws.StringValue policy.PolicyName ++
      " for user " ++ aws.StringValue user.UserName ++ ": " ++ err]
  | .ok defaultVersionId =>
    match client.GetPolicyVersion policy.PolicyArn defaultVersionId with
    | .error err =>
      findings ++ ["Error retrieving policy version " ++ aws.StringValue defaultVersionId ++
        ": " ++ err]
    | .ok (.badEscape err) =>
      findings ++ ["Error decoding policy document for policy " ++
        aws.StringValue policy.PolicyName ++ ": " ++ err]
    | .ok (.badSyntax err) =>
      findings ++ ["Error parsing policy document for policy " ++
        aws.StringValue policy.PolicyName ++ ": " ++ err]
    | .ok (.json v) =>
      match unmarshalPolicyDocument v with
      | .error err =>
        findings ++ ["Error parsing policy document for policy " ++
          aws.StringValue policy.PolicyName ++ ": " ++ err]
      | .ok policyDoc =>
        policyDoc.Statement.foldl (fun findings statement =>
          (actionsOf statement.Action).foldl (fun findings action =>
            if action = "*" then
              findings ++ ["WARNING: Policy " ++ aws.StringValue policy.PolicyName ++
                " attached to user " ++ aws.StringValue user.UserName ++
                " allows overly permissive actions (wildcard \"*\")."]
            else findings) findings) findings

/-- The method `CheckOverlyPermissivePolicies`. -/
def CheckOverlyPermissivePolicies (client : iam.IAM) (user : User) : List String :=
  match client.ListAttachedUserPolicies user.UserName with
  | .error err =>
    ["Error listing policies for user " ++ aws.StringValue user.UserName ++ ": " ++ err]
  | .ok policies => policies.foldl (checkPermissivePolicy client user) []

/-- The body of the loop of `CheckPrivilegeEscalation` over the attached
policies. -/
def checkEscalationPolicy (client : iam.IAM) (user : User) (findings : List String)
    (policy : iam.AttachedPolicy) : List String :=
  match client.GetPolicy policy.PolicyArn with
  | .error err =>
    findings ++ ["Error retrieving policy " ++ aws.StringValue policy.PolicyName ++
      " for user " ++ aws.StringValue user.UserName ++ ": " ++ err]
  | .ok defaultVersionId =>
    match client.GetPolicyVersion policy.PolicyArn defaultVersionId with
    | .error err =>
      findings ++ ["Error retrieving policy version " ++ aws.StringValue defaultVersionId ++
        ": " ++ err]
    | .ok (.badEscape err) =>
      findings ++ ["Error decoding policy document for policy " ++
        aws.StringValue policy.PolicyName ++ ": " ++ err]
    | .ok (.badSyntax err) =>
      findings ++ ["Error parsing policy document for policy " ++
        aws.StringValue policy.PolicyName ++ ": " ++ err]
    | .ok (.json v) =>
      match unmarshalPolicyDocument v with
      | .error err =>
        findings ++ ["Error parsing policy document for policy " ++
          aws.StringValue policy.PolicyName ++ ": " ++ err]
      | .ok policyDoc =>
        policyDoc.Statement.foldl (fun findings statement =>
          (actionsOf statement.Action).foldl (fun findings action =>
            if action = "iam:PassRole" ∨ action = "sts:AssumeRole" then
              findings ++ ["WARNING: User " ++ aws.StringValue user.UserName ++
                " has the ability to escalate privileges using " ++ action ++ " action."]
            else findings) findings) findings

/-- The method `CheckPrivilegeEscalation`. -/
def CheckPrivilegeEscalation (client : iam.IAM) (user : User) : List String :=
  match client.ListAttachedUserPolicies user.UserName with
  | .error err =>
    ["Error listing policies for user " ++ aws.StringValue user.UserName ++ ": " ++ err]
  | .ok policies => policies.foldl (checkEscalationPolicy client user) []

/-- The method `CheckRoleTrustPolicies`. -/
def CheckRoleTrustPolicies (client : iam.IAM) (role : Role) : List String :=
  match client.GetRole role.RoleName with
  | .error err =>
    ["Error retrieving trust policy for role " ++ aws.StringValue role.RoleName ++ ": " ++ err]
  | .ok (.badEscape err) =>
    ["Error decoding trust policy document for role " ++ aws.StringValue role.RoleName ++ ": " ++
      err]
  | .ok (.badSyntax err) =>
    ["Error parsing trust policy document for role " ++ aws.StringValue role.RoleName ++ ": " ++
      err]
  | .ok (.json v) =>
    match unmarshalPolicyDocument v with
    | .error err =>
      ["Error parsing trust policy document for role " ++ aws.StringValue role.RoleName ++
        ": " ++ err]
    | .ok policyDoc =>
      policyDoc.Statement.foldl (fun findings statement =>
        match statement.Principal with
        | some principal =>
          if principal.AWS = "*" then
            findings ++ ["WARNING: Role " ++ aws.StringValue role.RoleName ++
              " has a trust policy allowing ANY AWS account to assume it. " ++
              "Cross-account access should be restricted."]
          else findings
        | none => findings) []

end iamscanner

namespace iamscanner

/-- A trust policy with one statement that allows `sts:AssumeRole` to the
given principal. -/
def trustPolicyOf (principal : JSONValue) : JSONValue :=
  .object [("Version", .string "2012-10-17"),
    ("Statement", .array [.object [("Effect", .string "Allow"), ("Principal", principal),
      ("Action", .string "sts:AssumeRole")]])]

/-- Whether a decoded statement has a principal whose `AWS` is "*". -/
def allowsAnyAccount (statement : Statement) : Bool :=
  match statement.Principal with
  | some principal => principal.AWS == "*"
  | none => false

end iamscanner

namespace examples

/-- An IAM client over an account in which the trust policy of every role is
the one-statement policy for the given principal. -/
def trustIAMClient (principal : JSONValue) : iam.IAM :=
  { keysIAMClient with GetRole := fun _ => .ok (.json (iamscanner.trustPolicyOf principal)) }

end examples

namespace iamscanner

/-- The number of actions "*" that the type switch finds in the statements of
a decoded policy document. -/
def wildcardCount (policyDoc : PolicyDocument) : Nat :=
  (policyDoc.Statement.map (fun statement => (actionsOf statement.Action).count "*")).sum

end iamscanner

namespace examples

/-- A policy document with one statement that allows the given action (a
string or a list) on every resource. -/
def policyWithAction (action : JSONValue) : JSONValue :=
  .object [("Version", .string "2012-10-17"),
    ("Statement", .array [.object [("Effect", .string "Allow"), ("Action", action),
      ("Resource", .string "*")]])]

/-- An IAM client over an account in which every user and every role has the
one attached policy p, whose default version v1 has the given document. -/
def policyIAMClient (document : iam.Document) : iam.IAM :=
  { keysIAMClient with
    ListAttachedUserPolicies := fun _ =>
      .ok [{ PolicyArn := some "arn:aws:iam::123456789012:policy/p", PolicyName := some "p" }]
    ListAttachedRolePolicies := fun _ =>
      .ok [{ PolicyArn := some "arn:aws:iam::123456789012:policy/p", PolicyName := some "p" }]
    GetPolicy := fun _ => .ok (some "v1")
    GetPolicyVersion := fun _ _ => .ok document
    GetRole := fun _ => .ok (.json (.object [])) }

/-- A Lambda function f with the role lambda-role. -/
def functionF : lambdascanner.FunctionConfiguration :=
  { FunctionName := some "f", Role := some "arn:aws:iam::123456789012:role/lambda-role" }

end examples

/-- The error of a result, if it is one. -/
def errorOf {α : Type} (r : Except String α) : Option String :=
  match r with
  | .error e => some e
  | .ok _ => none

namespace iam

/-- The diagnostic finding that names the policy of a document that cannot be
unescaped or parsed: nothing for a document that unescapes and parses,
`unmarshalError` giving the error of `json.Unmarshal` on valid JSON text. -/
def documentDiagnostic (unmarshalError : JSONValue → Option String) (policyName : String) :
    Document → Option String
  | .badEscape err =>
    some ("Error decoding policy document for policy " ++ policyName ++ ": " ++ err)
  | .badSyntax err =>
    some ("Error parsing policy document for policy " ++ policyName ++ ": " ++ err)
  | .json v =>
    (unmarshalError v).map
      (fun err => "Error parsing policy document for policy " ++ policyName ++ ": " ++ err)

end iam

namespace examples

/-- An IAM client over an account in which every user and every role has the
attached policies p and q, in this order; the default version of p has the
given document, and that of q allows the action "*" in one statement and the
action logs:PutLogEvents, in a list, in another. -/
def twoPoliciesIAMClient (document : iam.Document) : iam.IAM :=
  { keysIAMClient with
    ListAttachedUserPolicies := fun _ =>
      .ok [{ PolicyArn := some "arn:aws:iam::123456789012:policy/p", PolicyName := some "p" },
        { PolicyArn := some "arn:aws:iam::123456789012:policy/q", PolicyName := some "q" }]
    ListAttachedRolePolicies := fun _ =>
      .ok [{ PolicyArn := some "arn:aws:iam::123456789012:policy/p", PolicyName := some "p" },
        { PolicyArn := some "arn:aws:iam::123456789012:policy/q", PolicyName := some "q" }]
    GetPolicy := fun _ => .ok (some "v1")
    GetPolicyVersion := fun policyArn _ =>
      if policyArn = some "arn:aws:iam::123456789012:policy/p" then .ok document
      else
        .ok (.json (.object [("Version", .string "2012-10-17"),
          ("Statement", .array [
            .object [("Effect", .string "Allow"), ("Action", .string "*"),
              ("Resource", .string "*")],
            .object [("Effect", .string "Allow"),
              ("Action", .array [.string "logs:PutLogEvents"]), ("Resource", .string "*")]])]))
    GetRole := fun _ => .ok (.json (.object [])) }

end examples

namespace examples

/-- A client whose model always answers, without error, with one candidate
whose `Content` is nil (a blocked response), and whose context is never
done. -/
def nilContentResponder : geminiapi.Gemini :=
  { GenerateContent := fun _ _ _ =>
      { resp := some { Candidates := [{ Content := none }] }, err := none }
    ctxDone := fun _ => none }

end examples

namespace examples

/-- An EC2 account without instances whose Elastic IP lookup is denied. -/
def deniedAddressesEC2 : ec2scanner.Account :=
  { idleAddressEC2 with DescribeAddresses := .error "UnauthorizedOperation" }

end examples

namespace examples

/-- A cloud in which every region holds the quiet accounts, except that the
EC2 account has an Elastic IP that is not associated and the IAM account is
that of the user alice. -/
def busyCloud : awsmiddleware.Cloud :=
  { quietCloud with
    ec2 := fun _ _ _ _ => idleAddressEC2
    iam := fun _ _ _ _ => aliceIAM }

end examples

namespace examples

/-- The results of the EC2 and the IAM scan of one region of `busyCloud` with
the client `helpfulResponder`. -/
def busyRegionResults (region : String) : List awsmiddleware.ScanResults :=
  [{ ScanItem := { Service := "ec2", Region := region,
                   Findings := ["Elastic IP 203.0.113.7 is not associated with any instance"] }
     ScanItemEntries :=
       [{ Findings := ["Elastic IP 203.0.113.7 is not associated with any instance"]
          Title := "Elastic IP Findings"
          Summary := "Summary of the findings."
          Remedy := "Remedies for the findings."
          Commands := ["aws configure list"] }] },
   { ScanItem := { Service := "iam", Region := region,
                   Findings := ["WARNING: MFA is not enabled for user alice."] }
     ScanItemEntries :=
       [{ Findings := ["WARNING: MFA is not enabled for user alice."]
          Title := "MFA Status"
          Summary := "Summary of the findings."
          Remedy := "Remedies for the findings."
          Commands := ["aws configure list"] },
        { Findings := ["WARNING: MFA is not enabled for the root account."]
          Title := "Root Account Security"
          Summary := "Summary of the findings."
          Remedy := "Remedies for the findings."
          Commands := ["aws configure list"] }] }]

end examples

namespace iamscanner

/-- A principal that the type `Principal` has no place for: a JSON string, or
an object whose member `AWS` is a list. -/
def outsidePrincipalType (principal : JSONValue) : Prop :=
  (∃ s, principal = .string s) ∨
    ∃ members accounts, principal = .object members ∧ ("AWS", .array accounts) ∈ members

end iamscanner

/-! # Theorems -/

namespace geminiapi

theorem attemptFailed_ne_err (o : Outcome) (e : String) : attemptFailed o ≠ .err e := by
  unfold attemptFailed
  repeat' split
  all_goals simp


theorem retryLoop_trace (g : Gemini) (model : GenerativeModel) (prompt : String) :
    ∀ (remaining attempt : Nat) (resp : Option GenerateContentResponse) (err : Option String)
      (tr : Trace),
      ∃ new : Trace, (retryLoop g model prompt remaining attempt resp err tr).2 = tr ++ new ∧
        (∀ e ∈ new, e = Event.GenerateContent model prompt ∨ ∃ d, e = Event.Backoff d) ∧
        (Trace.modelCalls new).length ≤ remaining := by
  intro remaining
  induction remaining with
  | zero =>
    intro attempt resp err tr
    exact ⟨[], by simp [retryLoop], by simp, by simp [Trace.modelCalls]⟩
  | succ n ih =>
    intro attempt resp err tr
    simp only [retryLoop]
    split
    · exact ⟨[Event.GenerateContent model prompt], rfl, by simp, by simp [Trace.modelCalls]⟩
    · exact ⟨[Event.GenerateContent model prompt], rfl, by simp, by simp [Trace.modelCalls]⟩
    · exact ⟨[Event.GenerateContent model prompt], rfl, by simp, by simp [Trace.modelCalls]⟩
    · split
      · split
        · exact ⟨[Event.GenerateContent model prompt, Event.Backoff (exponentialBackoff attempt)],
            by simp, by simp, by simp [Trace.modelCalls]⟩
        · obtain ⟨new, h1, h2, h3⟩ := ih (attempt + 1)
            (g.GenerateContent tr.length model prompt).resp
            (g.GenerateContent tr.length model prompt).err
            (tr ++ [Event.GenerateContent model prompt] ++
              [Event.Backoff (exponentialBackoff attempt)])
          refine ⟨[Event.GenerateContent model prompt,
            Event.Backoff (exponentialBackoff attempt)] ++ new, ?_, ?_, ?_⟩
          · rw [h1]; simp
          · intro e he
            simp only [List.mem_append, List.mem_cons, List.mem_singleton, List.not_mem_nil,
              or_false] at he
            rcases he with (he | he) | he
            · exact Or.inl he
            · exact Or.inr ⟨_, he⟩
            · exact h2 e he
          · simp only [Trace.modelCalls, List.filterMap_append, List.length_append] at h3 ⊢
            simp [List.filterMap_cons]
            omega
      · obtain ⟨new, h1, h2, h3⟩ := ih (attempt + 1)
          (g.GenerateContent tr.length model prompt).resp
          (g.GenerateContent tr.length model prompt).err
          (tr ++ [Event.GenerateContent model prompt])
        refine ⟨[Event.GenerateContent model prompt] ++ new, ?_, ?_, ?_⟩
        · rw [h1]; simp
        · intro e he
          simp only [List.mem_append, List.mem_singleton] at he
          rcases he with he | he
          · exact Or.inl he
          · exact h2 e he
        · simp only [Trace.modelCalls, List.filterMap_append, List.length_append] at h3 ⊢
          simp [List.filterMap_cons]
          omega


theorem generateContentWithRetry_unfold (g : Gemini) (model : GenerativeModel) (prompt : String)
    (tr : Trace) :
    generateContentWithRetry g model prompt tr =
      let o0 := attemptOutcome g model prompt tr 0
      let t1 := tr ++ [Event.GenerateContent model prompt]
      match attemptFailed o0 with
      | .panic m => (.panic m, t1)
      | .err e => (.err e, t1)
      | .ok false => (finalCheck o0.resp o0.err, t1)
      | .ok true =>
        let t2 := t1 ++ [Event.Backoff (exponentialBackoff 0)]
        match waitDone g tr 0 with
        | some e => (.err e, t2)
        | none =>
          let o1 := attemptOutcome g model prompt tr 1
          let t3 := t2 ++ [Event.GenerateContent model prompt]
          match attemptFailed o1 with
          | .panic m => (.panic m, t3)
          | .err e => (.err e, t3)
          | .ok false => (finalCheck o1.resp o1.err, t3)
          | .ok true =>
            let t4 := t3 ++ [Event.Backoff (exponentialBackoff 1)]
            match waitDone g tr 1 with
            | some e => (.err e, t4)
            | none =>
              let o2 := attemptOutcome g model prompt tr 2
              let t5 := t4 ++ [Event.GenerateContent model prompt]
              match attemptFailed o2 with
              | .panic m => (.panic m, t5)
              | .err e => (.err e, t5)
              | .ok false => (finalCheck o2.resp o2.err, t5)
              | .ok true => (finalCheck o2.resp o2.err, t5) := by
  simp only [generateContentWithRetry, retryLoop, maxRetries, attemptOutcome, waitDone,
    List.length_append, List.length_singleton, List.length_cons, List.length_nil]
  norm_num


theorem attemptFailed_false_valid (o : Outcome) (h : attemptFailed o = .ok false) :
    o.err = none ∧ ∃ r c cs content p ps, o.resp = some r ∧ r.Candidates = c :: cs ∧
      c.Content = some content ∧ content.Parts = p :: ps := by
  unfold attemptFailed at h
  split at h
  · simp at h
  · rename_i herr
    split at h
    · simp at h
    · rename_i r hr
      split at h
      · simp at h
      · rename_i c cs hc
        split at h
        · simp at h
        · rename_i content hcontent
          refine ⟨herr, r, c, cs, content, ?_⟩
          cases hp : content.Parts with
          | nil => simp [hp] at h
          | cons p ps => exact ⟨p, ps, hr, hc, hcontent, rfl⟩

theorem modelCalls_append (a b : Trace) :
    Trace.modelCalls (a ++ b) = Trace.modelCalls a ++ Trace.modelCalls b := by
  simp [Trace.modelCalls]

/-- C3 (code as it is). For every behaviour of the model and of the context,
`generateContentWithRetry` calls the model at most `maxRetries` = 3 times,
always with its own model and prompt; it stops at the first attempt that
returns no error together with a candidate list whose first candidate has at
least one part, and returns that response with a nil error; and it calls the
model exactly 3 times when every attempt meets the retry condition and no wait
is cut short by the context.  An attempt that returns no error and a candidate
list whose first candidate has a nil `Content` is not retried: the retry
condition dereferences the nil pointer, and the call panics after that
attempt.  With a model that always answers so, the call panics after one model
call. -/
theorem generateContentWithRetry_attempts (g : Gemini) (model : GenerativeModel)
    (prompt : String) (tr : Trace) :
    (∃ new : Trace, (generateContentWithRetry g model prompt tr).2 = tr ++ new ∧
        (Trace.modelCalls new).length ≤ maxRetries ∧
        ∀ c ∈ Trace.modelCalls new, c = (model, prompt)) ∧
    (∀ k, k < maxRetries →
        (∀ j, j < k → attemptFailed (attemptOutcome g model prompt tr j) = .ok true ∧
          waitDone g tr j = none) →
        attemptFailed (attemptOutcome g model prompt tr k) = .ok false →
        (generateContentWithRetry g model prompt tr).1 =
            .ok (attemptOutcome g model prompt tr k).resp ∧
          (attemptOutcome g model prompt tr k).resp ≠ none ∧
          Trace.modelCalls (generateContentWithRetry g model prompt tr).2 =
            Trace.modelCalls tr ++ List.replicate (k + 1) (model, prompt)) ∧
    ((∀ k, k < maxRetries → attemptFailed (attemptOutcome g model prompt tr k) = .ok true) →
        (∀ k, k < maxRetries - 1 → waitDone g tr k = none) →
        Trace.modelCalls (generateContentWithRetry g model prompt tr).2 =
          Trace.modelCalls tr ++ List.replicate 3 (model, prompt)) ∧
    (∀ k, k < maxRetries →
        (∀ j, j < k → attemptFailed (attemptOutcome g model prompt tr j) = .ok true ∧
          waitDone g tr j = none) →
        ∀ r c cs, (attemptOutcome g model prompt tr k).err = none →
          (attemptOutcome g model prompt tr k).resp = some r →
          r.Candidates = c :: cs → c.Content = none →
          (generateContentWithRetry g model prompt tr).1 = .panic nilDereference ∧
            Trace.modelCalls (generateContentWithRetry g model prompt tr).2 =
              Trace.modelCalls tr ++ List.replicate (k + 1) (model, prompt)) ∧
    generateContentWithRetry examples.nilContentResponder model prompt [] =
      (.panic nilDereference, [Event.GenerateContent model prompt]) := by
  refine ⟨?_, ?_, ?_, ?_, rfl⟩
  · obtain ⟨new, h1, h2, h3⟩ := retryLoop_trace g model prompt maxRetries 0 none none tr
    refine ⟨new, h1, h3, ?_⟩
    intro c hc
    simp only [Trace.modelCalls, List.mem_filterMap] at hc
    obtain ⟨e, he, hec⟩ := hc
    rcases h2 e he with rfl | ⟨d, rfl⟩
    · simpa using hec.symm
    · simp at hec
  · intro k hk hprev hvalid
    obtain ⟨herr, r, -, -, -, -, -, hr, -⟩ := attemptFailed_false_valid _ hvalid
    rw [generateContentWithRetry_unfold]
    simp only [maxRetries] at hk
    interval_cases k
    · simp [hvalid, finalCheck, herr, hr, modelCalls_append, Trace.modelCalls]
    · have h0 := hprev 0 (by omega)
      simp [hvalid, h0.1, h0.2, finalCheck, herr, hr, modelCalls_append, Trace.modelCalls,
        List.replicate]
    · have h0 := hprev 0 (by omega)
      have h1 := hprev 1 (by omega)
      simp [hvalid, h0.1, h0.2, h1.1, h1.2, finalCheck, herr, hr, modelCalls_append,
        Trace.modelCalls, List.replicate]
  · intro hfail hwait
    have f0 := hfail 0 (by simp [maxRetries])
    have f1 := hfail 1 (by simp [maxRetries])
    have f2 := hfail 2 (by simp [maxRetries])
    have w0 := hwait 0 (by simp [maxRetries])
    have w1 := hwait 1 (by simp [maxRetries])
    rw [generateContentWithRetry_unfold]
    simp [f0, f1, f2, w0, w1, modelCalls_append, Trace.modelCalls, List.replicate]
  · intro k hk hprev r c cs herr hresp hcands hcontent
    have hpanic : attemptFailed (attemptOutcome g model prompt tr k) = .panic nilDereference := by
      simp [attemptFailed, herr, hresp, hcands, hcontent]
    rw [generateContentWithRetry_unfold]
    simp only [maxRetries] at hk
    interval_cases k
    · simp [hpanic, modelCalls_append, Trace.modelCalls]
    · have h0 := hprev 0 (by omega)
      simp [hpanic, h0.1, h0.2, modelCalls_append, Trace.modelCalls, List.replicate]
    · have h0 := hprev 0 (by omega)
      have h1 := hprev 1 (by omega)
      simp [hpanic, h0.1, h0.2, h1.1, h1.2, modelCalls_append, Trace.modelCalls,
        List.replicate]


/-- C2 (code as it is). When all three attempts fail, no wait is cut short by
the context and the third attempt carries no error (an empty or invalid
response), `generateContentWithRetry` returns the response of the third
attempt with a nil error: the final check looks at the error only. -/
theorem generateContentWithRetry_exhausted_without_error (g : Gemini) (model : GenerativeModel)
    (prompt : String) (tr : Trace)
    (hfail : ∀ k, k < maxRetries → attemptFailed (attemptOutcome g model prompt tr k) = .ok true)
    (hwait : ∀ k, k < maxRetries - 1 → waitDone g tr k = none)
    (hlast : (attemptOutcome g model prompt tr 2).err = none) :
    (generateContentWithRetry g model prompt tr).1 =
      .ok (attemptOutcome g model prompt tr 2).resp := by
  have f0 := hfail 0 (by simp [maxRetries])
  have f1 := hfail 1 (by simp [maxRetries])
  have f2 := hfail 2 (by simp [maxRetries])
  have w0 := hwait 0 (by simp [maxRetries])
  have w1 := hwait 1 (by simp [maxRetries])
  rw [generateContentWithRetry_unfold]
  simp [f0, f1, f2, w0, w1, finalCheck, hlast]

theorem generateContentWithRetry_exhausted_without_error_witness :
    (generateContentWithRetry examples.emptyResponder (summarizeModel "s3" "us-east-1") "p" []).1 =
      .ok (some { Candidates := [] }) :=
  generateContentWithRetry_exhausted_without_error examples.emptyResponder
    (summarizeModel "s3" "us-east-1") "p" []
    (by intro k _; rfl) (by intro k _; rfl) rfl

theorem generateContentWithRetry_attempts_witness :
    (generateContentWithRetry examples.thirdTimeResponder (summarizeModel "s3" "us-east-1") "p"
        []).1 =
      .ok (attemptOutcome examples.thirdTimeResponder (summarizeModel "s3" "us-east-1") "p" []
        2).resp ∧
    (attemptOutcome examples.thirdTimeResponder (summarizeModel "s3" "us-east-1") "p" []
        2).resp ≠ none ∧
    Trace.modelCalls (generateContentWithRetry examples.thirdTimeResponder
        (summarizeModel "s3" "us-east-1") "p" []).2 =
      Trace.modelCalls [] ++ List.replicate (2 + 1) (summarizeModel "s3" "us-east-1", "p") :=
  (generateContentWithRetry_attempts examples.thirdTimeResponder
    (summarizeModel "s3" "us-east-1") "p" []).2.1 2 (by decide)
    (by
      intro j hj
      interval_cases j
      · exact ⟨rfl, rfl⟩
      · exact ⟨rfl, rfl⟩)
    rfl


theorem generateContentWithRetry_first_call (g : Gemini) (model : GenerativeModel)
    (prompt : String) (tr : Trace) :
    ∃ rest : Trace, (generateContentWithRetry g model prompt tr).2 =
      tr ++ Event.GenerateContent model prompt :: rest := by
  rw [generateContentWithRetry_unfold]
  simp only []
  repeat' split
  all_goals simp

theorem generateContentWithRetry_calls (g : Gemini) (model : GenerativeModel)
    (prompt : String) (tr : Trace) :
    ∃ new : Trace, (generateContentWithRetry g model prompt tr).2 = tr ++ new ∧
      Trace.modelCalls new ≠ [] ∧ (Trace.modelCalls new).length ≤ maxRetries ∧
      (∀ c ∈ Trace.modelCalls new, c = (model, prompt)) ∧
      Trace.summarizeCalls new = [] ∧ Trace.scanners new = [] := by
  obtain ⟨new, h1, h2, h3⟩ := retryLoop_trace g model prompt maxRetries 0 none none tr
  obtain ⟨rest, hrest⟩ := generateContentWithRetry_first_call g model prompt tr
  have hnew : new = Event.GenerateContent model prompt :: rest := by
    have : tr ++ new = tr ++ Event.GenerateContent model prompt :: rest := by
      rw [← hrest]; exact h1.symm
    exact List.append_cancel_left this
  refine ⟨new, h1, ?_, h3, ?_, ?_, ?_⟩
  · rw [hnew]; simp [Trace.modelCalls]
  · intro c hc
    simp only [Trace.modelCalls, List.mem_filterMap] at hc
    obtain ⟨e, he, hec⟩ := hc
    rcases h2 e he with rfl | ⟨d, rfl⟩
    · simpa using hec.symm
    · simp at hec
  · simp only [Trace.summarizeCalls, List.filterMap_eq_nil_iff]
    intro e he
    rcases h2 e he with rfl | ⟨d, rfl⟩ <;> rfl
  · simp only [Trace.scanners, List.filterMap_eq_nil_iff]
    intro e he
    rcases h2 e he with rfl | ⟨d, rfl⟩ <;> rfl

theorem summarizeIssues_trace (g : Gemini) (service region : String) (findings : List String)
    (tr : Trace) :
    (summarizeIssues g service region findings tr).2 =
      (generateContentWithRetry g (summarizeModel service region)
        (summarizeUserPrompt service region (findingsBlock findings)) tr).2 := by
  unfold summarizeIssues
  simp only []
  repeat' split
  all_goals simp_all

theorem generateCommands_trace (g : Gemini) (service region summary remedies : String)
    (tr : Trace) :
    (generateCommands g service region summary remedies tr).2 =
      (generateContentWithRetry g (commandsModel service region)
        (commandsUserPrompt summary remedies) tr).2 := by
  unfold generateCommands
  simp only []
  repeat' split
  all_goals simp_all

/-- C4. The findings block in the user prompt of `summarizeIssues` is the
first `min 50 n` findings, in their order, joined by newlines: the findings
are `shown ++ later` with `shown` of length `min 50 n`, and every model call
that `summarizeIssues` makes (there is at least one) uses the summarize model
and carries the prompt whose text between the line `<Findings Start>` and the
line `<Findings End>` is `shown` joined by `"\n"`, nothing of `later` being
part of the prompt. -/
theorem summarizeIssues_prompt_first_fifty (g : Gemini) (service region : String)
    (findings : List String) (tr : Trace) :
    ∃ (shown later : List String) (new : Trace),
      findings = shown ++ later ∧ shown = findings.take 50 ∧
      shown.length = min 50 findings.length ∧
      (summarizeIssues g service region findings tr).2 = tr ++ new ∧
      Trace.modelCalls new ≠ [] ∧
      ∀ c ∈ Trace.modelCalls new,
        c.1 = summarizeModel service region ∧
        c.2 = "\n\t\tAnalyze and summarize these findings from " ++ service ++ " in region " ++
          region ++ ":\n\t\t<Findings Start>\n\t\t" ++ String.intercalate "\n" shown ++
          "\n\t\t<Findings End>\n\n\t\tProvide:\n\t\t1. A brief summary of the problems found.\n\t\t2. A general description of the remedies to address the issues.\n\t" := by
  have hblock : findingsBlock findings = String.intercalate "\n" (findings.take 50) := by
    unfold findingsBlock
    by_cases h : findings.length < 50
    · simp only [h, if_true]
      rw [List.take_of_length_le (le_refl _), List.take_of_length_le (by omega)]
    · simp [h]
  obtain ⟨new, h1, h2, -, h4, -, -⟩ := generateContentWithRetry_calls g
    (summarizeModel service region) (summarizeUserPrompt service region (findingsBlock findings)) tr
  refine ⟨findings.take 50, findings.drop 50, new, (List.take_append_drop 50 findings).symm,
    rfl, by simp [List.length_take], ?_, h2, ?_⟩
  · rw [summarizeIssues_trace]; exact h1
  · intro c hc
    rw [h4 c hc, hblock]
    exact ⟨rfl, rfl⟩


theorem generateContentWithRetry_accepts (g : Gemini) (model : GenerativeModel)
    (prompt : String) (tr : Trace) (r : GenerateContentResponse) (c : Candidate)
    (cs : List Candidate) (p : Part) (ps : List Part)
    (h0 : attemptOutcome g model prompt tr 0 = { resp := some r, err := none })
    (hc : r.Candidates = c :: cs) (hp : c.Content = some { Parts := p :: ps }) :
    generateContentWithRetry g model prompt tr =
      (.ok (some r), tr ++ [Event.GenerateContent model prompt]) := by
  rw [generateContentWithRetry_unfold]
  have hv : attemptFailed (attemptOutcome g model prompt tr 0) = .ok false := by
    rw [h0]; simp [attemptFailed, hc, hp]
  simp only [hv]
  simp [h0, finalCheck]

/-- C9 (as amended). A response whose first candidate's first part is not a
function call is accepted by the retry loop as a valid response: when the
first attempt returns such a response, `summarizeIssues` and
`generateCommands` make that single model call, do not retry, and return the
error `expected FunctionCall, got <type>`. -/
theorem nonFunctionCall_returned_without_retry (g : Gemini)
    (service region summary remedies : String) (findings : List String) (tr : Trace)
    (r : GenerateContentResponse) (c : Candidate) (cs : List Candidate) (goType : String)
    (ps : List Part)
    (hc : r.Candidates = c :: cs) (hp : c.Content = some { Parts := Part.other goType :: ps }) :
    (attemptOutcome g (summarizeModel service region)
          (summarizeUserPrompt service region (findingsBlock findings)) tr 0 =
        { resp := some r, err := none } →
      summarizeIssues g service region findings tr =
        (.err ("expected FunctionCall, got " ++ goType),
          tr ++ [Event.GenerateContent (summarizeModel service region)
            (summarizeUserPrompt service region (findingsBlock findings))])) ∧
    (attemptOutcome g (commandsModel service region) (commandsUserPrompt summary remedies) tr 0 =
        { resp := some r, err := none } →
      generateCommands g service region summary remedies tr =
        (.err ("expected FunctionCall, got " ++ goType),
          tr ++ [Event.GenerateContent (commandsModel service region)
            (commandsUserPrompt summary remedies)])) := by
  constructor
  · intro h0
    unfold summarizeIssues
    simp only []
    rw [generateContentWithRetry_accepts g _ _ tr r c cs _ ps h0 hc hp]
    simp [firstPart, hc, hp]
  · intro h0
    unfold generateCommands
    simp only []
    rw [generateContentWithRetry_accepts g _ _ tr r c cs _ ps h0 hc hp]
    simp [firstPart, hc, hp]

theorem nonFunctionCall_returned_without_retry_witness :
    summarizeIssues examples.textResponder "s3" "us-east-1" ["finding"] [] =
      (.err ("expected FunctionCall, got " ++ "genai.Text"),
        [] ++ [Event.GenerateContent (summarizeModel "s3" "us-east-1")
          (summarizeUserPrompt "s3" "us-east-1" (findingsBlock ["finding"]))]) :=
  (nonFunctionCall_returned_without_retry examples.textResponder "s3" "us-east-1" "" ""
    ["finding"] [] { Candidates := [{ Content := some { Parts := [.other "genai.Text"] } }] }
    { Content := some { Parts := [.other "genai.Text"] } } [] "genai.Text" [] rfl rfl).1 rfl

/-- C9 (counterexample). With a model that answers every call with a text
part, `summarizeIssues` and `generateCommands` each return an error after one
single model call: the non-conforming response is not retried. -/
theorem nonFunctionCall_retry_counterexample :
    (summarizeIssues examples.textResponder "s3" "us-east-1" ["finding"] []).1 =
        .err "expected FunctionCall, got genai.Text" ∧
      (Trace.modelCalls
        (summarizeIssues examples.textResponder "s3" "us-east-1" ["finding"] []).2).length = 1 ∧
    (generateCommands examples.textResponder "s3" "us-east-1" "summary" "remedies" []).1 =
        .err "expected FunctionCall, got genai.Text" ∧
      (Trace.modelCalls
        (generateCommands examples.textResponder "s3" "us-east-1" "summary" "remedies"
          []).2).length = 1 := by
  refine ⟨?_, ?_, ?_, ?_⟩ <;> rfl


theorem decodeString_fst (field : String) (v : JSONValue) (old : String)
    (saved : Option String) :
    (decodeString field v old saved).1 = old ∨ v = .string (decodeString field v old saved).1 := by
  cases v <;> simp [decodeString]

theorem foldl_decodeSummaryEntry_fields (Args : List (String × JSONValue)) :
    ∀ acc : SummaryFields,
      ((Args.foldl decodeSummaryEntry acc).Summary = acc.Summary ∨
        ∃ kv ∈ Args, keyMatches "summary" kv.1 = true ∧
          kv.2 = .string (Args.foldl decodeSummaryEntry acc).Summary) ∧
      ((Args.foldl decodeSummaryEntry acc).Remedies = acc.Remedies ∨
        ∃ kv ∈ Args, keyMatches "remedies" kv.1 = true ∧
          kv.2 = .string (Args.foldl decodeSummaryEntry acc).Remedies) := by
  induction Args with
  | nil => intro acc; simp
  | cons kv rest ih =>
    intro acc
    simp only [List.foldl_cons]
    obtain ⟨ihS, ihR⟩ := ih (decodeSummaryEntry acc kv)
    constructor
    · rcases ihS with h | ⟨kv', hmem, hk, hv⟩
      · rw [h]
        unfold decodeSummaryEntry
        by_cases hs : keyMatches "summary" kv.1 = true
        · rw [if_pos hs]
          rcases decodeString_fst "summary" kv.2 acc.Summary acc.saved with h1 | h1
          · exact Or.inl h1
          · exact Or.inr ⟨kv, List.mem_cons_self _ _, hs, h1⟩
        · rw [if_neg hs]
          left
          split <;> rfl
      · exact Or.inr ⟨kv', List.mem_cons_of_mem _ hmem, hk, hv⟩
    · rcases ihR with h | ⟨kv', hmem, hk, hv⟩
      · rw [h]
        unfold decodeSummaryEntry
        by_cases hs : keyMatches "summary" kv.1 = true
        · rw [if_pos hs]
          exact Or.inl rfl
        · rw [if_neg hs]
          by_cases hr : keyMatches "remedies" kv.1 = true
          · rw [if_pos hr]
            rcases decodeString_fst "remedies" kv.2 acc.Remedies acc.saved with h1 | h1
            · exact Or.inl h1
            · exact Or.inr ⟨kv, List.mem_cons_self _ _, hr, h1⟩
          · rw [if_neg hr]
            exact Or.inl rfl
      · exact Or.inr ⟨kv', List.mem_cons_of_mem _ hmem, hk, hv⟩

theorem decodeSummary_ok (Args : List (String × JSONValue)) (summary remedies : String)
    (h : decodeSummary Args = .ok (summary, remedies)) :
    (summary ≠ "" → ∃ kv ∈ Args, keyMatches "summary" kv.1 = true ∧ kv.2 = .string summary) ∧
    (remedies ≠ "" → ∃ kv ∈ Args, keyMatches "remedies" kv.1 = true ∧
      kv.2 = .string remedies) := by
  unfold decodeSummary at h
  simp only [] at h
  split at h
  · simp at h
  · simp only [GoResult.ok.injEq, Prod.mk.injEq] at h
    obtain ⟨hS, hR⟩ := foldl_decodeSummaryEntry_fields Args
      { Summary := "", Remedies := "", saved := none }
    rw [h.1] at hS
    rw [h.2] at hR
    constructor
    · intro hne
      rcases hS with h1 | h1
      · exact absurd h1 hne
      · exact h1
    · intro hne
      rcases hR with h1 | h1
      · exact absurd h1 hne
      · exact h1


/-- C10 (as amended). Whenever `SummarizeFindings` returns a result with a nil
error, the summarize call's retry loop returned a response whose first part is
a function call, and the result's `Summary` and `Remedies` are exactly what
that call's payload decodes to; nothing checks that they are non-empty.  A
field of the result is non-empty only if the payload carries it as that string
under a key matching the field's name. -/
theorem SummarizeFindings_fields_from_payload (g : Gemini) (service region : String)
    (findings : List String) (tr tr' : Trace) (r : types.SummarizeFindings)
    (h : SummarizeFindings g service region findings tr = (.ok r, tr')) :
    ∃ (resp : Option GenerateContentResponse) (name : String)
      (Args : List (String × JSONValue)) (tr1 : Trace),
      generateContentWithRetry g (summarizeModel service region)
          (summarizeUserPrompt service region (findingsBlock findings))
          (tr ++ [Event.SummarizeFindings ⟨service, region, findings⟩]) = (.ok resp, tr1) ∧
      firstPart resp = .ok (.FunctionCall name Args) ∧
      decodeSummary Args = .ok (r.Summary, r.Remedies) ∧
      (r.Summary ≠ "" →
        ∃ kv ∈ Args, keyMatches "summary" kv.1 = true ∧ kv.2 = .string r.Summary) ∧
      (r.Remedies ≠ "" →
        ∃ kv ∈ Args, keyMatches "remedies" kv.1 = true ∧ kv.2 = .string r.Remedies) := by
  unfold SummarizeFindings at h
  simp only [] at h
  split at h
  · simp at h
  · simp at h
  · rename_i summary remedies tr1 hsum
    have hr : r.Summary = summary ∧ r.Remedies = remedies := by
      split at h
      · simp at h
      · simp at h
      · simp only [Prod.mk.injEq, GoResult.ok.injEq] at h
        rw [← h.1]
        exact ⟨rfl, rfl⟩
    unfold summarizeIssues at hsum
    simp only [] at hsum
    split at hsum
    · simp at hsum
    · simp at hsum
    · rename_i resp tr2 hretry
      split at hsum
      · simp at hsum
      · simp at hsum
      · rename_i name Args hpart
        simp only [Prod.mk.injEq] at hsum
        have hdec : decodeSummary Args = .ok (r.Summary, r.Remedies) := by
          rw [hr.1, hr.2]; exact hsum.1
        exact ⟨resp, name, Args, tr2, hretry, hpart, hdec, decodeSummary_ok Args _ _ hdec⟩
      · simp at hsum

theorem SummarizeFindings_fields_from_payload_witness :
    ∃ (resp : Option GenerateContentResponse) (name : String)
      (Args : List (String × JSONValue)) (tr1 : Trace),
      generateContentWithRetry examples.helpfulResponder (summarizeModel "s3" "us-east-1")
          (summarizeUserPrompt "s3" "us-east-1" (findingsBlock ["finding"]))
          ([] ++ [Event.SummarizeFindings ⟨"s3", "us-east-1", ["finding"]⟩]) = (.ok resp, tr1) ∧
      firstPart resp = .ok (.FunctionCall name Args) ∧
      decodeSummary Args = .ok ("Summary of the findings.", "Remedies for the findings.") ∧
      ("Summary of the findings." ≠ "" →
        ∃ kv ∈ Args, keyMatches "summary" kv.1 = true ∧
          kv.2 = .string "Summary of the findings.") ∧
      ("Remedies for the findings." ≠ "" →
        ∃ kv ∈ Args, keyMatches "remedies" kv.1 = true ∧ kv.2 = .string "Remedies for the findings.") :=
  SummarizeFindings_fields_from_payload examples.helpfulResponder "s3" "us-east-1" ["finding"] []
    (SummarizeFindings examples.helpfulResponder "s3" "us-east-1" ["finding"] []).2
    { Summary := "Summary of the findings.", Remedies := "Remedies for the findings.",
      Commands := ["aws configure list"] }
    rfl

/-- C10 (counterexample). For the non-empty findings list `["finding"]` and a
model that answers with a function call without arguments, `SummarizeFindings`
returns a nil error and a result whose `Summary` and `Remedies` are empty. -/
theorem SummarizeFindings_empty_fields_counterexample :
    (SummarizeFindings examples.emptyArgsResponder "s3" "us-east-1" ["finding"] []).1 =
      .ok { Summary := "", Remedies := "", Commands := [] } := by
  rfl

end geminiapi

theorem summarizeCalls_append (a b : Trace) :
    Trace.summarizeCalls (a ++ b) = Trace.summarizeCalls a ++ Trace.summarizeCalls b := by
  simp [Trace.summarizeCalls]

theorem scanners_append (a b : Trace) :
    Trace.scanners (a ++ b) = Trace.scanners a ++ Trace.scanners b := by
  simp [Trace.scanners]

namespace geminiapi

theorem SummarizeFindings_trace (g : Gemini) (service region : String) (findings : List String)
    (tr : Trace) :
    ∃ new : Trace, (SummarizeFindings g service region findings tr).2 =
        tr ++ Event.SummarizeFindings ⟨service, region, findings⟩ :: new ∧
      Trace.summarizeCalls new = [] ∧ Trace.scanners new = [] := by
  obtain ⟨new1, h1, -, -, -, hs1, hn1⟩ := generateContentWithRetry_calls g
    (summarizeModel service region) (summarizeUserPrompt service region (findingsBlock findings))
    (tr ++ [Event.SummarizeFindings ⟨service, region, findings⟩])
  rw [← summarizeIssues_trace] at h1
  unfold SummarizeFindings
  simp only []
  split
  · rename_i e tr1 heq
    refine ⟨new1, ?_, hs1, hn1⟩
    have : tr1 = (summarizeIssues g service region findings
        (tr ++ [Event.SummarizeFindings ⟨service, region, findings⟩])).2 := by rw [heq]
    simp [this, h1]
  · rename_i m tr1 heq
    refine ⟨new1, ?_, hs1, hn1⟩
    have : tr1 = (summarizeIssues g service region findings
        (tr ++ [Event.SummarizeFindings ⟨service, region, findings⟩])).2 := by rw [heq]
    simp [this, h1]
  · rename_i summary remedies tr1 heq
    have htr1 : tr1 = (summarizeIssues g service region findings
        (tr ++ [Event.SummarizeFindings ⟨service, region, findings⟩])).2 := by rw [heq]
    obtain ⟨new2, h2, -, -, -, hs2, hn2⟩ := generateContentWithRetry_calls g
      (commandsModel service region) (commandsUserPrompt summary remedies) tr1
    rw [← generateCommands_trace g service region summary remedies tr1] at h2
    have key : (generateCommands g service region summary remedies tr1).2 =
        tr ++ Event.SummarizeFindings ⟨service, region, findings⟩ :: (new1 ++ new2) := by
      rw [h2, htr1, h1]; simp
    refine ⟨new1 ++ new2, ?_, by simp [summarizeCalls_append, hs1, hs2],
      by simp [scanners_append, hn1, hn2]⟩
    split
    · rename_i e tr2 heq2
      have : tr2 = (generateCommands g service region summary remedies tr1).2 := by rw [heq2]
      simp [this, key]
    · rename_i m tr2 heq2
      have : tr2 = (generateCommands g service region summary remedies tr1).2 := by rw [heq2]
      simp [this, key]
    · rename_i commands tr2 heq2
      have : tr2 = (generateCommands g service region summary remedies tr1).2 := by rw [heq2]
      simp [this, key]

end geminiapi

theorem nonEmptyCategories_cons_pos (c : Category) (cs : List Category)
    (h : c.findings.length > 0) :
    nonEmptyCategories (c :: cs) = c :: nonEmptyCategories cs := by
  simp [nonEmptyCategories, List.filter_cons, h]

theorem nonEmptyCategories_cons_neg (c : Category) (cs : List Category)
    (h : ¬ c.findings.length > 0) :
    nonEmptyCategories (c :: cs) = nonEmptyCategories cs := by
  simp [nonEmptyCategories, List.filter_cons, h]

/-- The run of the blocks of a process-and-summarize function, from any
intermediate state: the calls of the summarizer are those of a leading part of
the non-empty categories; on success all of them are called and one entry per
non-empty category is appended; on failure the calls end with the category
whose summarization failed. -/
theorem summarizeCategories_run (g : geminiapi.Gemini) (service region : String) :
    ∀ (cats : List Category) (scanItems : List postgres.CreateNewScanItemEntryParams)
      (tr : Trace),
      ∃ calls : List SummarizeCall,
        Trace.summarizeCalls (summarizeCategories g service region cats scanItems tr).2 =
          Trace.summarizeCalls tr ++ calls ∧
        Trace.scanners (summarizeCategories g service region cats scanItems tr).2 =
          Trace.scanners tr ∧
        (∀ entries, (summarizeCategories g service region cats scanItems tr).1 = .ok entries →
          calls = callsFor service region (nonEmptyCategories cats) ∧
          ∃ new, entries = scanItems ++ new ∧
            new.map (fun e => (e.Title, e.Findings)) =
              (nonEmptyCategories cats).map (fun c => (c.Title, c.findings))) ∧
        (∀ e, (summarizeCategories g service region cats scanItems tr).1 = .err e →
          ∃ pre c post e0, nonEmptyCategories cats = pre ++ c :: post ∧
            calls = callsFor service region (pre ++ [c]) ∧ e = c.failure ++ ": " ++ e0) ∧
        (∀ m, (summarizeCategories g service region cats scanItems tr).1 = .panic m →
          ∃ pre c post, nonEmptyCategories cats = pre ++ c :: post ∧
            calls = callsFor service region (pre ++ [c])) := by
  intro cats
  induction cats with
  | nil =>
    intro scanItems tr
    refine ⟨[], by simp [summarizeCategories], by simp [summarizeCategories], ?_, ?_, ?_⟩
    · intro entries h
      simp only [summarizeCategories, GoResult.ok.injEq] at h
      exact ⟨by simp [callsFor, nonEmptyCategories], [], by simp [h], by simp [nonEmptyCategories]⟩
    · intro e h; simp [summarizeCategories] at h
    · intro m h; simp [summarizeCategories] at h
  | cons c cs ih =>
    intro scanItems tr
    by_cases hc : c.findings.length > 0
    · obtain ⟨new, htr, hs, hn⟩ := geminiapi.SummarizeFindings_trace g service region c.findings tr
      rw [nonEmptyCategories_cons_pos c cs hc]
      simp only [summarizeCategories, hc, if_true]
      split
      · rename_i e0 tr1 heq
        have htr1 : tr1 = (geminiapi.SummarizeFindings g service region c.findings tr).2 := by
          rw [heq]
        refine ⟨[⟨service, region, c.findings⟩], ?_, ?_, ?_, ?_, ?_⟩
        · rw [htr1, htr]
          simp [summarizeCalls_append, Trace.summarizeCalls, List.filterMap_cons] at hs ⊢
          exact hs
        · rw [htr1, htr]
          simp [scanners_append, Trace.scanners, List.filterMap_cons] at hn ⊢
          exact hn
        · intro entries h; simp at h
        · intro e h
          simp only [GoResult.err.injEq] at h
          exact ⟨[], c, nonEmptyCategories cs, e0, by simp, by simp [callsFor], h.symm⟩
        · intro m h; simp at h
      · rename_i m0 tr1 heq
        have htr1 : tr1 = (geminiapi.SummarizeFindings g service region c.findings tr).2 := by
          rw [heq]
        refine ⟨[⟨service, region, c.findings⟩], ?_, ?_, ?_, ?_, ?_⟩
        · rw [htr1, htr]
          simp [summarizeCalls_append, Trace.summarizeCalls, List.filterMap_cons] at hs ⊢
          exact hs
        · rw [htr1, htr]
          simp [scanners_append, Trace.scanners, List.filterMap_cons] at hn ⊢
          exact hn
        · intro entries h; simp at h
        · intro e h; simp at h
        · intro m h
          exact ⟨[], c, nonEmptyCategories cs, by simp, by simp [callsFor]⟩
      · rename_i summary tr1 heq
        have htr1 : tr1 = (geminiapi.SummarizeFindings g service region c.findings tr).2 := by
          rw [heq]
        have hcalls1 : Trace.summarizeCalls tr1 =
            Trace.summarizeCalls tr ++ [⟨service, region, c.findings⟩] := by
          rw [htr1, htr]
          simp [summarizeCalls_append, Trace.summarizeCalls, List.filterMap_cons] at hs ⊢
          exact hs
        have hscan1 : Trace.scanners tr1 = Trace.scanners tr := by
          rw [htr1, htr]
          simp [scanners_append, Trace.scanners, List.filterMap_cons] at hn ⊢
          exact hn
        obtain ⟨calls, h1, h2, h3, h4, h5⟩ := ih
          (scanItems ++ [{ Findings := c.findings, Title := c.Title, Summary := summary.Summary,
                           Remedy := summary.Remedies, Commands := summary.Commands }]) tr1
        refine ⟨⟨service, region, c.findings⟩ :: calls, ?_, ?_, ?_, ?_, ?_⟩
        · rw [h1, hcalls1]; simp
        · rw [h2, hscan1]
        · intro entries h
          obtain ⟨hcalls, new, hnew, hmap⟩ := h3 entries h
          refine ⟨by rw [hcalls]; simp [callsFor],
            { Findings := c.findings, Title := c.Title, Summary := summary.Summary,
              Remedy := summary.Remedies, Commands := summary.Commands } :: new,
            by rw [hnew]; simp, ?_⟩
          simp [hmap]
        · intro e h
          obtain ⟨pre, c', post, e0, hsplit, hcalls, he⟩ := h4 e h
          exact ⟨c :: pre, c', post, e0, by rw [hsplit]; simp, by rw [hcalls]; simp [callsFor], he⟩
        · intro m h
          obtain ⟨pre, c', post, hsplit, hcalls⟩ := h5 m h
          exact ⟨c :: pre, c', post, by rw [hsplit]; simp, by rw [hcalls]; simp [callsFor]⟩
    · rw [nonEmptyCategories_cons_neg c cs hc]
      simp only [summarizeCategories, hc, if_false]
      exact ih scanItems tr

theorem summarizeCategories_ok_of_summarizer (g : geminiapi.Gemini) (service region : String)
    (hg : ∀ t f, ∃ r tr', geminiapi.SummarizeFindings g service region f t = (.ok r, tr')) :
    ∀ (cats : List Category) (scanItems : List postgres.CreateNewScanItemEntryParams)
      (tr : Trace), ∃ entries, (summarizeCategories g service region cats scanItems tr).1 =
        .ok entries := by
  intro cats
  induction cats with
  | nil => intro scanItems tr; exact ⟨scanItems, rfl⟩
  | cons c cs ih =>
    intro scanItems tr
    by_cases hc : c.findings.length > 0
    · obtain ⟨r, tr', hr⟩ := hg tr c.findings
      simp only [summarizeCategories, hc, if_true, hr]
      exact ih _ _
    · simp only [summarizeCategories, hc, if_false]
      exact ih _ _

theorem mem_nonEmptyCategories (cats : List Category) (c : Category)
    (h : c ∈ nonEmptyCategories cats) : c ∈ cats ∧ c.findings ≠ [] := by
  simp only [nonEmptyCategories, List.mem_filter, decide_eq_true_eq] at h
  refine ⟨h.1, ?_⟩
  intro hnil
  rw [hnil] at h
  simp at h

theorem summarizeCategories_contract (g : geminiapi.Gemini) (service region : String)
    (cats : List Category) (tr : Trace) :
    SummarizeContract g service region cats tr
      (summarizeCategories g service region cats [] tr) := by
  obtain ⟨calls, h1, -, h3, h4, h5⟩ := summarizeCategories_run g service region cats [] tr
  refine ⟨calls, h1, ?_, h4, ?_, ?_⟩
  · cases hres : (summarizeCategories g service region cats [] tr).1 with
    | ok entries => rw [(h3 entries hres).1]
    | err e =>
      obtain ⟨pre, c, post, e0, hsplit, hcalls, -⟩ := h4 e hres
      rw [hcalls, hsplit]
      exact ⟨callsFor service region post, by simp [callsFor]⟩
    | panic m =>
      obtain ⟨pre, c, post, hsplit, hcalls⟩ := h5 m hres
      rw [hcalls, hsplit]
      exact ⟨callsFor service region post, by simp [callsFor]⟩
  · intro entries hres
    obtain ⟨hcalls, new, hnew, hmap⟩ := h3 entries hres
    simp only [List.nil_append] at hnew
    subst hnew
    refine ⟨hcalls, ?_, hmap, ?_⟩
    · have := congrArg List.length hmap
      simpa using this
    · intro e he
      have hmem : (e.Title, e.Findings) ∈
          (nonEmptyCategories cats).map (fun c => (c.Title, c.findings)) := by
        rw [← hmap]; exact List.mem_map_of_mem _ he
      obtain ⟨c, hc, hce⟩ := List.mem_map.mp hmem
      have := (mem_nonEmptyCategories cats c hc).2
      simp only [Prod.mk.injEq] at hce
      rw [← hce.2]; exact this
  · intro hg
    exact summarizeCategories_ok_of_summarizer g service region hg cats [] tr

/-- C6 (as amended). In the process-and-summarize function of each of the six
scanners, for all category finding lists and every behaviour of the
summarizer, the summarizer is called at most once for each non-empty category,
in the order of the categories, and never for an empty one; the calls stop
with the first one that fails, and the categories after it are not
summarized.  When all calls succeed, it is called exactly once for each
non-empty category, the number of entries equals the number of non-empty
categories, and each entry's findings are exactly the (non-empty) findings of
its category. -/
theorem processAndSummarize_contract (service region : String) (tr : Trace) :
    (∀ (scanner : s3scanner.S3Scanner) (a b c d e f h : List String),
      SummarizeContract scanner.Gemini service region (s3scanner.categories a b c d e f h) tr
        (s3scanner.processAndSummarizeS3Findings scanner service region a b c d e f h tr)) ∧
    (∀ (scanner : ec2scanner.EC2Scanner) (a b c d e f h : List String),
      SummarizeContract scanner.Gemini service region (ec2scanner.categories a b c d e f h) tr
        (ec2scanner.processAndSummarizeFindings scanner service region a b c d e f h tr)) ∧
    (∀ (scanner : ecsscanner.ECSScanner) (a b c d e : List String),
      SummarizeContract scanner.Gemini service region (ecsscanner.categories a b c d e) tr
        (ecsscanner.ProcessAndSummarizeFindings scanner service region a b c d e tr)) ∧
    (∀ (scanner : lambdascanner.LambdaScanner) (a b c d e : List String),
      SummarizeContract scanner.Gemini service region (lambdascanner.categories a b c d e) tr
        (lambdascanner.processAndSummarizeFindings scanner service region a b c d e tr)) ∧
    (∀ (scanner : dynamodbscanner.DynamoDBScanner) (a b c d e : List String),
      SummarizeContract scanner.Gemini service region (dynamodbscanner.categories a b c d e) tr
        (dynamodbscanner.processAndSummarizeDynamoDBFindings scanner service region a b c d e
          tr)) ∧
    (∀ (scanner : iamscanner.IAMScanner) (a b c d e f : List String),
      SummarizeContract scanner.Gemini service region (iamscanner.categories a b c d e f) tr
        (iamscanner.processAndSummarizeFindings scanner service region a b c d e f tr)) := by
  refine ⟨?_, ?_, ?_, ?_, ?_, ?_⟩
  all_goals
    intros
    exact summarizeCategories_contract _ _ _ _ _

/-- C6 (counterexample). With a summarizer that fails, the S3
process-and-summarize function, given the two non-empty categories public
access and encryption, calls the summarizer once, for public access; it is
never called for the non-empty encryption category. -/
theorem processAndSummarize_stops_counterexample :
    Trace.summarizeCalls (s3scanner.processAndSummarizeS3Findings
        ⟨examples.emptyS3, examples.failingResponder⟩ "s3" "us-east-1"
        ["public finding"] ["encryption finding"] [] [] [] [] [] []).2 =
      [{ service := "s3", region := "us-east-1", findings := ["public finding"] }] ∧
    (nonEmptyCategories (s3scanner.categories ["public finding"] ["encryption finding"]
        [] [] [] [] [])).map (fun c => c.Title) = ["Public Access", "Encryption"] := by
  constructor <;> rfl

theorem finishScan_entries_within_flat (g : geminiapi.Gemini) (service region : String)
    (cats : List Category) (flat : List String) (tr tr' : Trace) (fl : List String)
    (entries : List postgres.CreateNewScanItemEntryParams)
    (hflat : ∀ c ∈ cats, ∀ x ∈ c.findings, x ∈ flat)
    (h : finishScan flat (summarizeCategories g service region cats [] tr) =
      (.ok (fl, entries), tr')) :
    ∀ e ∈ entries, ∀ x ∈ e.Findings, x ∈ fl := by
  obtain ⟨calls, -, -, -, hok, -⟩ := summarizeCategories_contract g service region cats tr
  unfold finishScan at h
  split at h
  · simp at h
  · simp at h
  · rename_i scanItems tr1 heq
    simp only [Prod.mk.injEq, GoResult.ok.injEq] at h
    obtain ⟨⟨hfl, hent⟩, -⟩ := h
    subst hfl hent
    obtain ⟨-, -, hmap, -⟩ := hok scanItems (by rw [heq])
    intro e he x hx
    have hmem : (e.Title, e.Findings) ∈
        (nonEmptyCategories cats).map (fun c => (c.Title, c.findings)) := by
      rw [← hmap]; exact List.mem_map_of_mem _ he
    obtain ⟨c, hc, hce⟩ := List.mem_map.mp hmem
    simp only [Prod.mk.injEq] at hce
    exact hflat c (mem_nonEmptyCategories cats c hc).1 x (by rw [hce.2]; exact hx)

/-- The scanners for S3, EC2, ECS, Lambda and DynamoDB: every finding of a
returned entry occurs in the returned flat findings. -/
theorem scanners_entries_within_flat (region : String) (tr tr' : Trace) (flat : List String)
    (entries : List postgres.CreateNewScanItemEntryParams) :
    (∀ scanner, s3scanner.ScanS3 scanner region tr = (.ok (flat, entries), tr') →
      ∀ e ∈ entries, ∀ x ∈ e.Findings, x ∈ flat) ∧
    (∀ scanner, ec2scanner.ScanEC2 scanner region tr = (.ok (flat, entries), tr') →
      ∀ e ∈ entries, ∀ x ∈ e.Findings, x ∈ flat) ∧
    (∀ scanner, ecsscanner.ScanECS scanner region tr = (.ok (flat, entries), tr') →
      ∀ e ∈ entries, ∀ x ∈ e.Findings, x ∈ flat) ∧
    (∀ scanner, lambdascanner.ScanLambda scanner region tr = (.ok (flat, entries), tr') →
      ∀ e ∈ entries, ∀ x ∈ e.Findings, x ∈ flat) ∧
    (∀ scanner, dynamodbscanner.ScanDynamoDB scanner region tr = (.ok (flat, entries), tr') →
      ∀ e ∈ entries, ∀ x ∈ e.Findings, x ∈ flat) := by
  refine ⟨?_, ?_, ?_, ?_, ?_⟩
  · intro scanner h
    unfold s3scanner.ScanS3 at h
    split at h
    · simp at h
    · refine finishScan_entries_within_flat _ _ _ _ _ _ _ _ _ ?_ h
      intro c hc x hx
      simp only [s3scanner.categories, List.mem_cons, List.mem_singleton, List.not_mem_nil,
        or_false] at hc
      rcases hc with rfl | rfl | rfl | rfl | rfl | rfl | rfl <;> simp_all
  · intro scanner h
    unfold ec2scanner.ScanEC2 at h
    split at h
    · simp at h
    · refine finishScan_entries_within_flat _ _ _ _ _ _ _ _ _ ?_ h
      intro c hc x hx
      simp only [ec2scanner.categories, List.mem_cons, List.mem_singleton, List.not_mem_nil,
        or_false] at hc
      rcases hc with rfl | rfl | rfl | rfl | rfl | rfl | rfl <;> simp_all
  · intro scanner h
    unfold ecsscanner.ScanECS at h
    split at h
    · simp at h
    · refine finishScan_entries_within_flat _ _ _ _ _ _ _ _ _ ?_ h
      intro c hc x hx
      simp only [ecsscanner.categories, List.mem_cons, List.mem_singleton, List.not_mem_nil,
        or_false] at hc
      rcases hc with rfl | rfl | rfl | rfl | rfl <;> simp_all
  · intro scanner h
    unfold lambdascanner.ScanLambda at h
    split at h
    · simp at h
    · refine finishScan_entries_within_flat _ _ _ _ _ _ _ _ _ ?_ h
      intro c hc x hx
      simp only [lambdascanner.categories, List.mem_cons, List.mem_singleton, List.not_mem_nil,
        or_false] at hc
      rcases hc with rfl | rfl | rfl | rfl | rfl <;> simp_all
  · intro scanner h
    unfold dynamodbscanner.ScanDynamoDB at h
    split at h
    · simp at h
    · refine finishScan_entries_within_flat _ _ _ _ _ _ _ _ _ ?_ h
      intro c hc x hx
      simp only [dynamodbscanner.categories, List.mem_cons, List.mem_singleton,
        List.not_mem_nil, or_false] at hc
      rcases hc with rfl | rfl | rfl | rfl | rfl <;> simp_all

namespace iamscanner

/-- C5 (code as it is). `ScanIAM` over the account with the single user alice
returns the entry "Root Account Security" with the finding that MFA is not
enabled for the root account, while the flat findings hold the finding about
alice only: the root account findings are not appended to the flat list. -/
theorem ScanIAM_root_findings_missing_from_flat :
    (ScanIAM ⟨examples.aliceIAM, examples.helpfulResponder⟩ "us-east-1" []).1 =
      .ok (["WARNING: MFA is not enabled for user alice."],
        [{ Findings := ["WARNING: MFA is not enabled for user alice."],
           Title := "MFA Status",
           Summary := "Summary of the findings.",
           Remedy := "Remedies for the findings.",
           Commands := ["aws configure list"] },
         { Findings := ["WARNING: MFA is not enabled for the root account."],
           Title := "Root Account Security",
           Summary := "Summary of the findings.",
           Remedy := "Remedies for the findings.",
           Commands := ["aws configure list"] }]) := by
  rfl

end iamscanner

namespace ec2scanner

theorem CheckUnassociatedElasticIPs_all_associated (scanner : EC2Scanner)
    (addresses : List Address) (h : scanner.account.DescribeAddresses = .ok addresses)
    (hall : ∀ a ∈ addresses, a.AssociationId ≠ none) :
    CheckUnassociatedElasticIPs scanner = .ok [] := by
  unfold CheckUnassociatedElasticIPs
  rw [h]
  simp only []
  congr 1
  suffices hgen : ∀ (l : List Address) (acc : List String), (∀ a ∈ l, a.AssociationId ≠ none) →
      l.foldl (fun findings address =>
        if address.AssociationId.isNone then
          findings ++ ["Elastic IP " ++ aws.StringValue address.PublicIp ++
            " is not associated with any instance"]
        else findings) acc = acc from hgen addresses [] hall
  intro l
  induction l with
  | nil => intro acc _; rfl
  | cons a rest ih =>
    intro acc hl
    have ha : a.AssociationId.isNone = false := by
      have := hl a (List.mem_cons_self _ _)
      cases hA : a.AssociationId with
      | none => exact absurd hA this
      | some _ => rfl
    simp only [List.foldl_cons, ha]
    exact ih acc (fun b hb => hl b (List.mem_cons_of_mem _ hb))

end ec2scanner

namespace iamscanner

theorem CheckRootAccountUsage_nonempty (scanner : IAMScanner) (findings : List String)
    (h : CheckRootAccountUsage scanner = .ok findings) : findings ≠ [] := by
  unfold CheckRootAccountUsage at h
  split at h
  · simp at h
  · simp only [] at h
    split at h
    · simp only [Except.ok.injEq] at h
      rw [← h]; simp
    · rename_i hlen
      simp only [Except.ok.injEq] at h
      rw [← h]
      intro hnil
      rw [hnil] at hlen
      simp at hlen

theorem scanRootAccount_nonempty (scanner : IAMScanner) (f : Findings) :
    (scanRoles scanner (scanRootAccount scanner f)).rootAccountFindings ≠ [] := by
  have h1 : (scanRoles scanner (scanRootAccount scanner f)).rootAccountFindings =
      (scanRootAccount scanner f).rootAccountFindings := by
    unfold scanRoles
    split <;> rfl
  rw [h1]
  unfold scanRootAccount
  split
  · simp
  · rename_i result hres
    have := CheckRootAccountUsage_nonempty scanner result hres
    simp [this]

end iamscanner

theorem finishScan_trace (flat : List String)
    (r : GoResult (List postgres.CreateNewScanItemEntryParams) × Trace) :
    (finishScan flat r).2 = r.2 := by
  obtain ⟨res, tr⟩ := r
  cases res <;> rfl

theorem single_category_run (g : geminiapi.Gemini) (service region : String)
    (cats : List Category) (c : Category) (flat : List String) (tr : Trace)
    (hne : nonEmptyCategories cats = [c]) :
    Trace.summarizeCalls (finishScan flat (summarizeCategories g service region cats [] tr)).2 =
        Trace.summarizeCalls tr ++ [⟨service, region, c.findings⟩] ∧
      ∀ fl entries, (finishScan flat (summarizeCategories g service region cats [] tr)).1 =
          .ok (fl, entries) →
        fl = flat ∧ entries.map (fun e => (e.Title, e.Findings)) = [(c.Title, c.findings)] := by
  obtain ⟨calls, h1, -, h3, h4, h5⟩ := summarizeCategories_run g service region cats [] tr
  generalize summarizeCategories g service region cats [] tr = run at h1 h3 h4 h5
  obtain ⟨res, tr1⟩ := run
  have hcalls : calls = [⟨service, region, c.findings⟩] := by
    cases res with
    | ok entries =>
      rw [(h3 entries rfl).1, hne]
      rfl
    | err e =>
      obtain ⟨pre, c', post, e0, hsplit, hc, -⟩ := h4 e rfl
      rw [hne] at hsplit
      cases pre with
      | nil =>
        simp only [List.nil_append, List.cons.injEq] at hsplit
        rw [hc, ← hsplit.1]
        rfl
      | cons x xs =>
        simp only [List.cons_append, List.cons.injEq] at hsplit
        have := congrArg List.length hsplit.2
        simp at this
        omega
    | panic m =>
      obtain ⟨pre, c', post, hsplit, hc⟩ := h5 m rfl
      rw [hne] at hsplit
      cases pre with
      | nil =>
        simp only [List.nil_append, List.cons.injEq] at hsplit
        rw [hc, ← hsplit.1]
        rfl
      | cons x xs =>
        simp only [List.cons_append, List.cons.injEq] at hsplit
        have := congrArg List.length hsplit.2
        simp at this
        omega
  constructor
  · rw [finishScan_trace flat (res, tr1), ← hcalls]
    exact h1
  · intro fl entries hres
    cases res with
    | ok scanItems =>
      simp only [finishScan, GoResult.ok.injEq, Prod.mk.injEq] at hres
      obtain ⟨-, new, hnew, hmap⟩ := h3 scanItems rfl
      simp only [List.nil_append] at hnew
      subst hnew
      refine ⟨hres.1.symm, ?_⟩
      rw [← hres.2, hmap, hne]
      rfl
    | err e => simp [finishScan] at hres
    | panic m => simp [finishScan] at hres

namespace ec2scanner

theorem CheckUnassociatedElasticIPs_ok (scanner : EC2Scanner) (addresses : List Address)
    (h : scanner.account.DescribeAddresses = .ok addresses) :
    CheckUnassociatedElasticIPs scanner =
      .ok ((addresses.filter (fun a => a.AssociationId.isNone)).map
        (fun a => "Elastic IP " ++ aws.StringValue a.PublicIp ++
          " is not associated with any instance")) := by
  unfold CheckUnassociatedElasticIPs
  rw [h]
  simp only []
  congr 1
  suffices hgen : ∀ (l : List Address) (acc : List String),
      l.foldl (fun findings address =>
        if address.AssociationId.isNone then
          findings ++ ["Elastic IP " ++ aws.StringValue address.PublicIp ++
            " is not associated with any instance"]
        else findings) acc =
      acc ++ (l.filter (fun a => a.AssociationId.isNone)).map
        (fun a => "Elastic IP " ++ aws.StringValue a.PublicIp ++
          " is not associated with any instance") by
    simpa using hgen addresses []
  intro l
  induction l with
  | nil => intro acc; simp
  | cons a rest ih =>
    intro acc
    rw [List.foldl_cons, ih]
    by_cases ha : a.AssociationId.isNone = true
    · simp [ha, List.filter_cons]
    · simp [ha, List.filter_cons]

theorem ScanEC2_no_instances (scanner : EC2Scanner) (region : String) (tr : Trace)
    (hlist : scanner.account.ListInstances = .ok []) :
    (∀ err, CheckUnassociatedElasticIPs scanner = .error err →
      ScanEC2 scanner region tr =
        finishScan ["Error checking unassociated Elastic IPs: " ++ err]
          (summarizeCategories scanner.Gemini region "ec2"
            (categories [] [] [] [] [] [] ["Error checking unassociated Elastic IPs: " ++ err])
            [] tr)) ∧
    (∀ findings, CheckUnassociatedElasticIPs scanner = .ok findings →
      ScanEC2 scanner region tr =
        finishScan findings
          (summarizeCategories scanner.Gemini region "ec2"
            (categories [] [] [] [] [] [] findings) [] tr)) := by
  constructor
  · intro err h
    simp [ScanEC2, hlist, h, processAndSummarizeFindings]
  · intro findings h
    simp [ScanEC2, hlist, h, processAndSummarizeFindings]

theorem nonEmptyCategories_elasticIP (findings : List String) (h : findings ≠ []) :
    nonEmptyCategories (categories [] [] [] [] [] [] findings) =
      [⟨"Elastic IP Findings", "error summarizing Elastic IP findings", findings⟩] := by
  have hpos : findings.length > 0 := List.length_pos.mpr h
  simp [nonEmptyCategories, categories, List.filter, hpos]

end ec2scanner

/-- C7 (as amended). With a listing call that succeeds and returns no
resource, the scanners for S3, ECS, Lambda and DynamoDB return no error, no
flat finding and no entry, and leave the trace as it is (the summarizer is not
called).  The EC2 scanner does so when the Elastic IP lookup succeeds and every
address is associated.  The IAM scanner checks the root account whatever the
users: with zero users it always calls the summarizer, and when it returns
without error its entries include one titled "Root Account Security" with
non-empty findings.  When the Elastic IP lookup of the EC2 scanner fails, or
succeeds with an address that is not associated, the Elastic IP category is
non-empty (the error finding, or one finding for each unassociated address),
the summarizer is called exactly once, with these findings, and a scan that
returns without error returns them as its flat findings and as the findings of
its one entry, titled "Elastic IP Findings". -/
theorem scan_of_zero_resources (region : String) (tr : Trace) :
    (∀ scanner : s3scanner.S3Scanner, scanner.account.ListBuckets = .ok [] →
      s3scanner.ScanS3 scanner region tr = (.ok ([], []), tr)) ∧
    (∀ scanner : ecsscanner.ECSScanner, scanner.account.ListClusters = .ok [] →
      ecsscanner.ScanECS scanner region tr = (.ok ([], []), tr)) ∧
    (∀ scanner : lambdascanner.LambdaScanner, scanner.account.ListFunctions = .ok [] →
      lambdascanner.ScanLambda scanner region tr = (.ok ([], []), tr)) ∧
    (∀ scanner : dynamodbscanner.DynamoDBScanner, scanner.account.ListTables = .ok [] →
      dynamodbscanner.ScanDynamoDB scanner region tr = (.ok ([], []), tr)) ∧
    (∀ (scanner : ec2scanner.EC2Scanner) (addresses : List ec2scanner.Address),
      scanner.account.ListInstances = .ok [] →
      scanner.account.DescribeAddresses = .ok addresses →
      (∀ a ∈ addresses, a.AssociationId ≠ none) →
      ec2scanner.ScanEC2 scanner region tr = (.ok ([], []), tr)) ∧
    (∀ scanner : iamscanner.IAMScanner, scanner.account.ListUsers = .ok [] →
      Trace.summarizeCalls (iamscanner.ScanIAM scanner region tr).2 ≠ Trace.summarizeCalls tr ∧
      ∀ flat entries, (iamscanner.ScanIAM scanner region tr).1 = .ok (flat, entries) →
        ∃ e ∈ entries, e.Title = "Root Account Security" ∧ e.Findings ≠ []) ∧
    (∀ (scanner : ec2scanner.EC2Scanner) (err : String),
      scanner.account.ListInstances = .ok [] →
      scanner.account.DescribeAddresses = .error err →
      Trace.summarizeCalls (ec2scanner.ScanEC2 scanner region tr).2 =
          Trace.summarizeCalls tr ++
            [⟨region, "ec2",
              ["Error checking unassociated Elastic IPs: error describing Elastic IPs: " ++
                err]⟩] ∧
        ∀ flat entries, (ec2scanner.ScanEC2 scanner region tr).1 = .ok (flat, entries) →
          flat = ["Error checking unassociated Elastic IPs: error describing Elastic IPs: " ++
              err] ∧
            entries.map (fun e => (e.Title, e.Findings)) =
              [("Elastic IP Findings",
                ["Error checking unassociated Elastic IPs: error describing Elastic IPs: " ++
                  err])]) ∧
    (∀ (scanner : ec2scanner.EC2Scanner) (addresses : List ec2scanner.Address),
      scanner.account.ListInstances = .ok [] →
      scanner.account.DescribeAddresses = .ok addresses →
      (∃ a ∈ addresses, a.AssociationId = none) →
      (addresses.filter (fun a => a.AssociationId.isNone)).map
          (fun a => "Elastic IP " ++ aws.StringValue a.PublicIp ++
            " is not associated with any instance") ≠ [] ∧
        Trace.summarizeCalls (ec2scanner.ScanEC2 scanner region tr).2 =
          Trace.summarizeCalls tr ++
            [⟨region, "ec2",
              (addresses.filter (fun a => a.AssociationId.isNone)).map
                (fun a => "Elastic IP " ++ aws.StringValue a.PublicIp ++
                  " is not associated with any instance")⟩] ∧
        ∀ flat entries, (ec2scanner.ScanEC2 scanner region tr).1 = .ok (flat, entries) →
          flat = (addresses.filter (fun a => a.AssociationId.isNone)).map
              (fun a => "Elastic IP " ++ aws.StringValue a.PublicIp ++
                " is not associated with any instance") ∧
            entries.map (fun e => (e.Title, e.Findings)) =
              [("Elastic IP Findings",
                (addresses.filter (fun a => a.AssociationId.isNone)).map
                  (fun a => "Elastic IP " ++ aws.StringValue a.PublicIp ++
                    " is not associated with any instance"))]) := by
  refine ⟨?_, ?_, ?_, ?_, ?_, ?_, ?_, ?_⟩
  · intro scanner h
    simp [s3scanner.ScanS3, h, s3scanner.processAndSummarizeS3Findings, s3scanner.categories,
      summarizeCategories, finishScan]
  · intro scanner h
    simp [ecsscanner.ScanECS, h, ecsscanner.ProcessAndSummarizeFindings, ecsscanner.categories,
      summarizeCategories, finishScan]
  · intro scanner h
    simp [lambdascanner.ScanLambda, h, lambdascanner.processAndSummarizeFindings,
      lambdascanner.categories, summarizeCategories, finishScan]
  · intro scanner h
    simp [dynamodbscanner.ScanDynamoDB, h, dynamodbscanner.processAndSummarizeDynamoDBFindings,
      dynamodbscanner.categories, summarizeCategories, finishScan]
  · intro scanner addresses h hd hall
    have hc := ec2scanner.CheckUnassociatedElasticIPs_all_associated scanner addresses hd hall
    simp [ec2scanner.ScanEC2, h, hc, ec2scanner.processAndSummarizeFindings,
      ec2scanner.categories, summarizeCategories, finishScan]
  · intro scanner h
    have hroot := iamscanner.scanRootAccount_nonempty scanner
      ({} : iamscanner.Findings)
    unfold iamscanner.ScanIAM
    simp only [h, List.foldl_nil]
    generalize iamscanner.scanRoles scanner (iamscanner.scanRootAccount scanner {}) = f at hroot
    unfold iamscanner.processAndSummarizeFindings
    obtain ⟨calls, h1, -, h3, h4, h5⟩ := summarizeCategories_run scanner.Gemini "iam" region
      (iamscanner.categories f.unusedAccessKeysFindings f.overlyPermissivePoliciesFindings
        f.privilegeEscalationFindings f.mfaFindings f.roleTrustFindings f.rootAccountFindings)
      [] tr
    have hrootcat : (⟨"Root Account Security", "error summarizing root account findings",
        f.rootAccountFindings⟩ : Category) ∈ nonEmptyCategories
        (iamscanner.categories f.unusedAccessKeysFindings f.overlyPermissivePoliciesFindings
          f.privilegeEscalationFindings f.mfaFindings f.roleTrustFindings
          f.rootAccountFindings) := by
      simp only [nonEmptyCategories, List.mem_filter, decide_eq_true_eq]
      refine ⟨by simp [iamscanner.categories], ?_⟩
      exact List.length_pos.mpr hroot
    generalize hrun : summarizeCategories scanner.Gemini "iam" region
      (iamscanner.categories f.unusedAccessKeysFindings f.overlyPermissivePoliciesFindings
        f.privilegeEscalationFindings f.mfaFindings f.roleTrustFindings f.rootAccountFindings)
      [] tr = run at h1 h3 h4 h5
    obtain ⟨res, tr1⟩ := run
    have htrace : ∀ flat, (finishScan flat (res, tr1)).2 = tr1 := by
      intro flat; unfold finishScan; cases res <;> rfl
    constructor
    · rw [htrace, h1]
      intro hcontra
      have hnil : calls = [] := by
        have := congrArg List.length hcontra
        simp only [List.length_append] at this
        exact List.length_eq_zero.mp (by omega)
      cases res with
      | ok entries =>
        have := (h3 entries rfl).1
        rw [hnil] at this
        have hne := List.ne_nil_of_mem hrootcat
        simp only [callsFor] at this
        exact hne (List.map_eq_nil_iff.mp this.symm)
      | err e =>
        obtain ⟨pre, c, post, e0, -, hcalls, -⟩ := h4 e rfl
        rw [hnil] at hcalls
        simp [callsFor] at hcalls
      | panic m =>
        obtain ⟨pre, c, post, -, hcalls⟩ := h5 m rfl
        rw [hnil] at hcalls
        simp [callsFor] at hcalls
    · intro flat entries hres
      cases res with
      | ok scanItems =>
        simp only [finishScan, GoResult.ok.injEq, Prod.mk.injEq] at hres
        obtain ⟨-, new, hnew, hmap⟩ := h3 scanItems rfl
        simp only [List.nil_append] at hnew
        subst hnew
        have hmem : ("Root Account Security", f.rootAccountFindings) ∈
            scanItems.map (fun e => (e.Title, e.Findings)) := by
          rw [hmap]
          exact List.mem_map.mpr ⟨_, hrootcat, rfl⟩
        obtain ⟨e, he, hee⟩ := List.mem_map.mp hmem
        simp only [Prod.mk.injEq] at hee
        refine ⟨e, by rw [← hres.2]; exact he, hee.1, ?_⟩
        rw [hee.2]; exact hroot
      | err e => simp [finishScan] at hres
      | panic m => simp [finishScan] at hres
  · intro scanner err hlist hd
    have hcheck : ec2scanner.CheckUnassociatedElasticIPs scanner =
        .error ("error describing Elastic IPs: " ++ err) := by
      simp [ec2scanner.CheckUnassociatedElasticIPs, hd]
    rw [(ec2scanner.ScanEC2_no_instances scanner region tr hlist).1 _ hcheck]
    have hne := ec2scanner.nonEmptyCategories_elasticIP
      ["Error checking unassociated Elastic IPs: " ++ ("error describing Elastic IPs: " ++ err)]
      (by simp)
    have hrun := single_category_run scanner.Gemini region "ec2" _ _
      ["Error checking unassociated Elastic IPs: " ++ ("error describing Elastic IPs: " ++ err)]
      tr hne
    have htext : "Error checking unassociated Elastic IPs: " ++
        ("error describing Elastic IPs: " ++ err) =
        "Error checking unassociated Elastic IPs: error describing Elastic IPs: " ++ err := by
      rw [← String.append_assoc]
      rfl
    rw [htext] at hrun
    exact hrun
  · intro scanner addresses hlist hd hex
    have hcheck := ec2scanner.CheckUnassociatedElasticIPs_ok scanner addresses hd
    have hnonempty : (addresses.filter (fun a => a.AssociationId.isNone)).map
        (fun a => "Elastic IP " ++ aws.StringValue a.PublicIp ++
          " is not associated with any instance") ≠ [] := by
      obtain ⟨a, ha, hnone⟩ := hex
      intro hnil
      have hmem : a ∈ addresses.filter (fun a => a.AssociationId.isNone) :=
        List.mem_filter.mpr ⟨ha, by simp [hnone]⟩
      rw [List.map_eq_nil_iff] at hnil
      rw [hnil] at hmem
      simp at hmem
    refine ⟨hnonempty, ?_⟩
    rw [(ec2scanner.ScanEC2_no_instances scanner region tr hlist).2 _ hcheck]
    exact single_category_run scanner.Gemini region "ec2" _ _ _ tr
      (ec2scanner.nonEmptyCategories_elasticIP _ hnonempty)

theorem scan_of_zero_resources_witness :
    s3scanner.ScanS3 ⟨examples.emptyS3, examples.helpfulResponder⟩ "us-east-1" [] =
      (.ok ([], []), []) ∧
    ecsscanner.ScanECS ⟨examples.emptyECS, examples.helpfulResponder⟩ "us-east-1" [] =
      (.ok ([], []), []) ∧
    lambdascanner.ScanLambda ⟨examples.emptyLambda, examples.helpfulResponder⟩ "us-east-1" [] =
      (.ok ([], []), []) ∧
    dynamodbscanner.ScanDynamoDB ⟨examples.emptyDynamoDB, examples.helpfulResponder⟩
      "us-east-1" [] = (.ok ([], []), []) ∧
    ec2scanner.ScanEC2 ⟨examples.quietEC2, examples.helpfulResponder⟩ "us-east-1" [] =
      (.ok ([], []), []) ∧
    (Trace.summarizeCalls
        (iamscanner.ScanIAM ⟨examples.quietIAM, examples.helpfulResponder⟩ "us-east-1" []).2 ≠
        Trace.summarizeCalls [] ∧
      ∀ flat entries,
        (iamscanner.ScanIAM ⟨examples.quietIAM, examples.helpfulResponder⟩ "us-east-1"
          []).1 = .ok (flat, entries) →
        ∃ e ∈ entries, e.Title = "Root Account Security" ∧ e.Findings ≠ []) ∧
    Trace.summarizeCalls
        (ec2scanner.ScanEC2 ⟨examples.deniedAddressesEC2, examples.helpfulResponder⟩
          "us-east-1" []).2 =
      Trace.summarizeCalls [] ++
        [⟨"us-east-1", "ec2",
          ["Error checking unassociated Elastic IPs: error describing Elastic IPs: " ++
            "UnauthorizedOperation"]⟩] ∧
    Trace.summarizeCalls
        (ec2scanner.ScanEC2 ⟨examples.idleAddressEC2, examples.helpfulResponder⟩
          "us-east-1" []).2 =
      Trace.summarizeCalls [] ++
        [⟨"us-east-1", "ec2", ["Elastic IP 203.0.113.7 is not associated with any instance"]⟩] :=
  ⟨(scan_of_zero_resources "us-east-1" []).1 ⟨examples.emptyS3, examples.helpfulResponder⟩ rfl,
   (scan_of_zero_resources "us-east-1" []).2.1 ⟨examples.emptyECS, examples.helpfulResponder⟩
     rfl,
   (scan_of_zero_resources "us-east-1" []).2.2.1
     ⟨examples.emptyLambda, examples.helpfulResponder⟩ rfl,
   (scan_of_zero_resources "us-east-1" []).2.2.2.1
     ⟨examples.emptyDynamoDB, examples.helpfulResponder⟩ rfl,
   (scan_of_zero_resources "us-east-1" []).2.2.2.2.1
     ⟨examples.quietEC2, examples.helpfulResponder⟩
     [{ AssociationId := some "eipassoc-1", PublicIp := some "203.0.113.7" }] rfl rfl
     (by intro a ha; simp only [List.mem_singleton] at ha; subst ha; simp),
   (scan_of_zero_resources "us-east-1" []).2.2.2.2.2.1
     ⟨examples.quietIAM, examples.helpfulResponder⟩ rfl,
   ((scan_of_zero_resources "us-east-1" []).2.2.2.2.2.2.1
     ⟨examples.deniedAddressesEC2, examples.helpfulResponder⟩ "UnauthorizedOperation"
     rfl rfl).1,
   ((scan_of_zero_resources "us-east-1" []).2.2.2.2.2.2.2
     ⟨examples.idleAddressEC2, examples.helpfulResponder⟩
     [{ AssociationId := none, PublicIp := some "203.0.113.7" }] rfl rfl
     ⟨_, List.mem_singleton.mpr rfl, rfl⟩).2.1⟩

/-- C7 (counterexample). The IAM scanner over an account whose user listing
succeeds with zero users returns an entry (the summarizer was called for the
root account category), and the EC2 scanner over an account whose instance
listing succeeds with zero instances returns a flat finding and an entry for
an Elastic IP that is not associated. -/
theorem scan_of_zero_resources_counterexample :
    examples.quietIAM.ListUsers = .ok [] ∧
    (iamscanner.ScanIAM ⟨examples.quietIAM, examples.helpfulResponder⟩ "us-east-1" []).1 =
      .ok ([],
        [{ Findings := ["Root account usage appears secure based on available information."],
           Title := "Root Account Security",
           Summary := "Summary of the findings.",
           Remedy := "Remedies for the findings.",
           Commands := ["aws configure list"] }]) ∧
    examples.idleAddressEC2.ListInstances = .ok [] ∧
    (ec2scanner.ScanEC2 ⟨examples.idleAddressEC2, examples.helpfulResponder⟩ "us-east-1" []).1 =
      .ok (["Elastic IP 203.0.113.7 is not associated with any instance"],
        [{ Findings := ["Elastic IP 203.0.113.7 is not associated with any instance"],
           Title := "Elastic IP Findings",
           Summary := "Summary of the findings.",
           Remedy := "Remedies for the findings.",
           Commands := ["aws configure list"] }]) := by
  refine ⟨rfl, ?_, rfl, ?_⟩ <;> rfl

namespace awsmiddleware

/-- C8. For every service name other than exactly "s3", "ec2", "ecs",
"lambda", "dynamodb" or "iam", `scanService` returns the error
`unsupported service: <name>` with no entries and leaves the trace as it is:
no scanner is constructed or run.  For each of the six names the scanner of
that service is constructed and run, and an error that `scanService` returns
is the error of that run. -/
theorem scanService_unsupported_service (cloud : Cloud) (a : AWSMiddleware)
    (accessKey secretKey sessionToken region : String) (tr : Trace) :
    (∀ service : String, service ≠ "s3" → service ≠ "ec2" → service ≠ "ecs" →
      service ≠ "lambda" → service ≠ "dynamodb" → service ≠ "iam" →
      scanService cloud a accessKey secretKey sessionToken region service tr =
        (({ Service := service, Region := region }, .err ("unsupported service: " ++ service)),
          tr)) ∧
    (∀ e, (scanService cloud a accessKey secretKey sessionToken region "s3" tr).1.2 = .err e →
      (s3scanner.ScanS3 ⟨cloud.s3 accessKey secretKey sessionToken region, a.gemini⟩ region
        (tr ++ [Event.NewScanner "s3" region])).1 = .err e) ∧
    (∀ e, (scanService cloud a accessKey secretKey sessionToken region "ec2" tr).1.2 = .err e →
      (ec2scanner.ScanEC2 ⟨cloud.ec2 accessKey secretKey sessionToken region, a.gemini⟩ region
        (tr ++ [Event.NewScanner "ec2" region])).1 = .err e) ∧
    (∀ e, (scanService cloud a accessKey secretKey sessionToken region "ecs" tr).1.2 = .err e →
      (ecsscanner.ScanECS ⟨cloud.ecs accessKey secretKey sessionToken region, a.gemini⟩ region
        (tr ++ [Event.NewScanner "ecs" region])).1 = .err e) ∧
    (∀ e, (scanService cloud a accessKey secretKey sessionToken region "lambda" tr).1.2 =
        .err e →
      (lambdascanner.ScanLambda ⟨cloud.lambda accessKey secretKey sessionToken region, a.gemini⟩
        region (tr ++ [Event.NewScanner "lambda" region])).1 = .err e) ∧
    (∀ e, (scanService cloud a accessKey secretKey sessionToken region "dynamodb" tr).1.2 =
        .err e →
      (dynamodbscanner.ScanDynamoDB
        ⟨cloud.dynamodb accessKey secretKey sessionToken region, a.gemini⟩
        region (tr ++ [Event.NewScanner "dynamodb" region])).1 = .err e) ∧
    (∀ e, (scanService cloud a accessKey secretKey sessionToken region "iam" tr).1.2 = .err e →
      (iamscanner.ScanIAM ⟨cloud.iam accessKey secretKey sessionToken region, a.gemini⟩ region
        (tr ++ [Event.NewScanner "iam" region])).1 = .err e) := by
  have key : ∀ (service : String) (e : String),
      (scanService cloud a accessKey secretKey sessionToken region service tr).1.2 = .err e →
      (dispatch cloud a accessKey secretKey sessionToken region service tr).1 = .err e := by
    intro service e h
    unfold scanService at h
    simp only [] at h
    split at h
    · rename_i err tr1 heq
      rw [heq]
      simp only [GoResult.err.injEq] at h
      simp [h]
    · simp at h
    · simp at h
  refine ⟨?_, ?_, ?_, ?_, ?_, ?_, ?_⟩
  · intro service h1 h2 h3 h4 h5 h6
    simp [scanService, dispatch, h1, h2, h3, h4, h5, h6]
  all_goals
    intro e h
    have := key _ e h
    simpa [dispatch] using this

theorem scanService_unsupported_service_witness :
    scanService examples.quietCloud ⟨examples.helpfulResponder⟩ "" "" "" "us-east-1" "S3" [] =
      (({ Service := "S3", Region := "us-east-1" }, .err ("unsupported service: " ++ "S3")),
        []) :=
  (scanService_unsupported_service examples.quietCloud ⟨examples.helpfulResponder⟩ "" "" ""
    "us-east-1" []).1 "S3" (by decide) (by decide) (by decide) (by decide) (by decide)
    (by decide)


theorem scanServices_append (cloud : Cloud) (a : AWSMiddleware)
    (accessKey secretKey sessionToken region : String) :
    ∀ (pre rest : List String) (results : List ScanResults) (tr : Trace),
      scanServices cloud a accessKey secretKey sessionToken region (pre ++ rest) results tr =
        match scanServices cloud a accessKey secretKey sessionToken region pre results tr with
        | (.ok results1, tr1) =>
          scanServices cloud a accessKey secretKey sessionToken region rest results1 tr1
        | (.err err, tr1) => (.err err, tr1)
        | (.panic m, tr1) => (.panic m, tr1) := by
  intro pre
  induction pre with
  | nil => intro rest results tr; simp [scanServices]
  | cons s pre ih =>
    intro rest results tr
    simp only [List.cons_append, scanServices]
    split
    · rfl
    · rfl
    · exact ih _ _ _

theorem scanRegions_append (cloud : Cloud) (a : AWSMiddleware)
    (accessKey secretKey sessionToken : String) (services : List String) :
    ∀ (pre rest : List String) (results : List ScanResults) (tr : Trace),
      scanRegions cloud a accessKey secretKey sessionToken services (pre ++ rest) results tr =
        match scanRegions cloud a accessKey secretKey sessionToken services pre results tr with
        | (.ok results1, tr1) =>
          scanRegions cloud a accessKey secretKey sessionToken services rest results1 tr1
        | (.err err, tr1) => (.err err, tr1)
        | (.panic m, tr1) => (.panic m, tr1) := by
  intro pre
  induction pre with
  | nil => intro rest results tr; simp [scanRegions]
  | cons r pre ih =>
    intro rest results tr
    simp only [List.cons_append, scanRegions]
    split
    · exact ih _ _ _
    · rfl
    · rfl

/-- C1 (as amended). `StartScan` stops at the first (region, service) pair
that fails, in region-major order.  When the regions before `r` are scanned
without error, the services before `s` are scanned without error in region
`r`, and `scanService` fails for `(r, s)`, `StartScan` returns the error
`error scanning <s> in <r>: <cause>` and no result: the results of the pairs
that succeeded are dropped, and the trace is the one left by the failing pair
(no later pair is scanned). -/
theorem StartScan_stops_at_first_failure (cloud : Cloud) (a : AWSMiddleware)
    (accessKey secretKey sessionToken : String)
    (regionsBefore : List String) (r : String) (regionsAfter : List String)
    (servicesBefore : List String) (s : String) (servicesAfter : List String)
    (tr tr1 tr2 tr3 : Trace) (results1 results2 : List ScanResults)
    (item : postgres.ScanItem) (cause : String)
    (h1 : StartScan cloud a accessKey secretKey sessionToken regionsBefore
      (servicesBefore ++ s :: servicesAfter) tr = (.ok results1, tr1))
    (h2 : scanServices cloud a accessKey secretKey sessionToken r servicesBefore results1 tr1 =
      (.ok results2, tr2))
    (h3 : scanService cloud a accessKey secretKey sessionToken r s tr2 =
      ((item, .err cause), tr3)) :
    StartScan cloud a accessKey secretKey sessionToken (regionsBefore ++ r :: regionsAfter)
        (servicesBefore ++ s :: servicesAfter) tr =
      (.err ("error scanning " ++ s ++ " in " ++ r ++ ": " ++ cause), tr3) := by
  unfold StartScan at h1 ⊢
  rw [scanRegions_append, h1]
  simp only [scanRegions]
  rw [scanServices_append, h2]
  simp only [scanServices, h3]

theorem StartScan_stops_at_first_failure_witness :
    StartScan examples.quietCloud ⟨examples.helpfulResponder⟩ "" "" ""
        ([] ++ "us-east-1" :: ["eu-west-1"]) (["s3"] ++ "rds" :: ["lambda"]) [] =
      (.err ("error scanning " ++ "rds" ++ " in " ++ "us-east-1" ++ ": " ++
        "unsupported service: rds"), [Event.NewScanner "s3" "us-east-1"]) :=
  StartScan_stops_at_first_failure examples.quietCloud ⟨examples.helpfulResponder⟩ "" "" ""
    [] "us-east-1" ["eu-west-1"] ["s3"] "rds" ["lambda"] [] [] [Event.NewScanner "s3" "us-east-1"]
    [Event.NewScanner "s3" "us-east-1"] []
    [{ ScanItem := { Service := "s3", Region := "us-east-1" }, ScanItemEntries := [] }]
    { Service := "rds", Region := "us-east-1" } "unsupported service: rds" rfl rfl rfl

/-- C1 (counterexample). Over the region us-east-1 and the services s3, rds,
s3 the pair (us-east-1, s3) succeeds, yet `StartScan` returns the error for
rds without any result; only one scanner was constructed, so the third pair
was not scanned. -/
theorem StartScan_partial_results_counterexample :
    (scanService examples.quietCloud ⟨examples.helpfulResponder⟩ "" "" "" "us-east-1" "s3" []).1 =
      ({ Service := "s3", Region := "us-east-1" }, .ok []) ∧
    StartScan examples.quietCloud ⟨examples.helpfulResponder⟩ "" "" "" ["us-east-1"]
        ["s3", "rds", "s3"] [] =
      (.err "error scanning rds in us-east-1: unsupported service: rds",
        [Event.NewScanner "s3" "us-east-1"]) := by
  constructor <;> rfl

end awsmiddleware

theorem waits_append (a b : Trace) : Trace.waits (a ++ b) = Trace.waits a ++ Trace.waits b := by
  simp [Trace.waits]

namespace geminiapi

/-- C11. If the context is done during the backoff wait that follows the
failed attempt `k` (`k` = 0 or 1), `generateContentWithRetry` returns the
error of the context, whatever the error of the failed attempt, returns no
response, and has called the model `k + 1` times: no call follows the wait. -/
theorem generateContentWithRetry_cancelled_in_wait (g : Gemini) (model : GenerativeModel)
    (prompt : String) (tr : Trace) (k : Nat) (ctxErr : String)
    (hk : k < maxRetries - 1)
    (hprev : ∀ j, j < k → attemptFailed (attemptOutcome g model prompt tr j) = .ok true ∧
      waitDone g tr j = none)
    (hfail : attemptFailed (attemptOutcome g model prompt tr k) = .ok true)
    (hdone : waitDone g tr k = some ctxErr) :
    (generateContentWithRetry g model prompt tr).1 = .err ctxErr ∧
    Trace.modelCalls (generateContentWithRetry g model prompt tr).2 =
      Trace.modelCalls tr ++ List.replicate (k + 1) (model, prompt) := by
  rw [generateContentWithRetry_unfold]
  simp only [maxRetries] at hk
  interval_cases k
  · simp [hfail, hdone, modelCalls_append, Trace.modelCalls]
  · have h0 := hprev 0 (by omega)
    simp [hfail, hdone, h0.1, h0.2, modelCalls_append, Trace.modelCalls, List.replicate]

theorem generateContentWithRetry_cancelled_in_wait_witness :
    (generateContentWithRetry examples.cancelledResponder (summarizeModel "s3" "us-east-1") "p"
        []).1 = .err "context canceled" ∧
    Trace.modelCalls (generateContentWithRetry examples.cancelledResponder
        (summarizeModel "s3" "us-east-1") "p" []).2 =
      Trace.modelCalls [] ++ List.replicate (1 + 1) (summarizeModel "s3" "us-east-1", "p") :=
  generateContentWithRetry_cancelled_in_wait examples.cancelledResponder
    (summarizeModel "s3" "us-east-1") "p" [] 1 "context canceled" (by decide)
    (by
      intro j hj
      interval_cases j
      exact ⟨rfl, rfl⟩)
    rfl rfl

/-- C12 (as amended). `exponentialBackoff n` is one second times `2 ^ n` for
every attempt index `n` from 0 to 33 (beyond that the `int64` product wraps
around), and in a run of `generateContentWithRetry` in which all three
attempts fail and no wait is cut short the waits are exactly one second after
attempt 0 and two seconds after attempt 1, none after the last attempt. -/
theorem exponentialBackoff_doubles :
    (∀ n : Nat, n ≤ 33 → exponentialBackoff n = 1000000000 * 2 ^ n) ∧
    (∀ (g : Gemini) (model : GenerativeModel) (prompt : String) (tr : Trace),
      (∀ k, k < maxRetries → attemptFailed (attemptOutcome g model prompt tr k) = .ok true) →
      (∀ k, k < maxRetries - 1 → waitDone g tr k = none) →
      Trace.waits (generateContentWithRetry g model prompt tr).2 =
        Trace.waits tr ++ [1000000000, 2000000000]) := by
  constructor
  · intro n hn
    interval_cases n <;> rfl
  · intro g model prompt tr hfail hwait
    have f0 := hfail 0 (by simp [maxRetries])
    have f1 := hfail 1 (by simp [maxRetries])
    have f2 := hfail 2 (by simp [maxRetries])
    have w0 := hwait 0 (by simp [maxRetries])
    have w1 := hwait 1 (by simp [maxRetries])
    have e0 : exponentialBackoff 0 = 1000000000 := rfl
    have e1 : exponentialBackoff 1 = 2000000000 := rfl
    rw [generateContentWithRetry_unfold]
    simp [f0, f1, f2, w0, w1, waits_append, Trace.waits, e0, e1]

theorem exponentialBackoff_doubles_witness :
    exponentialBackoff (33 : Nat) = 1000000000 * 2 ^ 33 ∧
    Trace.waits (generateContentWithRetry examples.failingResponder
        (summarizeModel "s3" "us-east-1") "p" []).2 =
      Trace.waits [] ++ [1000000000, 2000000000] :=
  ⟨exponentialBackoff_doubles.1 33 (le_refl 33),
   exponentialBackoff_doubles.2 examples.failingResponder (summarizeModel "s3" "us-east-1") "p" []
     (by intro k _; rfl) (by intro k _; rfl)⟩

/-- C12 (counterexample). For the attempt index 34 the `int64` product wraps
around: `exponentialBackoff 34` is negative, not one second times `2 ^ 34`. -/
theorem exponentialBackoff_wraps_counterexample :
    exponentialBackoff 34 = -1266874889709551616 ∧
    exponentialBackoff 34 ≠ 1000000000 * 2 ^ 34 := by
  constructor
  · rfl
  · decide

end geminiapi

namespace geminiapi

/-- C13. `SummarizeFindings` makes its two calls in sequence.  If the
summarize call returns an error, that error is returned with no result and
every model call made used the summarize model: no command-generation call is
made.  If the summarize call returns a summary and remedies, the
command-generation call follows it, and every model call it makes (there is at
least one) uses the command model and carries the prompt that holds exactly
that summary after the line `Summary:` and exactly those remedies after the
line `Remedies:`; an error of that call is returned with no result, and on its
success
the result holds the summary and the remedies of the first call and the
commands of the second, as returned. -/
theorem SummarizeFindings_two_calls_in_sequence (g : Gemini) (service region : String)
    (findings : List String) (tr : Trace) :
    (∀ e tr1, summarizeIssues g service region findings
          (tr ++ [Event.SummarizeFindings ⟨service, region, findings⟩]) = (.err e, tr1) →
      SummarizeFindings g service region findings tr = (.err e, tr1) ∧
      ∃ new, tr1 = tr ++ Event.SummarizeFindings ⟨service, region, findings⟩ :: new ∧
        ∀ c ∈ Trace.modelCalls new, c.1 = summarizeModel service region) ∧
    (∀ summary remedies tr1, summarizeIssues g service region findings
          (tr ++ [Event.SummarizeFindings ⟨service, region, findings⟩]) =
          (.ok (summary, remedies), tr1) →
      (∃ new2, (SummarizeFindings g service region findings tr).2 = tr1 ++ new2 ∧
        Trace.modelCalls new2 ≠ [] ∧
        ∀ c ∈ Trace.modelCalls new2,
          c.1 = commandsModel service region ∧
          c.2 = "\n\t\tBased on the following summary and remedies, generate AWS CLI commands to address the issues:\n\n\t\tSummary:\n\t\t" ++
            summary ++ "\n\n\t\tRemedies:\n\t\t" ++ remedies ++
            "\n\n\t\tProvide a list of AWS CLI command(s) which can be used to remediate the issues programmatically.\n\t\tMake sure that the commands are effective and do the job.\n\t") ∧
      (∀ e tr2, generateCommands g service region summary remedies tr1 = (.err e, tr2) →
        SummarizeFindings g service region findings tr = (.err e, tr2)) ∧
      (∀ commands tr2, generateCommands g service region summary remedies tr1 =
          (.ok commands, tr2) →
        SummarizeFindings g service region findings tr =
          (.ok { Summary := summary, Remedies := remedies, Commands := commands }, tr2))) := by
  constructor
  · intro e tr1 h
    refine ⟨by simp [SummarizeFindings, h], ?_⟩
    obtain ⟨new, h1, -, -, h4, -, -⟩ := generateContentWithRetry_calls g
      (summarizeModel service region)
      (summarizeUserPrompt service region (findingsBlock findings))
      (tr ++ [Event.SummarizeFindings ⟨service, region, findings⟩])
    rw [← summarizeIssues_trace, h] at h1
    have h1' : tr1 = tr ++ [Event.SummarizeFindings ⟨service, region, findings⟩] ++ new := h1
    refine ⟨new, by rw [h1']; simp, ?_⟩
    intro c hc
    rw [h4 c hc]
  · intro summary remedies tr1 h
    obtain ⟨new2, h1, h2, -, h4, -, -⟩ := generateContentWithRetry_calls g
      (commandsModel service region) (commandsUserPrompt summary remedies) tr1
    rw [← generateCommands_trace g service region summary remedies tr1] at h1
    refine ⟨⟨new2, ?_, h2, fun c hc => by rw [h4 c hc]; exact ⟨rfl, rfl⟩⟩, ?_, ?_⟩
    · rw [← h1]
      simp only [SummarizeFindings, h]
      split <;> simp_all
    · intro e tr2 h2
      simp [SummarizeFindings, h, h2]
    · intro commands tr2 h2
      simp [SummarizeFindings, h, h2]

theorem SummarizeFindings_two_calls_in_sequence_witness :
    SummarizeFindings examples.helpfulResponder "s3" "us-east-1" ["finding"] [] =
      (.ok { Summary := "Summary of the findings.", Remedies := "Remedies for the findings.",
             Commands := ["aws configure list"] },
        (generateCommands examples.helpfulResponder "s3" "us-east-1" "Summary of the findings."
          "Remedies for the findings."
          (summarizeIssues examples.helpfulResponder "s3" "us-east-1" ["finding"]
            ([] ++ [Event.SummarizeFindings ⟨"s3", "us-east-1", ["finding"]⟩])).2).2) :=
  ((SummarizeFindings_two_calls_in_sequence examples.helpfulResponder "s3" "us-east-1"
    ["finding"] []).2 "Summary of the findings." "Remedies for the findings."
    (summarizeIssues examples.helpfulResponder "s3" "us-east-1" ["finding"]
      ([] ++ [Event.SummarizeFindings ⟨"s3", "us-east-1", ["finding"]⟩])).2 rfl).2.2
    ["aws configure list"] _ rfl

end geminiapi

/-- C14. In each of the six scanners, if the primary listing call fails, the
scan returns that error, with no flat finding and no entry, and leaves the
trace as it is: the outcome does not depend on any per-resource check and the
summarizer is not called.  `scanService` then returns the scan item of the
pair with that error and no entries; the only event it adds is the
construction of the scanner. -/
theorem listing_failure_is_fatal (region err : String) (tr : Trace) :
    (∀ scanner : s3scanner.S3Scanner, scanner.account.ListBuckets = .error err →
      s3scanner.ScanS3 scanner region tr = (.err err, tr)) ∧
    (∀ scanner : ec2scanner.EC2Scanner, scanner.account.ListInstances = .error err →
      ec2scanner.ScanEC2 scanner region tr = (.err err, tr)) ∧
    (∀ scanner : ecsscanner.ECSScanner, scanner.account.ListClusters = .error err →
      ecsscanner.ScanECS scanner region tr = (.err err, tr)) ∧
    (∀ scanner : lambdascanner.LambdaScanner, scanner.account.ListFunctions = .error err →
      lambdascanner.ScanLambda scanner region tr = (.err err, tr)) ∧
    (∀ scanner : dynamodbscanner.DynamoDBScanner, scanner.account.ListTables = .error err →
      dynamodbscanner.ScanDynamoDB scanner region tr = (.err err, tr)) ∧
    (∀ scanner : iamscanner.IAMScanner, scanner.account.ListUsers = .error err →
      iamscanner.ScanIAM scanner region tr = (.err err, tr)) ∧
    (∀ (cloud : awsmiddleware.Cloud) (a : awsmiddleware.AWSMiddleware)
        (accessKey secretKey sessionToken : String),
      ((cloud.s3 accessKey secretKey sessionToken region).ListBuckets = .error err →
        awsmiddleware.scanService cloud a accessKey secretKey sessionToken region "s3" tr =
          (({ Service := "s3", Region := region }, .err err),
            tr ++ [Event.NewScanner "s3" region])) ∧
      ((cloud.ec2 accessKey secretKey sessionToken region).ListInstances = .error err →
        awsmiddleware.scanService cloud a accessKey secretKey sessionToken region "ec2" tr =
          (({ Service := "ec2", Region := region }, .err err),
            tr ++ [Event.NewScanner "ec2" region])) ∧
      ((cloud.ecs accessKey secretKey sessionToken region).ListClusters = .error err →
        awsmiddleware.scanService cloud a accessKey secretKey sessionToken region "ecs" tr =
          (({ Service := "ecs", Region := region }, .err err),
            tr ++ [Event.NewScanner "ecs" region])) ∧
      ((cloud.lambda accessKey secretKey sessionToken region).ListFunctions = .error err →
        awsmiddleware.scanService cloud a accessKey secretKey sessionToken region "lambda" tr =
          (({ Service := "lambda", Region := region }, .err err),
            tr ++ [Event.NewScanner "lambda" region])) ∧
      ((cloud.dynamodb accessKey secretKey sessionToken region).ListTables = .error err →
        awsmiddleware.scanService cloud a accessKey secretKey sessionToken region "dynamodb" tr =
          (({ Service := "dynamodb", Region := region }, .err err),
            tr ++ [Event.NewScanner "dynamodb" region])) ∧
      ((cloud.iam accessKey secretKey sessionToken region).ListUsers = .error err →
        awsmiddleware.scanService cloud a accessKey secretKey sessionToken region "iam" tr =
          (({ Service := "iam", Region := region }, .err err),
            tr ++ [Event.NewScanner "iam" region]))) := by
  refine ⟨?_, ?_, ?_, ?_, ?_, ?_, ?_⟩
  · intro scanner h; simp [s3scanner.ScanS3, h]
  · intro scanner h; simp [ec2scanner.ScanEC2, h]
  · intro scanner h; simp [ecsscanner.ScanECS, h]
  · intro scanner h; simp [lambdascanner.ScanLambda, h]
  · intro scanner h; simp [dynamodbscanner.ScanDynamoDB, h]
  · intro scanner h; simp [iamscanner.ScanIAM, h]
  · intro cloud a accessKey secretKey sessionToken
    refine ⟨?_, ?_, ?_, ?_, ?_, ?_⟩
    · intro h
      simp [awsmiddleware.scanService, awsmiddleware.dispatch, s3scanner.ScanS3, h]
    · intro h
      simp [awsmiddleware.scanService, awsmiddleware.dispatch, ec2scanner.ScanEC2, h]
    · intro h
      simp [awsmiddleware.scanService, awsmiddleware.dispatch, ecsscanner.ScanECS, h]
    · intro h
      simp [awsmiddleware.scanService, awsmiddleware.dispatch, lambdascanner.ScanLambda, h]
    · intro h
      simp [awsmiddleware.scanService, awsmiddleware.dispatch, dynamodbscanner.ScanDynamoDB, h]
    · intro h
      simp [awsmiddleware.scanService, awsmiddleware.dispatch, iamscanner.ScanIAM, h]

theorem listing_failure_is_fatal_witness :
    s3scanner.ScanS3 ⟨examples.brokenS3, examples.helpfulResponder⟩ "us-east-1" [] =
      (.err "error listing S3 buckets: AccessDenied", []) ∧
    awsmiddleware.scanService examples.brokenS3Cloud ⟨examples.helpfulResponder⟩ "" "" ""
        "us-east-1" "s3" [] =
      (({ Service := "s3", Region := "us-east-1" },
          .err "error listing S3 buckets: AccessDenied"),
        [] ++ [Event.NewScanner "s3" "us-east-1"]) :=
  ⟨(listing_failure_is_fatal "us-east-1" "error listing S3 buckets: AccessDenied" []).1
     ⟨examples.brokenS3, examples.helpfulResponder⟩ rfl,
   ((listing_failure_is_fatal "us-east-1" "error listing S3 buckets: AccessDenied"
     []).2.2.2.2.2.2 examples.brokenS3Cloud ⟨examples.helpfulResponder⟩ "" "" "").1 rfl⟩

namespace s3scanner

theorem foldl_scanBucket (scanner : S3Scanner) (buckets : List Bucket) :
    ∀ f : Findings, buckets.foldl (scanBucket scanner) f =
      { allFindings := f.allFindings ++
          buckets.map (fun bucket => "Found S3 Bucket: " ++ aws.StringValue bucket.Name)
        publicAccessFindings := f.publicAccessFindings ++
          categoryFindings "public access" scanner.account.IsBucketPublic buckets
        encryptionFindings := f.encryptionFindings ++
          categoryFindings "encryption" scanner.account.IsEncryptionEnabled buckets
        versioningFindings := f.versioningFindings ++
          categoryFindings "versioning" scanner.account.IsVersioningEnabled buckets
        loggingFindings := f.loggingFindings ++
          categoryFindings "logging" scanner.account.IsLoggingEnabled buckets
        blockPublicAccessFindings := f.blockPublicAccessFindings ++
          categoryFindings "block public access settings" scanner.account.CheckBlockPublicAccess
            buckets
        lifecyclePolicyFindings := f.lifecyclePolicyFindings ++
          categoryFindings "lifecycle policy" scanner.account.IsLifecyclePolicyEnabled buckets
        mfaDeleteFindings := f.mfaDeleteFindings ++
          categoryFindings "MFA delete" scanner.account.IsMFADeleteEnabled buckets } := by
  induction buckets with
  | nil => intro f; simp [categoryFindings]
  | cons b rest ih =>
    intro f
    rw [List.foldl_cons, ih]
    simp [scanBucket, categoryFindings, List.append_assoc]

end s3scanner

theorem finishScan_ok (flat : List String)
    (entries : List postgres.CreateNewScanItemEntryParams) (tr : Trace) :
    finishScan flat (.ok entries, tr) = (.ok (flat, entries), tr) := rfl

namespace s3scanner

/-- C15. For every list of buckets returned by the listing and every pattern
of failures of the per-bucket checks, `ScanS3` with a summarizer that succeeds
returns no error; each of its seven categories holds exactly one finding per
bucket, in the order of the buckets, which is the check's own finding when the
check returned no error and otherwise the text
`Error checking <concern> for bucket <name>: <err>`; the flat findings are the
"Found S3 Bucket" lines followed by the seven categories, and the entries are
those of the non-empty categories. -/
theorem ScanS3_one_finding_per_bucket_and_check (scanner : S3Scanner) (region : String)
    (tr : Trace) (buckets : List Bucket)
    (hlist : scanner.account.ListBuckets = .ok buckets)
    (hg : ∀ t f, ∃ r tr', geminiapi.SummarizeFindings scanner.Gemini "s3" region f t =
      (.ok r, tr')) :
    (∀ concern name b s, checkFinding concern name (b, s, none) = s) ∧
    (∀ concern name b s err, checkFinding concern name (b, s, some err) =
      "Error checking " ++ concern ++ " for bucket " ++ name ++ ": " ++ err) ∧
    (∀ concern check, (categoryFindings concern check buckets).length = buckets.length) ∧
    (∀ concern check (i : Nat) (bucket : Bucket), buckets[i]? = some bucket →
      (categoryFindings concern check buckets)[i]? =
        some (checkFinding concern (aws.StringValue bucket.Name)
          (check (aws.StringValue bucket.Name)))) ∧
    ∃ entries tr',
      ScanS3 scanner region tr =
        (.ok (buckets.map (fun bucket => "Found S3 Bucket: " ++ aws.StringValue bucket.Name) ++
            categoryFindings "public access" scanner.account.IsBucketPublic buckets ++
            categoryFindings "encryption" scanner.account.IsEncryptionEnabled buckets ++
            categoryFindings "versioning" scanner.account.IsVersioningEnabled buckets ++
            categoryFindings "logging" scanner.account.IsLoggingEnabled buckets ++
            categoryFindings "block public access settings"
              scanner.account.CheckBlockPublicAccess buckets ++
            categoryFindings "lifecycle policy" scanner.account.IsLifecyclePolicyEnabled
              buckets ++
            categoryFindings "MFA delete" scanner.account.IsMFADeleteEnabled buckets,
          entries), tr') ∧
      entries.map (fun e => (e.Title, e.Findings)) =
        (nonEmptyCategories (categories
          (categoryFindings "public access" scanner.account.IsBucketPublic buckets)
          (categoryFindings "encryption" scanner.account.IsEncryptionEnabled buckets)
          (categoryFindings "versioning" scanner.account.IsVersioningEnabled buckets)
          (categoryFindings "logging" scanner.account.IsLoggingEnabled buckets)
          (categoryFindings "block public access settings"
            scanner.account.CheckBlockPublicAccess buckets)
          (categoryFindings "lifecycle policy" scanner.account.IsLifecyclePolicyEnabled buckets)
          (categoryFindings "MFA delete" scanner.account.IsMFADeleteEnabled buckets))).map
          (fun c => (c.Title, c.findings)) := by
  refine ⟨fun _ _ _ _ => rfl, fun _ _ _ _ _ => rfl, ?_, ?_, ?_⟩
  · intro concern check
    simp [categoryFindings]
  · intro concern check i bucket hi
    simp [categoryFindings, List.getElem?_map, hi]
  · unfold ScanS3
    simp only [hlist, foldl_scanBucket, List.nil_append]
    unfold processAndSummarizeS3Findings
    obtain ⟨entries, hentries⟩ := summarizeCategories_ok_of_summarizer scanner.Gemini "s3" region
      hg (categories
          (categoryFindings "public access" scanner.account.IsBucketPublic buckets)
          (categoryFindings "encryption" scanner.account.IsEncryptionEnabled buckets)
          (categoryFindings "versioning" scanner.account.IsVersioningEnabled buckets)
          (categoryFindings "logging" scanner.account.IsLoggingEnabled buckets)
          (categoryFindings "block public access settings"
            scanner.account.CheckBlockPublicAccess buckets)
          (categoryFindings "lifecycle policy" scanner.account.IsLifecyclePolicyEnabled buckets)
          (categoryFindings "MFA delete" scanner.account.IsMFADeleteEnabled buckets)) [] tr
    obtain ⟨calls, -, -, -, hok, -⟩ := summarizeCategories_contract scanner.Gemini "s3" region
      (categories
          (categoryFindings "public access" scanner.account.IsBucketPublic buckets)
          (categoryFindings "encryption" scanner.account.IsEncryptionEnabled buckets)
          (categoryFindings "versioning" scanner.account.IsVersioningEnabled buckets)
          (categoryFindings "logging" scanner.account.IsLoggingEnabled buckets)
          (categoryFindings "block public access settings"
            scanner.account.CheckBlockPublicAccess buckets)
          (categoryFindings "lifecycle policy" scanner.account.IsLifecyclePolicyEnabled buckets)
          (categoryFindings "MFA delete" scanner.account.IsMFADeleteEnabled buckets)) tr
    generalize hrun : summarizeCategories scanner.Gemini "s3" region _ [] tr = run at hentries hok
    obtain ⟨res, tr1⟩ := run
    simp only at hentries
    subst hentries
    exact ⟨entries, tr1, rfl, (hok entries rfl).2.2.1⟩

theorem ScanS3_one_finding_per_bucket_and_check_witness :
    ∃ entries tr',
      ScanS3 ⟨examples.twoBucketsS3, examples.helpfulResponder⟩ "us-east-1" [] =
        (.ok (["Found S3 Bucket: logs", "Found S3 Bucket: data",
            "Error checking public access for bucket logs: AccessDenied",
            "Bucket data is not publicly accessible.",
            "Bucket logs has encryption enabled.",
            "Error checking encryption for bucket data: error getting bucket encryption for data: timeout",
            "Bucket logs has versioning enabled.", "Bucket data has versioning enabled.",
            "Bucket logs has logging enabled.", "Bucket data has logging enabled.",
            "Bucket logs has Block Public Access enabled.",
            "Bucket data has Block Public Access enabled.",
            "Bucket logs has a lifecycle policy configured.",
            "Bucket data has a lifecycle policy configured.",
            "Bucket logs has MFA delete enabled.", "Bucket data has MFA delete enabled."],
          entries), tr') ∧
      entries.map (fun e => e.Title) =
        ["Public Access", "Encryption", "Versioning", "Logging", "Block Public Access",
          "Lifecycle Policy", "MFA Delete"] := by
  obtain ⟨-, -, -, -, entries, tr', h1, h2⟩ :=
    ScanS3_one_finding_per_bucket_and_check ⟨examples.twoBucketsS3, examples.helpfulResponder⟩
      "us-east-1" [] [{ Name := some "logs" }, { Name := some "data" }] rfl
      (fun t f => ⟨_, _, rfl⟩)
  refine ⟨entries, tr', h1, ?_⟩
  have := congrArg (List.map Prod.fst) h2
  simpa [List.map_map, Function.comp] using this

end s3scanner

theorem finishScan_ok_inv (flat fl : List String)
    (run : GoResult (List postgres.CreateNewScanItemEntryParams) × Trace)
    (entries : List postgres.CreateNewScanItemEntryParams) (tr' : Trace)
    (h : finishScan flat run = (.ok (fl, entries), tr')) :
    run = (.ok entries, tr') ∧ fl = flat := by
  obtain ⟨res, tr1⟩ := run
  cases res with
  | ok scanItems =>
    simp only [finishScan, Prod.mk.injEq, GoResult.ok.injEq] at h
    obtain ⟨⟨h1, h2⟩, h3⟩ := h
    subst h1 h2 h3
    exact ⟨rfl, rfl⟩
  | err e => simp [finishScan] at h
  | panic m => simp [finishScan] at h

theorem nonEmptyCategories_titles (cats : List Category) :
    (nonEmptyCategories cats).map (fun c => c.Title) =
      titlesOfNonEmpty (cats.map fun c => c.Title) (cats.map fun c => c.findings) := by
  induction cats with
  | nil => rfl
  | cons c cs ih =>
    by_cases hc : c.findings.length > 0
    · rw [nonEmptyCategories_cons_pos c cs hc]
      simp only [List.map_cons, titlesOfNonEmpty, List.zip_cons_cons, List.filterMap_cons, hc,
        if_true]
      rw [ih]; rfl
    · rw [nonEmptyCategories_cons_neg c cs hc]
      simp only [List.map_cons, titlesOfNonEmpty, List.zip_cons_cons, List.filterMap_cons, hc,
        if_false]
      rw [ih]; rfl

theorem titlesOfNonEmpty_sublist (titles : List String) :
    ∀ findings : List (List String), (titlesOfNonEmpty titles findings).Sublist titles := by
  induction titles with
  | nil => intro findings; simp [titlesOfNonEmpty]
  | cons t ts ih =>
    intro findings
    cases findings with
    | nil => simp [titlesOfNonEmpty]
    | cons f fs =>
      by_cases hf : f.length > 0
      · simp only [titlesOfNonEmpty, List.zip_cons_cons, List.filterMap_cons, hf, if_true]
        exact (ih fs).cons₂ t
      · simp only [titlesOfNonEmpty, List.zip_cons_cons, List.filterMap_cons, hf, if_false]
        exact (ih fs).cons t

theorem summarizeCategories_titles (g : geminiapi.Gemini) (service region : String)
    (cats : List Category) (tr tr' : Trace)
    (entries : List postgres.CreateNewScanItemEntryParams)
    (h : summarizeCategories g service region cats [] tr = (.ok entries, tr')) :
    entries.map (fun e => e.Title) =
      titlesOfNonEmpty (cats.map fun c => c.Title) (cats.map fun c => c.findings) := by
  obtain ⟨calls, -, -, -, hok, -⟩ := summarizeCategories_contract g service region cats tr
  have hmap := (hok entries (by rw [h])).2.2.1
  have := congrArg (List.map Prod.fst) hmap
  simp only [List.map_map, Function.comp_def] at this
  rw [← nonEmptyCategories_titles]
  exact this

/-- C16. In each scanner the titles of the entries of a successful scan are
pairwise distinct and form an order-preserving subsequence of that scanner's
fixed list of titles; and the titles of the entries returned by a
process-and-summarize function are the fixed titles of the categories whose
findings are not empty, in order: they depend on which categories are
populated and on nothing else, so two runs that populate the same categories
return the same sequence of titles. -/
theorem entry_titles_are_stable (region : String) (tr tr' : Trace) (flat : List String)
    (entries : List postgres.CreateNewScanItemEntryParams) :
    (∀ scanner, s3scanner.ScanS3 scanner region tr = (.ok (flat, entries), tr') →
      (entries.map fun e => e.Title).Sublist
          ["Public Access", "Encryption", "Versioning", "Logging", "Block Public Access",
            "Lifecycle Policy", "MFA Delete"] ∧
        (entries.map fun e => e.Title).Nodup) ∧
    (∀ scanner, ec2scanner.ScanEC2 scanner region tr = (.ok (flat, entries), tr') →
      (entries.map fun e => e.Title).Sublist
          ["Public IP Findings", "Volume Encryption Findings", "Security Group Findings",
            "IAM Role Findings", "CloudWatch Monitoring Findings", "Metadata Findings",
            "Elastic IP Findings"] ∧
        (entries.map fun e => e.Title).Nodup) ∧
    (∀ scanner, ecsscanner.ScanECS scanner region tr = (.ok (flat, entries), tr') →
      (entries.map fun e => e.Title).Sublist
          ["IAM Roles", "Network Modes", "Logging Configurations",
            "Sensitive Environment Variables", "Resource Limits"] ∧
        (entries.map fun e => e.Title).Nodup) ∧
    (∀ scanner, lambdascanner.ScanLambda scanner region tr = (.ok (flat, entries), tr') →
      (entries.map fun e => e.Title).Sublist
          ["Lambda IAM Role Findings", "Sensitive Environment Variable Findings",
            "CloudWatch Log Findings", "Timeout Configuration Findings",
            "VPC Configuration Findings"] ∧
        (entries.map fun e => e.Title).Nodup) ∧
    (∀ scanner, dynamodbscanner.ScanDynamoDB scanner region tr = (.ok (flat, entries), tr') →
      (entries.map fun e => e.Title).Sublist
          ["Encryption Settings", "Point-in-Time Recovery (PITR)", "Auto Scaling Settings",
            "Time-to-Live (TTL) Settings", "Unused Indexes"] ∧
        (entries.map fun e => e.Title).Nodup) ∧
    (∀ scanner, iamscanner.ScanIAM scanner region tr = (.ok (flat, entries), tr') →
      (entries.map fun e => e.Title).Sublist
          ["Unused Access Keys", "Overly Permissive Policies", "Privilege Escalation Risks",
            "MFA Status", "Role Trust Policies", "Root Account Security"] ∧
        (entries.map fun e => e.Title).Nodup) ∧
    (∀ scanner service a b c d e f h,
      s3scanner.processAndSummarizeS3Findings scanner service region a b c d e f h tr =
        (.ok entries, tr') →
      (entries.map fun e => e.Title) = titlesOfNonEmpty
        ["Public Access", "Encryption", "Versioning", "Logging", "Block Public Access",
          "Lifecycle Policy", "MFA Delete"] [a, b, c, d, e, f, h]) ∧
    (∀ scanner service a b c d e f h,
      ec2scanner.processAndSummarizeFindings scanner service region a b c d e f h tr =
        (.ok entries, tr') →
      (entries.map fun e => e.Title) = titlesOfNonEmpty
        ["Public IP Findings", "Volume Encryption Findings", "Security Group Findings",
          "IAM Role Findings", "CloudWatch Monitoring Findings", "Metadata Findings",
          "Elastic IP Findings"] [a, b, c, d, e, f, h]) ∧
    (∀ scanner service a b c d e,
      ecsscanner.ProcessAndSummarizeFindings scanner service region a b c d e tr =
        (.ok entries, tr') →
      (entries.map fun e => e.Title) = titlesOfNonEmpty
        ["IAM Roles", "Network Modes", "Logging Configurations",
          "Sensitive Environment Variables", "Resource Limits"] [a, b, c, d, e]) ∧
    (∀ scanner service a b c d e,
      lambdascanner.processAndSummarizeFindings scanner service region a b c d e tr =
        (.ok entries, tr') →
      (entries.map fun e => e.Title) = titlesOfNonEmpty
        ["Lambda IAM Role Findings", "Sensitive Environment Variable Findings",
          "CloudWatch Log Findings", "Timeout Configuration Findings",
          "VPC Configuration Findings"] [a, b, c, d, e]) ∧
    (∀ scanner service a b c d e,
      dynamodbscanner.processAndSummarizeDynamoDBFindings scanner service region a b c d e tr =
        (.ok entries, tr') →
      (entries.map fun e => e.Title) = titlesOfNonEmpty
        ["Encryption Settings", "Point-in-Time Recovery (PITR)", "Auto Scaling Settings",
          "Time-to-Live (TTL) Settings", "Unused Indexes"] [a, b, c, d, e]) ∧
    (∀ scanner service a b c d e f,
      iamscanner.processAndSummarizeFindings scanner service region a b c d e f tr =
        (.ok entries, tr') →
      (entries.map fun e => e.Title) = titlesOfNonEmpty
        ["Unused Access Keys", "Overly Permissive Policies", "Privilege Escalation Risks",
          "MFA Status", "Role Trust Policies", "Root Account Security"] [a, b, c, d, e, f]) := by
  have key : ∀ (g : geminiapi.Gemini) (service reg : String) (cats : List Category)
      (fl : List String),
      finishScan fl (summarizeCategories g service reg cats [] tr) = (.ok (flat, entries), tr') →
      (cats.map fun c => c.Title).Nodup →
      (entries.map fun e => e.Title).Sublist (cats.map fun c => c.Title) ∧
        (entries.map fun e => e.Title).Nodup := by
    intro g service reg cats fl h hnodup
    obtain ⟨hrun, -⟩ := finishScan_ok_inv _ _ _ _ _ h
    have ht := summarizeCategories_titles g service reg cats tr tr' entries hrun
    have hsub : (entries.map fun e => e.Title).Sublist (cats.map fun c => c.Title) := by
      rw [ht]; exact titlesOfNonEmpty_sublist _ _
    exact ⟨hsub, hsub.nodup hnodup⟩
  refine ⟨?_, ?_, ?_, ?_, ?_, ?_, ?_, ?_, ?_, ?_, ?_, ?_⟩
  · intro scanner h
    unfold s3scanner.ScanS3 at h
    split at h
    · simp at h
    · exact key _ _ _ _ _ h (by simp [s3scanner.categories])
  · intro scanner h
    unfold ec2scanner.ScanEC2 at h
    split at h
    · simp at h
    · exact key _ _ _ _ _ h (by simp [ec2scanner.categories])
  · intro scanner h
    unfold ecsscanner.ScanECS at h
    split at h
    · simp at h
    · exact key _ _ _ _ _ h (by simp [ecsscanner.categories])
  · intro scanner h
    unfold lambdascanner.ScanLambda at h
    split at h
    · simp at h
    · exact key _ _ _ _ _ h (by simp [lambdascanner.categories])
  · intro scanner h
    unfold dynamodbscanner.ScanDynamoDB at h
    split at h
    · simp at h
    · exact key _ _ _ _ _ h (by simp [dynamodbscanner.categories])
  · intro scanner h
    unfold iamscanner.ScanIAM at h
    split at h
    · simp at h
    · exact key _ _ _ _ _ h (by simp [iamscanner.categories])
  · intro scanner service a b c d e f h hrun
    exact summarizeCategories_titles _ _ _ _ _ _ _ hrun
  · intro scanner service a b c d e f h hrun
    exact summarizeCategories_titles _ _ _ _ _ _ _ hrun
  · intro scanner service a b c d e hrun
    exact summarizeCategories_titles _ _ _ _ _ _ _ hrun
  · intro scanner service a b c d e hrun
    exact summarizeCategories_titles _ _ _ _ _ _ _ hrun
  · intro scanner service a b c d e hrun
    exact summarizeCategories_titles _ _ _ _ _ _ _ hrun
  · intro scanner service a b c d e f hrun
    exact summarizeCategories_titles _ _ _ _ _ _ _ hrun

theorem entry_titles_are_stable_witness :
    (["MFA Status", "Root Account Security"] : List String).Sublist
        ["Unused Access Keys", "Overly Permissive Policies", "Privilege Escalation Risks",
          "MFA Status", "Role Trust Policies", "Root Account Security"] ∧
      (["MFA Status", "Root Account Security"] : List String).Nodup :=
  (entry_titles_are_stable "us-east-1" []
    (iamscanner.ScanIAM ⟨examples.aliceIAM, examples.helpfulResponder⟩ "us-east-1" []).2
    ["WARNING: MFA is not enabled for user alice."]
    [{ Findings := ["WARNING: MFA is not enabled for user alice."],
       Title := "MFA Status",
       Summary := "Summary of the findings.",
       Remedy := "Remedies for the findings.",
       Commands := ["aws configure list"] },
     { Findings := ["WARNING: MFA is not enabled for the root account."],
       Title := "Root Account Security",
       Summary := "Summary of the findings.",
       Remedy := "Remedies for the findings.",
       Commands := ["aws configure list"] }]).2.2.2.2.2.1
    ⟨examples.aliceIAM, examples.helpfulResponder⟩ rfl

namespace awsmiddleware

theorem scanService_ok (cloud : Cloud) (a : AWSMiddleware)
    (accessKey secretKey sessionToken region service : String) (tr tr1 : Trace)
    (result : postgres.ScanItem) (entries : List postgres.CreateNewScanItemEntryParams)
    (h : scanService cloud a accessKey secretKey sessionToken region service tr =
      ((result, .ok entries), tr1)) :
    dispatch cloud a accessKey secretKey sessionToken region service tr =
        (.ok (result.Findings, entries), tr1) ∧
      result = { Service := service, Region := region, Findings := result.Findings } := by
  unfold scanService at h
  simp only [] at h
  split at h
  · simp at h
  · simp at h
  · rename_i findings scanItemEntries tr2 heq
    simp only [Prod.mk.injEq, GoResult.ok.injEq] at h
    obtain ⟨⟨h1, h2⟩, h3⟩ := h
    subst h1 h2 h3
    exact ⟨heq, rfl⟩

theorem scanServices_results (cloud : Cloud) (a : AWSMiddleware)
    (accessKey secretKey sessionToken region : String) :
    ∀ (services : List String) (results out : List ScanResults) (tr tr' : Trace),
      scanServices cloud a accessKey secretKey sessionToken region services results tr =
        (.ok out, tr') →
      ∃ new, out = results ++ new ∧
        new.map (fun x => (x.ScanItem.Region, x.ScanItem.Service)) =
          services.map (fun s => (region, s)) ∧
        ∀ x ∈ new, ∃ t t',
          dispatch cloud a accessKey secretKey sessionToken x.ScanItem.Region x.ScanItem.Service
              t = (.ok (x.ScanItem.Findings, x.ScanItemEntries), t') ∧
            x.ScanItem = { Service := x.ScanItem.Service, Region := x.ScanItem.Region,
                           Findings := x.ScanItem.Findings } := by
  intro services
  induction services with
  | nil =>
    intro results out tr tr' h
    simp only [scanServices, Prod.mk.injEq, GoResult.ok.injEq] at h
    exact ⟨[], by simp [h.1], rfl, by simp⟩
  | cons s rest ih =>
    intro results out tr tr' h
    simp only [scanServices] at h
    split at h
    · simp at h
    · simp at h
    · rename_i result scanItems tr1 heq
      obtain ⟨hd, hres⟩ := scanService_ok _ _ _ _ _ _ _ _ _ _ _ heq
      obtain ⟨new, hout, hmap, hall⟩ := ih _ _ _ _ h
      have hR : result.Region = region := by rw [hres]
      have hS : result.Service = s := by rw [hres]
      refine ⟨{ ScanItem := result, ScanItemEntries := scanItems } :: new, ?_, ?_, ?_⟩
      · rw [hout]; simp
      · simp [hmap, hR, hS]
      · intro x hx
        rcases List.mem_cons.mp hx with rfl | hx
        · refine ⟨tr, tr1, ?_, ?_⟩
          · simp only [hR, hS]; exact hd
          · simp only [hR, hS]; exact hres
        · exact hall x hx

theorem scanRegions_results (cloud : Cloud) (a : AWSMiddleware)
    (accessKey secretKey sessionToken : String) (services : List String) :
    ∀ (regions : List String) (results out : List ScanResults) (tr tr' : Trace),
      scanRegions cloud a accessKey secretKey sessionToken services regions results tr =
        (.ok out, tr') →
      ∃ new, out = results ++ new ∧
        new.map (fun x => (x.ScanItem.Region, x.ScanItem.Service)) =
          regions.flatMap (fun r => services.map (fun s => (r, s))) ∧
        ∀ x ∈ new, ∃ t t',
          dispatch cloud a accessKey secretKey sessionToken x.ScanItem.Region x.ScanItem.Service
              t = (.ok (x.ScanItem.Findings, x.ScanItemEntries), t') ∧
            x.ScanItem = { Service := x.ScanItem.Service, Region := x.ScanItem.Region,
                           Findings := x.ScanItem.Findings } := by
  intro regions
  induction regions with
  | nil =>
    intro results out tr tr' h
    simp only [scanRegions, Prod.mk.injEq, GoResult.ok.injEq] at h
    exact ⟨[], by simp [h.1], rfl, by simp⟩
  | cons r rest ih =>
    intro results out tr tr' h
    simp only [scanRegions] at h
    split at h
    · rename_i results1 tr1 heq
      obtain ⟨new1, hout1, hmap1, hall1⟩ := scanServices_results _ _ _ _ _ _ _ _ _ _ _ heq
      obtain ⟨new2, hout2, hmap2, hall2⟩ := ih _ _ _ _ h
      refine ⟨new1 ++ new2, ?_, ?_, ?_⟩
      · rw [hout2, hout1]; simp
      · simp [hmap1, hmap2, List.flatMap_cons]
      · intro x hx
        rcases List.mem_append.mp hx with hx | hx
        · exact hall1 x hx
        · exact hall2 x hx
    · simp at h
    · simp at h

theorem length_product (regions services : List String) :
    (regions.flatMap (fun r => services.map (fun s => (r, s)))).length =
      regions.length * services.length := by
  induction regions with
  | nil => simp
  | cons r rest ih =>
    simp only [List.flatMap_cons, List.length_append, List.length_map, ih, List.length_cons]
    ring

theorem scanServices_ok_of_pairs (cloud : Cloud) (a : AWSMiddleware)
    (accessKey secretKey sessionToken region : String) :
    ∀ (services : List String),
      (∀ s ∈ services, ∀ t, ∃ out t',
        dispatch cloud a accessKey secretKey sessionToken region s t = (.ok out, t')) →
      ∀ (results : List ScanResults) (tr : Trace), ∃ out tr',
        scanServices cloud a accessKey secretKey sessionToken region services results tr =
          (.ok out, tr') := by
  intro services
  induction services with
  | nil => intro _ results tr; exact ⟨results, tr, rfl⟩
  | cons s rest ih =>
    intro hall results tr
    obtain ⟨out, t', hd⟩ := hall s (List.mem_cons_self _ _) tr
    simp only [scanServices, scanService, hd]
    exact ih (fun s' hs' => hall s' (List.mem_cons_of_mem _ hs')) _ _

theorem scanRegions_ok_of_pairs (cloud : Cloud) (a : AWSMiddleware)
    (accessKey secretKey sessionToken : String) (services : List String) :
    ∀ (regions : List String),
      (∀ r ∈ regions, ∀ s ∈ services, ∀ t, ∃ out t',
        dispatch cloud a accessKey secretKey sessionToken r s t = (.ok out, t')) →
      ∀ (results : List ScanResults) (tr : Trace), ∃ out tr',
        scanRegions cloud a accessKey secretKey sessionToken services regions results tr =
          (.ok out, tr') := by
  intro regions
  induction regions with
  | nil => intro _ results tr; exact ⟨results, tr, rfl⟩
  | cons r rest ih =>
    intro hall results tr
    obtain ⟨out, t', hs⟩ := scanServices_ok_of_pairs cloud a accessKey secretKey sessionToken r
      services (hall r (List.mem_cons_self _ _)) results tr
    simp only [scanRegions, hs]
    exact ih (fun r' hr' => hall r' (List.mem_cons_of_mem _ hr')) _ _

end awsmiddleware

namespace awsmiddleware

/-- C17 (as amended). When the scanner of a pair succeeds with an empty flat
findings list, `scanService` returns no error and a scan item whose service
and region are those of the pair (with empty findings); and whenever
`StartScan` returns without error, its results hold an element for every
requested pair, clean or not. -/
theorem clean_pair_is_kept (cloud : Cloud) (a : AWSMiddleware)
    (accessKey secretKey sessionToken : String) (tr : Trace) :
    (∀ region service entries tr1,
      dispatch cloud a accessKey secretKey sessionToken region service tr =
        (.ok ([], entries), tr1) →
      scanService cloud a accessKey secretKey sessionToken region service tr =
        (({ Service := service, Region := region, Findings := [] }, .ok entries), tr1)) ∧
    (∀ regions services results tr',
      StartScan cloud a accessKey secretKey sessionToken regions services tr =
        (.ok results, tr') →
      ∀ r ∈ regions, ∀ s ∈ services,
        ∃ x ∈ results, x.ScanItem.Region = r ∧ x.ScanItem.Service = s) := by
  constructor
  · intro region service entries tr1 h
    simp [scanService, h]
  · intro regions services results tr' h r hr s hs
    obtain ⟨new, hout, hmap, -⟩ := scanRegions_results _ _ _ _ _ _ _ _ _ _ _ h
    simp only [List.nil_append] at hout
    subst hout
    have hmem : (r, s) ∈ results.map (fun x => (x.ScanItem.Region, x.ScanItem.Service)) := by
      rw [hmap]
      simp only [List.mem_flatMap, List.mem_map]
      exact ⟨r, hr, s, hs, rfl⟩
    obtain ⟨x, hx, hxe⟩ := List.mem_map.mp hmem
    simp only [Prod.mk.injEq] at hxe
    exact ⟨x, hx, hxe.1, hxe.2⟩

theorem clean_pair_is_kept_witness :
    scanService examples.quietCloud ⟨examples.helpfulResponder⟩ "" "" "" "us-east-1" "lambda"
        [] =
      (({ Service := "lambda", Region := "us-east-1", Findings := [] }, .ok []),
        [Event.NewScanner "lambda" "us-east-1"]) ∧
    ∃ x ∈ [({ ScanItem := { Service := "lambda", Region := "us-east-1" },
              ScanItemEntries := [] } : ScanResults)],
      x.ScanItem.Region = "us-east-1" ∧ x.ScanItem.Service = "lambda" :=
  ⟨(clean_pair_is_kept examples.quietCloud ⟨examples.helpfulResponder⟩ "" "" "" []).1
     "us-east-1" "lambda" [] [Event.NewScanner "lambda" "us-east-1"] rfl,
   (clean_pair_is_kept examples.quietCloud ⟨examples.helpfulResponder⟩ "" "" "" []).2
     ["us-east-1"] ["lambda"] _ [Event.NewScanner "lambda" "us-east-1"] rfl
     "us-east-1" (List.mem_singleton.mpr rfl) "lambda" (List.mem_singleton.mpr rfl)⟩

/-- C17 (counterexample). The Lambda scan of us-east-1 succeeds with an empty
flat findings list, yet `StartScan` over the services lambda and sqs returns
the error for sqs and no result at all: the clean pair is dropped. -/
theorem clean_pair_dropped_counterexample :
    scanService examples.quietCloud ⟨examples.helpfulResponder⟩ "" "" "" "us-east-1" "lambda"
        [] =
      (({ Service := "lambda", Region := "us-east-1", Findings := [] }, .ok []),
        [Event.NewScanner "lambda" "us-east-1"]) ∧
    (StartScan examples.quietCloud ⟨examples.helpfulResponder⟩ "" "" "" ["us-east-1"]
        ["lambda", "sqs"] []).1 =
      .err "error scanning sqs in us-east-1: unsupported service: sqs" := by
  constructor <;> rfl

theorem dispatch_ok_scanner (cloud : Cloud) (a : AWSMiddleware)
    (accessKey secretKey sessionToken region service : String) (t t' : Trace)
    (out : List String × List postgres.CreateNewScanItemEntryParams) :
    dispatch cloud a accessKey secretKey sessionToken region service t = (.ok out, t') ↔
      ((service = "s3" ∧
            s3scanner.ScanS3 ⟨cloud.s3 accessKey secretKey sessionToken region, a.gemini⟩ region
              (t ++ [Event.NewScanner "s3" region]) = (.ok out, t')) ∨
          (service = "ec2" ∧
            ec2scanner.ScanEC2 ⟨cloud.ec2 accessKey secretKey sessionToken region, a.gemini⟩ region
              (t ++ [Event.NewScanner "ec2" region]) = (.ok out, t')) ∨
          (service = "ecs" ∧
            ecsscanner.ScanECS ⟨cloud.ecs accessKey secretKey sessionToken region, a.gemini⟩ region
              (t ++ [Event.NewScanner "ecs" region]) = (.ok out, t')) ∨
          (service = "lambda" ∧
            lambdascanner.ScanLambda
              ⟨cloud.lambda accessKey secretKey sessionToken region, a.gemini⟩ region
              (t ++ [Event.NewScanner "lambda" region]) = (.ok out, t')) ∨
          (service = "dynamodb" ∧
            dynamodbscanner.ScanDynamoDB
              ⟨cloud.dynamodb accessKey secretKey sessionToken region, a.gemini⟩ region
              (t ++ [Event.NewScanner "dynamodb" region]) = (.ok out, t')) ∨
          (service = "iam" ∧
            iamscanner.ScanIAM ⟨cloud.iam accessKey secretKey sessionToken region, a.gemini⟩ region
              (t ++ [Event.NewScanner "iam" region]) = (.ok out, t'))) := by
  unfold dispatch
  by_cases h1 : service = "s3"
  · subst h1; simp
  by_cases h2 : service = "ec2"
  · subst h2; simp
  by_cases h3 : service = "ecs"
  · subst h3; simp
  by_cases h4 : service = "lambda"
  · subst h4; simp
  by_cases h5 : service = "dynamodb"
  · subst h5; simp
  by_cases h6 : service = "iam"
  · subst h6; simp
  simp [h1, h2, h3, h4, h5, h6]

/-- C18. When every (region, service) pair succeeds, that is, every service
is one of the six supported ones and the run of its scanner for the region
returns no error, `StartScan` returns a nil error; and whenever it returns a
nil error, its results are exactly `len(regions) * len(services)` many, in
region-major order (for each region in the order given, each service in the
order given), and the result of a pair holds a scan item made of the pair's
service and region and the flat findings that the run of the scanner of that
service, constructed for that region, returned, together with the entries
that this run returned. -/
theorem StartScan_results_region_major (cloud : Cloud) (a : AWSMiddleware)
    (accessKey secretKey sessionToken : String) (regions services : List String)
    (tr : Trace) :
    ((∀ r ∈ regions, ∀ s ∈ services, ∀ t, ∃ out t',
        ((s = "s3" ∧
            s3scanner.ScanS3 ⟨cloud.s3 accessKey secretKey sessionToken r, a.gemini⟩ r
              (t ++ [Event.NewScanner "s3" r]) = (.ok out, t')) ∨
          (s = "ec2" ∧
            ec2scanner.ScanEC2 ⟨cloud.ec2 accessKey secretKey sessionToken r, a.gemini⟩ r
              (t ++ [Event.NewScanner "ec2" r]) = (.ok out, t')) ∨
          (s = "ecs" ∧
            ecsscanner.ScanECS ⟨cloud.ecs accessKey secretKey sessionToken r, a.gemini⟩ r
              (t ++ [Event.NewScanner "ecs" r]) = (.ok out, t')) ∨
          (s = "lambda" ∧
            lambdascanner.ScanLambda
              ⟨cloud.lambda accessKey secretKey sessionToken r, a.gemini⟩ r
              (t ++ [Event.NewScanner "lambda" r]) = (.ok out, t')) ∨
          (s = "dynamodb" ∧
            dynamodbscanner.ScanDynamoDB
              ⟨cloud.dynamodb accessKey secretKey sessionToken r, a.gemini⟩ r
              (t ++ [Event.NewScanner "dynamodb" r]) = (.ok out, t')) ∨
          (s = "iam" ∧
            iamscanner.ScanIAM ⟨cloud.iam accessKey secretKey sessionToken r, a.gemini⟩ r
              (t ++ [Event.NewScanner "iam" r]) = (.ok out, t')))) →
      ∃ results tr',
        StartScan cloud a accessKey secretKey sessionToken regions services tr =
          (.ok results, tr')) ∧
    (∀ results tr',
      StartScan cloud a accessKey secretKey sessionToken regions services tr =
        (.ok results, tr') →
      results.length = regions.length * services.length ∧
      results.map (fun x => (x.ScanItem.Region, x.ScanItem.Service)) =
        regions.flatMap (fun r => services.map (fun s => (r, s))) ∧
      ∀ x ∈ results,
        x.ScanItem = { Service := x.ScanItem.Service, Region := x.ScanItem.Region,
                       Findings := x.ScanItem.Findings } ∧
        ∃ t t',
          ((x.ScanItem.Service = "s3" ∧
            s3scanner.ScanS3 ⟨cloud.s3 accessKey secretKey sessionToken x.ScanItem.Region, a.gemini⟩ x.ScanItem.Region
              (t ++ [Event.NewScanner "s3" x.ScanItem.Region]) = (.ok (x.ScanItem.Findings, x.ScanItemEntries), t')) ∨
          (x.ScanItem.Service = "ec2" ∧
            ec2scanner.ScanEC2 ⟨cloud.ec2 accessKey secretKey sessionToken x.ScanItem.Region, a.gemini⟩ x.ScanItem.Region
              (t ++ [Event.NewScanner "ec2" x.ScanItem.Region]) = (.ok (x.ScanItem.Findings, x.ScanItemEntries), t')) ∨
          (x.ScanItem.Service = "ecs" ∧
            ecsscanner.ScanECS ⟨cloud.ecs accessKey secretKey sessionToken x.ScanItem.Region, a.gemini⟩ x.ScanItem.Region
              (t ++ [Event.NewScanner "ecs" x.ScanItem.Region]) = (.ok (x.ScanItem.Findings, x.ScanItemEntries), t')) ∨
          (x.ScanItem.Service = "lambda" ∧
            lambdascanner.ScanLambda
              ⟨cloud.lambda accessKey secretKey sessionToken x.ScanItem.Region, a.gemini⟩ x.ScanItem.Region
              (t ++ [Event.NewScanner "lambda" x.ScanItem.Region]) = (.ok (x.ScanItem.Findings, x.ScanItemEntries), t')) ∨
          (x.ScanItem.Service = "dynamodb" ∧
            dynamodbscanner.ScanDynamoDB
              ⟨cloud.dynamodb accessKey secretKey sessionToken x.ScanItem.Region, a.gemini⟩ x.ScanItem.Region
              (t ++ [Event.NewScanner "dynamodb" x.ScanItem.Region]) = (.ok (x.ScanItem.Findings, x.ScanItemEntries), t')) ∨
          (x.ScanItem.Service = "iam" ∧
            iamscanner.ScanIAM ⟨cloud.iam accessKey secretKey sessionToken x.ScanItem.Region, a.gemini⟩ x.ScanItem.Region
              (t ++ [Event.NewScanner "iam" x.ScanItem.Region]) = (.ok (x.ScanItem.Findings, x.ScanItemEntries), t')))) := by
  constructor
  · intro hall
    refine scanRegions_ok_of_pairs cloud a accessKey secretKey sessionToken services regions ?_
      [] tr
    intro r hr s hs t
    obtain ⟨out, t', h⟩ := hall r hr s hs t
    exact ⟨out, t', (dispatch_ok_scanner cloud a accessKey secretKey sessionToken r s t t'
      out).mpr h⟩
  · intro results tr' h
    obtain ⟨new, hout, hmap, hall⟩ := scanRegions_results _ _ _ _ _ _ _ _ _ _ _ h
    simp only [List.nil_append] at hout
    subst hout
    refine ⟨?_, hmap, ?_⟩
    · have := congrArg List.length hmap
      rw [List.length_map, length_product] at this
      exact this
    · intro x hx
      obtain ⟨t, t', hd, hitem⟩ := hall x hx
      exact ⟨hitem, t, t', (dispatch_ok_scanner cloud a accessKey secretKey sessionToken
        x.ScanItem.Region x.ScanItem.Service t t' _).mp hd⟩

theorem StartScan_results_region_major_witness :
    (∃ results tr',
      StartScan examples.busyCloud ⟨examples.helpfulResponder⟩ "AKIAEXAMPLE" "secret" "token"
          ["us-east-1", "eu-west-1"] ["ec2", "iam"] [] = (.ok results, tr')) ∧
    (examples.busyRegionResults "us-east-1" ++ examples.busyRegionResults "eu-west-1").length =
      (["us-east-1", "eu-west-1"] : List String).length *
        (["ec2", "iam"] : List String).length ∧
    (examples.busyRegionResults "us-east-1" ++ examples.busyRegionResults "eu-west-1").map
        (fun x => (x.ScanItem.Region, x.ScanItem.Service)) =
      (["us-east-1", "eu-west-1"] : List String).flatMap
        (fun r => (["ec2", "iam"] : List String).map (fun s => (r, s))) ∧
    ∀ x ∈ examples.busyRegionResults "us-east-1" ++ examples.busyRegionResults "eu-west-1",
      x.ScanItem = { Service := x.ScanItem.Service, Region := x.ScanItem.Region,
                     Findings := x.ScanItem.Findings } ∧
      ∃ t t',
        (((x.ScanItem.Service = "s3" ∧
            s3scanner.ScanS3 ⟨examples.busyCloud.s3 "AKIAEXAMPLE" "secret" "token" x.ScanItem.Region, (⟨examples.helpfulResponder⟩ : AWSMiddleware).gemini⟩ x.ScanItem.Region
              (t ++ [Event.NewScanner "s3" x.ScanItem.Region]) = (.ok (x.ScanItem.Findings, x.ScanItemEntries), t')) ∨
          (x.ScanItem.Service = "ec2" ∧
            ec2scanner.ScanEC2 ⟨examples.busyCloud.ec2 "AKIAEXAMPLE" "secret" "token" x.ScanItem.Region, (⟨examples.helpfulResponder⟩ : AWSMiddleware).gemini⟩ x.ScanItem.Region
              (t ++ [Event.NewScanner "ec2" x.ScanItem.Region]) = (.ok (x.ScanItem.Findings, x.ScanItemEntries), t')) ∨
          (x.ScanItem.Service = "ecs" ∧
            ecsscanner.ScanECS ⟨examples.busyCloud.ecs "AKIAEXAMPLE" "secret" "token" x.ScanItem.Region, (⟨examples.helpfulResponder⟩ : AWSMiddleware).gemini⟩ x.ScanItem.Region
              (t ++ [Event.NewScanner "ecs" x.ScanItem.Region]) = (.ok (x.ScanItem.Findings, x.ScanItemEntries), t')) ∨
          (x.ScanItem.Service = "lambda" ∧
            lambdascanner.ScanLambda ⟨examples.busyCloud.lambda "AKIAEXAMPLE" "secret" "token" x.ScanItem.Region, (⟨examples.helpfulResponder⟩ : AWSMiddleware).gemini⟩ x.ScanItem.Region
              (t ++ [Event.NewScanner "lambda" x.ScanItem.Region]) = (.ok (x.ScanItem.Findings, x.ScanItemEntries), t')) ∨
          (x.ScanItem.Service = "dynamodb" ∧
            dynamodbscanner.ScanDynamoDB ⟨examples.busyCloud.dynamodb "AKIAEXAMPLE" "secret" "token" x.ScanItem.Region, (⟨examples.helpfulResponder⟩ : AWSMiddleware).gemini⟩ x.ScanItem.Region
              (t ++ [Event.NewScanner "dynamodb" x.ScanItem.Region]) = (.ok (x.ScanItem.Findings, x.ScanItemEntries), t')) ∨
          (x.ScanItem.Service = "iam" ∧
            iamscanner.ScanIAM ⟨examples.busyCloud.iam "AKIAEXAMPLE" "secret" "token" x.ScanItem.Region, (⟨examples.helpfulResponder⟩ : AWSMiddleware).gemini⟩ x.ScanItem.Region
              (t ++ [Event.NewScanner "iam" x.ScanItem.Region]) = (.ok (x.ScanItem.Findings, x.ScanItemEntries), t')))) :=
  ⟨(StartScan_results_region_major examples.busyCloud ⟨examples.helpfulResponder⟩
      "AKIAEXAMPLE" "secret" "token" ["us-east-1", "eu-west-1"] ["ec2", "iam"] []).1
      (by
        intro r _ s hs t
        simp only [List.mem_cons, List.mem_singleton, List.not_mem_nil, or_false] at hs
        rcases hs with rfl | rfl
        · exact ⟨_, _, Or.inr (Or.inl ⟨rfl, rfl⟩)⟩
        · exact ⟨_, _, Or.inr (Or.inr (Or.inr (Or.inr (Or.inr ⟨rfl, rfl⟩))))⟩),
   (StartScan_results_region_major examples.busyCloud ⟨examples.helpfulResponder⟩
      "AKIAEXAMPLE" "secret" "token" ["us-east-1", "eu-west-1"] ["ec2", "iam"] []).2
      (examples.busyRegionResults "us-east-1" ++ examples.busyRegionResults "eu-west-1")
      (StartScan examples.busyCloud ⟨examples.helpfulResponder⟩ "AKIAEXAMPLE" "secret" "token"
        ["us-east-1", "eu-west-1"] ["ec2", "iam"] []).2 rfl⟩

end awsmiddleware

namespace s3scanner

/-- C19 (as amended). When the check's own describe call is made (the bucket
is in the client's region) and answers "not configured", the check returns a
nil error; the finding begins with WARNING for `IsEncryptionEnabled` on an
HTTP 404 whose code is not `NoSuchBucket` and for `IsLifecyclePolicyEnabled`
on an HTTP 404, whereas `IsEncryptionEnabled` on the code `NoSuchBucket`
reports that the bucket was not found and `CheckBlockPublicAccess` on the code
`NoSuchBucketPolicy` reports, without WARNING, that the bucket has no policy
and is therefore not public through policy. -/
theorem not_configured_findings (client : S3Client) (bucketName : String)
    (hregion : regionGuard client bucketName = none) :
    (∀ err, client.GetBucketEncryption bucketName = .error err →
      err.StatusCode = some 404 → err.Code ≠ some "NoSuchBucket" →
      IsEncryptionEnabled client bucketName =
          (false, "WARNING: Encryption not enabled on bucket " ++ bucketName ++ ".", none) ∧
        beginsWithWarning (IsEncryptionEnabled client bucketName).2.1 = true) ∧
    (∀ err, client.GetBucketEncryption bucketName = .error err →
      err.Code = some "NoSuchBucket" →
      IsEncryptionEnabled client bucketName =
          (false, "Bucket " ++ bucketName ++ " not found.", none) ∧
        beginsWithWarning (IsEncryptionEnabled client bucketName).2.1 = false) ∧
    (∀ err, client.GetBucketLifecycleConfiguration bucketName = .error err →
      err.StatusCode = some 404 →
      IsLifecyclePolicyEnabled client bucketName =
          (false, "WARNING: Bucket " ++ bucketName ++
            " does not have a lifecycle policy configured.", none) ∧
        beginsWithWarning (IsLifecyclePolicyEnabled client bucketName).2.1 = true) ∧
    (∀ err, client.GetBucketPolicyStatus bucketName = .error err →
      err.Code = some "NoSuchBucketPolicy" →
      CheckBlockPublicAccess client bucketName =
          (true, "Bucket " ++ bucketName ++
            " does not have a policy, indicating it is not publicly accessible through policy.",
            none) ∧
        beginsWithWarning (CheckBlockPublicAccess client bucketName).2.1 = false) := by
  refine ⟨?_, ?_, ?_, ?_⟩
  · intro err h h404 hcode
    have heq : IsEncryptionEnabled client bucketName =
        (false, "WARNING: Encryption not enabled on bucket " ++ bucketName ++ ".", none) := by
      simp [IsEncryptionEnabled, hregion, h, h404, hcode]
    refine ⟨heq, ?_⟩
    rw [heq]; rfl
  · intro err h hcode
    have heq : IsEncryptionEnabled client bucketName =
        (false, "Bucket " ++ bucketName ++ " not found.", none) := by
      simp [IsEncryptionEnabled, hregion, h, hcode]
    refine ⟨heq, ?_⟩
    rw [heq]; rfl
  · intro err h h404
    have heq : IsLifecyclePolicyEnabled client bucketName =
        (false, "WARNING: Bucket " ++ bucketName ++
          " does not have a lifecycle policy configured.", none) := by
      simp [IsLifecyclePolicyEnabled, hregion, h, h404]
    refine ⟨heq, ?_⟩
    rw [heq]; rfl
  · intro err h hcode
    have heq : CheckBlockPublicAccess client bucketName =
        (true, "Bucket " ++ bucketName ++
          " does not have a policy, indicating it is not publicly accessible through policy.",
          none) := by
      simp [CheckBlockPublicAccess, hregion, h, hcode]
    refine ⟨heq, ?_⟩
    rw [heq]; rfl

end s3scanner

namespace s3scanner

theorem not_configured_findings_witness :
    (IsEncryptionEnabled examples.bareS3Client "b" =
        (false, "WARNING: Encryption not enabled on bucket " ++ "b" ++ ".", none) ∧
      beginsWithWarning (IsEncryptionEnabled examples.bareS3Client "b").2.1 = true) ∧
    (IsLifecyclePolicyEnabled examples.bareS3Client "b" =
        (false, "WARNING: Bucket " ++ "b" ++ " does not have a lifecycle policy configured.",
          none) ∧
      beginsWithWarning (IsLifecyclePolicyEnabled examples.bareS3Client "b").2.1 = true) :=
  ⟨(not_configured_findings examples.bareS3Client "b" rfl).1 _ rfl rfl (by decide),
   (not_configured_findings examples.bareS3Client "b" rfl).2.2.1 _ rfl rfl⟩

/-- C19 (counterexample). For the bucket b, which is in the client's region
and has no policy, the policy-status call answers `NoSuchBucketPolicy` and
`CheckBlockPublicAccess` returns a nil error with a finding that does not
begin with WARNING. -/
theorem no_policy_finding_counterexample :
    examples.bareS3Client.GetBucketPolicyStatus "b" =
      .error (.requestFailure "NoSuchBucketPolicy" 404
        "NoSuchBucketPolicy: The bucket policy does not exist") ∧
    CheckBlockPublicAccess examples.bareS3Client "b" =
      (true,
        "Bucket b does not have a policy, indicating it is not publicly accessible through policy.",
        none) ∧
    beginsWithWarning (CheckBlockPublicAccess examples.bareS3Client "b").2.1 = false := by
  refine ⟨rfl, rfl, rfl⟩

theorem regionGuard_of_lookup_failure (client : S3Client) (bucketName : String)
    (err : awserr.Error) (h : getBucketRegion client bucketName = .error err) :
    regionGuard client bucketName =
      some (false, "Error getting bucket region for " ++ bucketName ++ ": " ++ err.text,
        none) := by
  simp [regionGuard, h]

/-- C20 (as amended). In every S3 check, a failure of the bucket-region lookup
is returned as the finding `Error getting bucket region for <name>: <err>`
with a nil error, and so is, in `IsBucketPublic`, a failure of the
policy-status call other than `NoSuchBucketPolicy`.  A failure of the ACL call
in `IsBucketPublic`, and a failure of the check's own describe call that is
not a "not configured" response, make the check return a non-nil error. -/
theorem check_call_failures (client : S3Client) (bucketName : String) :
    (∀ err, getBucketRegion client bucketName = .error err →
      ∀ check ∈ [IsBucketPublic, IsEncryptionEnabled, IsVersioningEnabled, IsLoggingEnabled,
        CheckBlockPublicAccess, IsLifecyclePolicyEnabled, IsMFADeleteEnabled],
        check client bucketName =
          (false, "Error getting bucket region for " ++ bucketName ++ ": " ++ err.text,
            none)) ∧
    (regionGuard client bucketName = none →
      (∀ err, client.GetBucketPolicyStatus bucketName = .error err →
        err.Code ≠ some "NoSuchBucketPolicy" →
        IsBucketPublic client bucketName =
          (false, "Error fetching bucket policy for " ++ bucketName ++ ": " ++ err.text,
            none)) ∧
      (∀ err, client.GetBucketAcl bucketName = .error err →
        ((∃ e, client.GetBucketPolicyStatus bucketName = .error e ∧
            e.Code = some "NoSuchBucketPolicy") ∨
          client.GetBucketPolicyStatus bucketName = .ok none ∨
          ∃ isPublic, client.GetBucketPolicyStatus bucketName = .ok (some isPublic) ∧
            aws.BoolValue isPublic = false) →
        (IsBucketPublic client bucketName).2.2 = some err.text) ∧
      (∀ err, client.GetBucketEncryption bucketName = .error err →
        err.Code ≠ some "NoSuchBucket" → err.StatusCode ≠ some 404 →
        (IsEncryptionEnabled client bucketName).2.2 =
          some ("error getting bucket encryption for " ++ bucketName ++ ": " ++ err.text)) ∧
      (∀ err, client.GetBucketVersioning bucketName = .error err →
        (IsVersioningEnabled client bucketName).2.2 =
            some ("error getting bucket versioning for " ++ bucketName ++ ": " ++ err.text) ∧
          (IsMFADeleteEnabled client bucketName).2.2 =
            some ("error getting bucket versioning for " ++ bucketName ++ ": " ++ err.text)) ∧
      (∀ err, client.GetBucketLogging bucketName = .error err →
        (IsLoggingEnabled client bucketName).2.2 =
          some ("error getting bucket logging for " ++ bucketName ++ ": " ++ err.text)) ∧
      (∀ err, client.GetBucketPolicyStatus bucketName = .error err →
        err.Code ≠ some "NoSuchBucketPolicy" →
        (CheckBlockPublicAccess client bucketName).2.2 =
          some ("error checking block public access settings for bucket " ++ bucketName ++
            ": " ++ err.text)) ∧
      (∀ err, client.GetBucketLifecycleConfiguration bucketName = .error err →
        err.StatusCode ≠ some 404 →
        (IsLifecyclePolicyEnabled client bucketName).2.2 =
          some ("error getting lifecycle policy for bucket " ++ bucketName ++ ": " ++
            err.text))) := by
  constructor
  · intro err h check hcheck
    have hg := regionGuard_of_lookup_failure client bucketName err h
    simp only [List.mem_cons, List.mem_singleton, List.not_mem_nil, or_false] at hcheck
    rcases hcheck with rfl | rfl | rfl | rfl | rfl | rfl | rfl
    · simp [IsBucketPublic, hg]
    · simp [IsEncryptionEnabled, hg]
    · simp [IsVersioningEnabled, hg]
    · simp [IsLoggingEnabled, hg]
    · simp [CheckBlockPublicAccess, hg]
    · simp [IsLifecyclePolicyEnabled, hg]
    · simp [IsMFADeleteEnabled, hg]
  · intro hregion
    refine ⟨?_, ?_, ?_, ?_, ?_, ?_, ?_⟩
    · intro err h hcode
      simp [IsBucketPublic, hregion, h, hcode]
    · intro err h hpolicy
      rcases hpolicy with ⟨e, he, hcode⟩ | hnone | ⟨isPublic, hp, hfalse⟩
      · simp [IsBucketPublic, hregion, he, hcode, checkAcl, h]
      · simp [IsBucketPublic, hregion, hnone, checkAcl, h]
      · simp [IsBucketPublic, hregion, hp, hfalse, checkAcl, h]
    · intro err h hcode h404
      simp [IsEncryptionEnabled, hregion, h, hcode, h404]
    · intro err h
      simp [IsVersioningEnabled, IsMFADeleteEnabled, hregion, h]
    · intro err h
      simp [IsLoggingEnabled, hregion, h]
    · intro err h hcode
      simp [CheckBlockPublicAccess, hregion, h, hcode]
    · intro err h h404
      simp [IsLifecyclePolicyEnabled, hregion, h, h404]

theorem check_call_failures_witness :
    IsVersioningEnabled examples.deniedLocationS3Client "b" =
      (false, "Error getting bucket region for " ++ "b" ++ ": " ++
        (awserr.Error.requestFailure "AccessDenied" 403 "AccessDenied: Access Denied").text,
        none) ∧
    (IsBucketPublic examples.deniedS3Client "b" =
      (false, "Error fetching bucket policy for " ++ "b" ++ ": " ++
        (awserr.Error.requestFailure "AccessDenied" 403 "AccessDenied: Access Denied").text,
        none)) ∧
    (IsEncryptionEnabled examples.deniedS3Client "b").2.2 =
      some ("error getting bucket encryption for " ++ "b" ++ ": " ++
        (awserr.Error.requestFailure "AccessDenied" 403 "AccessDenied: Access Denied").text) ∧
    (IsLoggingEnabled examples.deniedS3Client "b").2.2 =
      some ("error getting bucket logging for " ++ "b" ++ ": " ++
        (awserr.Error.requestFailure "AccessDenied" 403 "AccessDenied: Access Denied").text) :=
  ⟨(check_call_failures examples.deniedLocationS3Client "b").1 _ rfl IsVersioningEnabled
     (by simp),
   ((check_call_failures examples.deniedS3Client "b").2 rfl).1 _ rfl (by decide),
   ((check_call_failures examples.deniedS3Client "b").2 rfl).2.2.1 _ rfl (by decide)
     (by decide),
   ((check_call_failures examples.deniedS3Client "b").2 rfl).2.2.2.2.1 _ rfl⟩

/-- C20 (counterexample). With credentials that may not look up the location
of bucket b, `IsVersioningEnabled` (like every other check) returns a finding
with a nil error; and when the policy-status call is denied, `IsBucketPublic`
returns a finding with a nil error. -/
theorem lookup_failure_is_a_finding_counterexample :
    IsVersioningEnabled examples.deniedLocationS3Client "b" =
      (false, "Error getting bucket region for b: AccessDenied: Access Denied", none) ∧
    IsBucketPublic examples.deniedS3Client "b" =
      (false, "Error fetching bucket policy for b: AccessDenied: Access Denied", none) := by
  constructor <;> rfl

end s3scanner

namespace iamscanner

/-- C30. Whenever the account-summary call succeeds, `CheckRootAccountUsage`
returns a nil error and a non-empty list, which is either the single message
that root account usage appears secure or a non-empty order-preserving
sub-list of the two warnings; the access-key warning is present exactly when
`AccountAccessKeysPresent` is in the summary and positive, the MFA warning
exactly when `AccountMFAEnabled` is in the summary and zero, and the secure
message exactly when neither holds.  And in every run of `ScanIAM` that gets
past the user listing, whatever the users and the account summary, the root
account category handed to the process-and-summarize function is non-empty. -/
theorem CheckRootAccountUsage_findings (scanner : IAMScanner) :
    (∀ summaryMap : String → Option Int, scanner.account.GetAccountSummary = .ok summaryMap →
      ∃ findings, CheckRootAccountUsage scanner = .ok findings ∧ findings ≠ [] ∧
        (findings = ["Root account usage appears secure based on available information."] ∨
          findings.Sublist ["WARNING: Root account has active access keys.",
            "WARNING: MFA is not enabled for the root account."]) ∧
        ("WARNING: Root account has active access keys." ∈ findings ↔
          ∃ v, summaryMap "AccountAccessKeysPresent" = some v ∧ v > 0) ∧
        ("WARNING: MFA is not enabled for the root account." ∈ findings ↔
          ∃ v, summaryMap "AccountMFAEnabled" = some v ∧ v = 0) ∧
        ("Root account usage appears secure based on available information." ∈ findings ↔
          (¬ ∃ v, summaryMap "AccountAccessKeysPresent" = some v ∧ v > 0) ∧
            ¬ ∃ v, summaryMap "AccountMFAEnabled" = some v ∧ v = 0)) ∧
    (∀ (region : String) (tr : Trace) (users : List User),
      scanner.account.ListUsers = .ok users →
      ∃ f : Findings, f.rootAccountFindings ≠ [] ∧
        ScanIAM scanner region tr =
          finishScan
            (f.unusedAccessKeysFindings ++ f.overlyPermissivePoliciesFindings ++
              f.privilegeEscalationFindings ++ f.mfaFindings ++ f.roleTrustFindings)
            (processAndSummarizeFindings scanner "iam" region f.unusedAccessKeysFindings
              f.overlyPermissivePoliciesFindings f.privilegeEscalationFindings f.mfaFindings
              f.roleTrustFindings f.rootAccountFindings tr)) := by
  constructor
  · intro summaryMap h
    unfold CheckRootAccountUsage
    simp only [h]
    cases hk : summaryMap "AccountAccessKeysPresent" with
    | none =>
      cases hm : summaryMap "AccountMFAEnabled" with
      | none => simp
      | some m =>
        by_cases hm0 : m = 0
        · simp [hm0]
        · simp [hm0]
    | some k =>
      by_cases hk0 : k > 0
      · cases hm : summaryMap "AccountMFAEnabled" with
        | none => simp [hk0]
        | some m =>
          by_cases hm0 : m = 0
          · simp [hk0, hm0]
          · simp [hk0, hm0]
      · cases hm : summaryMap "AccountMFAEnabled" with
        | none => simp [hk0]
        | some m =>
          by_cases hm0 : m = 0
          · simp [hk0, hm0]
          · simp [hk0, hm0]
  · intro region tr users h
    refine ⟨scanRoles scanner (scanRootAccount scanner (users.foldl (scanUser scanner) {})),
      scanRootAccount_nonempty scanner _, ?_⟩
    simp [ScanIAM, h]

theorem CheckRootAccountUsage_findings_witness :
    ∃ findings, CheckRootAccountUsage ⟨examples.aliceIAM, examples.helpfulResponder⟩ =
        .ok findings ∧ findings ≠ [] ∧
      (findings = ["Root account usage appears secure based on available information."] ∨
        findings.Sublist ["WARNING: Root account has active access keys.",
          "WARNING: MFA is not enabled for the root account."]) ∧
      ("WARNING: Root account has active access keys." ∈ findings ↔
        ∃ v, (fun key => if key = "AccountMFAEnabled" then some (0 : Int) else none)
          "AccountAccessKeysPresent" = some v ∧ v > 0) ∧
      ("WARNING: MFA is not enabled for the root account." ∈ findings ↔
        ∃ v, (fun key => if key = "AccountMFAEnabled" then some (0 : Int) else none)
          "AccountMFAEnabled" = some v ∧ v = 0) ∧
      ("Root account usage appears secure based on available information." ∈ findings ↔
        (¬ ∃ v, (fun key => if key = "AccountMFAEnabled" then some (0 : Int) else none)
            "AccountAccessKeysPresent" = some v ∧ v > 0) ∧
          ¬ ∃ v, (fun key => if key = "AccountMFAEnabled" then some (0 : Int) else none)
            "AccountMFAEnabled" = some v ∧ v = 0) :=
  (CheckRootAccountUsage_findings ⟨examples.aliceIAM, examples.helpfulResponder⟩).1 _ rfl

end iamscanner

theorem finishScan_calls (g : geminiapi.Gemini) (service region : String)
    (cats : List Category) (flat : List String) (tr : Trace) :
    ∃ calls, Trace.summarizeCalls
        (finishScan flat (summarizeCategories g service region cats [] tr)).2 =
          Trace.summarizeCalls tr ++ calls ∧
      ∀ c ∈ calls, c.service = service ∧ c.region = region ∧ c.findings ≠ [] := by
  obtain ⟨calls, htrace, hprefix, -⟩ := summarizeCategories_contract g service region cats tr
  refine ⟨calls, by rw [finishScan_trace]; exact htrace, ?_⟩
  intro c hc
  have hmem := hprefix.subset hc
  simp only [callsFor, List.mem_map] at hmem
  obtain ⟨cat, hcat, rfl⟩ := hmem
  exact ⟨rfl, rfl, (mem_nonEmptyCategories cats cat hcat).2⟩

/-- C25 (code as it is). In every run of `ScanEC2`, for every region r and
every behaviour of the account and of the summarizer, each call of
`SummarizeFindings` has the region r as its service argument and the text
"ec2" as its region argument: the two arguments are swapped.  The scanners
for S3, ECS, Lambda, DynamoDB and IAM call it with their own service name as
the service and r as the region.  For the account whose only finding is an
unassociated Elastic IP, scanned for us-east-1, the one call has service
"us-east-1" and region "ec2". -/
theorem ScanEC2_swaps_service_and_region (region : String) (tr : Trace) :
    (∀ scanner : ec2scanner.EC2Scanner, ∃ calls,
      Trace.summarizeCalls (ec2scanner.ScanEC2 scanner region tr).2 =
        Trace.summarizeCalls tr ++ calls ∧
      ∀ c ∈ calls, c.service = region ∧ c.region = "ec2") ∧
    (∀ scanner : s3scanner.S3Scanner, ∃ calls,
      Trace.summarizeCalls (s3scanner.ScanS3 scanner region tr).2 =
        Trace.summarizeCalls tr ++ calls ∧
      ∀ c ∈ calls, c.service = "s3" ∧ c.region = region) ∧
    (∀ scanner : ecsscanner.ECSScanner, ∃ calls,
      Trace.summarizeCalls (ecsscanner.ScanECS scanner region tr).2 =
        Trace.summarizeCalls tr ++ calls ∧
      ∀ c ∈ calls, c.service = "ecs" ∧ c.region = region) ∧
    (∀ scanner : lambdascanner.LambdaScanner, ∃ calls,
      Trace.summarizeCalls (lambdascanner.ScanLambda scanner region tr).2 =
        Trace.summarizeCalls tr ++ calls ∧
      ∀ c ∈ calls, c.service = "lambda" ∧ c.region = region) ∧
    (∀ scanner : dynamodbscanner.DynamoDBScanner, ∃ calls,
      Trace.summarizeCalls (dynamodbscanner.ScanDynamoDB scanner region tr).2 =
        Trace.summarizeCalls tr ++ calls ∧
      ∀ c ∈ calls, c.service = "dynamodb" ∧ c.region = region) ∧
    (∀ scanner : iamscanner.IAMScanner, ∃ calls,
      Trace.summarizeCalls (iamscanner.ScanIAM scanner region tr).2 =
        Trace.summarizeCalls tr ++ calls ∧
      ∀ c ∈ calls, c.service = "iam" ∧ c.region = region) ∧
    Trace.summarizeCalls
        (ec2scanner.ScanEC2 ⟨examples.idleAddressEC2, examples.helpfulResponder⟩
          "us-east-1" []).2 =
      [{ service := "us-east-1", region := "ec2",
         findings := ["Elastic IP 203.0.113.7 is not associated with any instance"] }] := by
  refine ⟨?_, ?_, ?_, ?_, ?_, ?_, ?_⟩
  · intro scanner
    unfold ec2scanner.ScanEC2
    split
    · exact ⟨[], by simp, by simp⟩
    · obtain ⟨calls, h1, h2⟩ := finishScan_calls scanner.Gemini region "ec2" _ _ tr
      exact ⟨calls, h1, fun c hc => ⟨(h2 c hc).1, (h2 c hc).2.1⟩⟩
  · intro scanner
    unfold s3scanner.ScanS3
    split
    · exact ⟨[], by simp, by simp⟩
    · obtain ⟨calls, h1, h2⟩ := finishScan_calls scanner.Gemini "s3" region _ _ tr
      exact ⟨calls, h1, fun c hc => ⟨(h2 c hc).1, (h2 c hc).2.1⟩⟩
  · intro scanner
    unfold ecsscanner.ScanECS
    split
    · exact ⟨[], by simp, by simp⟩
    · obtain ⟨calls, h1, h2⟩ := finishScan_calls scanner.Gemini "ecs" region _ _ tr
      exact ⟨calls, h1, fun c hc => ⟨(h2 c hc).1, (h2 c hc).2.1⟩⟩
  · intro scanner
    unfold lambdascanner.ScanLambda
    split
    · exact ⟨[], by simp, by simp⟩
    · obtain ⟨calls, h1, h2⟩ := finishScan_calls scanner.Gemini "lambda" region _ _ tr
      exact ⟨calls, h1, fun c hc => ⟨(h2 c hc).1, (h2 c hc).2.1⟩⟩
  · intro scanner
    unfold dynamodbscanner.ScanDynamoDB
    split
    · exact ⟨[], by simp, by simp⟩
    · obtain ⟨calls, h1, h2⟩ := finishScan_calls scanner.Gemini "dynamodb" region _ _ tr
      exact ⟨calls, h1, fun c hc => ⟨(h2 c hc).1, (h2 c hc).2.1⟩⟩
  · intro scanner
    unfold iamscanner.ScanIAM
    split
    · exact ⟨[], by simp, by simp⟩
    · obtain ⟨calls, h1, h2⟩ := finishScan_calls scanner.Gemini "iam" region _ _ tr
      exact ⟨calls, h1, fun c hc => ⟨(h2 c hc).1, (h2 c hc).2.1⟩⟩
  · rfl

namespace s3scanner

theorem ScanS3_of_buckets (scanner : S3Scanner) (region : String) (tr : Trace)
    (buckets : List Bucket) (hlist : scanner.account.ListBuckets = .ok buckets)
    (hg : ∀ t f, ∃ r tr', geminiapi.SummarizeFindings scanner.Gemini "s3" region f t =
      (.ok r, tr')) :
    ∃ entries tr',
      ScanS3 scanner region tr = (.ok (flatFindings scanner.account buckets, entries), tr') ∧
      entries.map (fun e => (e.Title, e.Findings)) =
        (nonEmptyCategories (categoriesOf scanner.account buckets)).map
          (fun c => (c.Title, c.findings)) := by
  unfold ScanS3
  simp only [hlist, foldl_scanBucket, List.nil_append]
  unfold processAndSummarizeS3Findings
  obtain ⟨entries, hentries⟩ := summarizeCategories_ok_of_summarizer scanner.Gemini "s3" region
    hg (categoriesOf scanner.account buckets) [] tr
  obtain ⟨calls, -, -, -, hok, -⟩ := summarizeCategories_contract scanner.Gemini "s3" region
    (categoriesOf scanner.account buckets) tr
  unfold categoriesOf at hentries hok
  generalize hrun : summarizeCategories scanner.Gemini "s3" region _ [] tr = run at hentries hok
  obtain ⟨res, tr1⟩ := run
  simp only at hentries
  subst hentries
  exact ⟨entries, tr1, rfl, (hok entries rfl).2.2.1⟩

theorem foldl_ListBuckets (client : S3Client) (buckets : List Bucket) :
    ∀ acc : List Bucket,
      buckets.foldl (fun bucketsInRegion bucket =>
        match getBucketRegion client (aws.StringValue bucket.Name) with
        | .error _ => bucketsInRegion
        | .ok bucketRegion =>
          if bucketRegion = client.Region then bucketsInRegion ++ [bucket]
          else bucketsInRegion) acc =
        acc ++ buckets.filter (inConfiguredRegion client) := by
  induction buckets with
  | nil => intro acc; simp
  | cons b rest ih =>
    intro acc
    rw [List.foldl_cons, ih]
    cases hloc : client.GetBucketLocation (aws.StringValue b.Name) with
    | error err =>
      simp [getBucketRegion, inConfiguredRegion, lookedUpRegion, hloc]
    | ok loc =>
      have hget : getBucketRegion client (aws.StringValue b.Name) =
          .ok (if aws.StringValue loc = "" then "us-east-1" else aws.StringValue loc) := by
        simp only [getBucketRegion, hloc]
        split <;> rfl
      have hin : inConfiguredRegion client b =
          decide ((if aws.StringValue loc = "" then "us-east-1" else aws.StringValue loc) =
            client.Region) := by
        simp only [inConfiguredRegion, lookedUpRegion, hloc]
        by_cases hr : (if aws.StringValue loc = "" then "us-east-1" else aws.StringValue loc) =
            client.Region
        · simp [hr]
        · simp [hr]
      rw [List.filter_cons, hin]
      simp only [hget]
      by_cases hr : (if aws.StringValue loc = "" then "us-east-1" else aws.StringValue loc) =
          client.Region
      · simp [hr]
      · simp [hr]

theorem ListBuckets_eq_filter (client : S3Client) (buckets : List Bucket)
    (hlist : client.ListBuckets = .ok buckets) :
    ListBuckets client = .ok (buckets.filter (inConfiguredRegion client)) := by
  unfold ListBuckets
  simp only [hlist]
  rw [foldl_ListBuckets]
  simp

end s3scanner

namespace s3scanner

/-- C24. For every bucket list of the account and every outcome of the
per-bucket location lookups, `ListBuckets` returns a nil error and exactly the
buckets, in their order, whose looked-up region (an empty location constraint
read as "us-east-1") is the client's configured region; a bucket whose lookup
fails is not in the result, a bucket whose lookup succeeds is in it exactly
when its region is the configured one, and a scan with a succeeding summarizer
returns no error and findings about the kept buckets only. -/
theorem ListBuckets_keeps_in_region_buckets (client : S3Client) (buckets : List Bucket)
    (hlist : client.ListBuckets = .ok buckets) :
    ListBuckets client = .ok (buckets.filter (inConfiguredRegion client)) ∧
    (buckets.filter (inConfiguredRegion client)).Sublist buckets ∧
    (∀ bucket ∈ buckets, ∀ err,
      client.GetBucketLocation (aws.StringValue bucket.Name) = .error err →
        bucket ∉ buckets.filter (inConfiguredRegion client)) ∧
    (∀ bucket ∈ buckets, ∀ locationConstraint,
      client.GetBucketLocation (aws.StringValue bucket.Name) = .ok locationConstraint →
        (bucket ∈ buckets.filter (inConfiguredRegion client) ↔
          (if aws.StringValue locationConstraint = "" then "us-east-1"
            else aws.StringValue locationConstraint) = client.Region)) ∧
    (∀ (g : geminiapi.Gemini) (region : String) (tr : Trace),
      (∀ t f, ∃ r tr', geminiapi.SummarizeFindings g "s3" region f t = (.ok r, tr')) →
      ∃ entries tr', ScanS3 ⟨accountOf client, g⟩ region tr =
        (.ok (flatFindings (accountOf client) (buckets.filter (inConfiguredRegion client)),
          entries), tr')) := by
  have hfilter := ListBuckets_eq_filter client buckets hlist
  refine ⟨hfilter, List.filter_sublist _, ?_, ?_, ?_⟩
  · intro bucket _ err herr hmem
    have := (List.mem_filter.mp hmem).2
    simp [inConfiguredRegion, lookedUpRegion, herr] at this
  · intro bucket hb loc hloc
    rw [List.mem_filter]
    simp [inConfiguredRegion, lookedUpRegion, hloc, hb]
  · intro g region tr hg
    obtain ⟨entries, tr', h, -⟩ := ScanS3_of_buckets ⟨accountOf client, g⟩ region tr
      (buckets.filter (inConfiguredRegion client)) hfilter hg
    exact ⟨entries, tr', h⟩

theorem ListBuckets_keeps_in_region_buckets_witness :
    ListBuckets examples.mixedRegionsS3Client =
      .ok [{ Name := some "a" }, { Name := some "d" }] :=
  (ListBuckets_keeps_in_region_buckets examples.mixedRegionsS3Client
    [{ Name := some "a" }, { Name := some "b" }, { Name := some "c" }, { Name := some "d" }]
    rfl).1

end s3scanner

namespace s3scanner

theorem regionGuard_in_region (client : S3Client) (bucketName : String)
    (h : getBucketRegion client bucketName = .ok client.Region) :
    regionGuard client bucketName = none := by
  simp [regionGuard, h]

theorem inConfiguredRegion_of_getBucketRegion (client : S3Client) (bucket : Bucket)
    (h : getBucketRegion client (aws.StringValue bucket.Name) = .ok client.Region) :
    inConfiguredRegion client bucket = true := by
  unfold getBucketRegion at h
  unfold inConfiguredRegion lookedUpRegion
  cases hloc : client.GetBucketLocation (aws.StringValue bucket.Name) with
  | error err => rw [hloc] at h; simp at h
  | ok loc =>
    rw [hloc] at h
    simp only at h
    split at h
    · rename_i hempty
      simp only [Except.ok.injEq] at h
      simp only [if_pos hempty, h]
      simp
    · rename_i hempty
      simp only [Except.ok.injEq] at h
      rw [h] at hempty
      simp [h, hempty]

/-- C21 (as amended). For every bucket name X, `ScanS3` over the single
in-region bucket X whose policy-status lookup answers `NoSuchBucketPolicy`,
with a summarizer that succeeds, returns exactly one entry titled "Encryption"
and exactly one titled "Block Public Access".  The findings of the latter are
the one text that bucket X does not have a policy; the findings of the former
are the one text "WARNING: Encryption not enabled on bucket X." when the
encryption lookup fails with HTTP 404, and the one text
"WARNING: Bucket X does not have encryption enabled." when the lookup succeeds
without a configuration.  Both findings occur in the flat findings. -/
theorem ScanS3_bare_bucket (client : S3Client) (g : geminiapi.Gemini) (region : String)
    (tr : Trace) (X encryptionFinding : String)
    (hlist : client.ListBuckets = .ok [{ Name := some X }])
    (hloc : getBucketRegion client X = .ok client.Region)
    (hpol : ∃ err, client.GetBucketPolicyStatus X = .error err ∧
      err.Code = some "NoSuchBucketPolicy")
    (henc : (∃ err, client.GetBucketEncryption X = .error err ∧ err.StatusCode = some 404 ∧
          err.Code ≠ some "NoSuchBucket" ∧
          encryptionFinding = "WARNING: Encryption not enabled on bucket " ++ X ++ ".") ∨
        (client.GetBucketEncryption X = .ok false ∧
          encryptionFinding = "WARNING: Bucket " ++ X ++ " does not have encryption enabled."))
    (hg : ∀ t f, ∃ r tr', geminiapi.SummarizeFindings g "s3" region f t = (.ok r, tr')) :
    ∃ flat entries tr',
      ScanS3 ⟨accountOf client, g⟩ region tr = (.ok (flat, entries), tr') ∧
      (entries.filter (fun e => e.Title == "Encryption")).map (fun e => e.Findings) =
        [[encryptionFinding]] ∧
      (entries.filter (fun e => e.Title == "Block Public Access")).map (fun e => e.Findings) =
        [["Bucket " ++ X ++
          " does not have a policy, indicating it is not publicly accessible through policy."]] ∧
      encryptionFinding ∈ flat ∧
      ("Bucket " ++ X ++
        " does not have a policy, indicating it is not publicly accessible through policy.")
          ∈ flat := by
  have hguard := regionGuard_in_region client X hloc
  have hkeep : ListBuckets client = .ok [{ Name := some X }] := by
    rw [ListBuckets_eq_filter client _ hlist]
    have := inConfiguredRegion_of_getBucketRegion client { Name := some X } hloc
    simp [List.filter, this]
  obtain ⟨perr, hperr, hpcode⟩ := hpol
  have hbpa : CheckBlockPublicAccess client X = (true, "Bucket " ++ X ++
      " does not have a policy, indicating it is not publicly accessible through policy.",
      none) := by
    simp [CheckBlockPublicAccess, hguard, hperr, hpcode]
  have hencf : IsEncryptionEnabled client X = (false, encryptionFinding, none) := by
    rcases henc with ⟨err, herr, h404, hcode, rfl⟩ | ⟨hok, rfl⟩
    · simp [IsEncryptionEnabled, hguard, herr, h404, hcode]
    · simp [IsEncryptionEnabled, hguard, hok]
  obtain ⟨entries, tr', hscan, hmap⟩ := ScanS3_of_buckets ⟨accountOf client, g⟩ region tr
    [{ Name := some X }] hkeep hg
  refine ⟨_, entries, tr', hscan, ?_, ?_, ?_, ?_⟩
  · have h1 : (entries.filter (fun e => e.Title == "Encryption")).map (fun e => e.Findings) =
        ((entries.map (fun e => (e.Title, e.Findings))).filter
          (fun p => p.1 == "Encryption")).map Prod.snd := by
      rw [List.filter_map, List.map_map]; rfl
    rw [h1, hmap]
    simp [categoriesOf, categories, nonEmptyCategories, categoryFindings, accountOf,
      aws.StringValue, checkFinding, hencf, hbpa, List.filter]
  · have h1 : (entries.filter (fun e => e.Title == "Block Public Access")).map
          (fun e => e.Findings) =
        ((entries.map (fun e => (e.Title, e.Findings))).filter
          (fun p => p.1 == "Block Public Access")).map Prod.snd := by
      rw [List.filter_map, List.map_map]; rfl
    rw [h1, hmap]
    simp [categoriesOf, categories, nonEmptyCategories, categoryFindings, accountOf,
      aws.StringValue, checkFinding, hencf, hbpa, List.filter]
  · simp [flatFindings, categoryFindings, accountOf, aws.StringValue, checkFinding, hencf]
  · simp [flatFindings, categoryFindings, accountOf, aws.StringValue, checkFinding, hbpa]

end s3scanner

namespace s3scanner

theorem ScanS3_bare_bucket_witness :
    ∃ flat entries tr',
      ScanS3 ⟨accountOf examples.bareS3Client, examples.helpfulResponder⟩ "us-east-1" [] =
        (.ok (flat, entries), tr') ∧
      (entries.filter (fun e => e.Title == "Encryption")).map (fun e => e.Findings) =
        [["WARNING: Encryption not enabled on bucket b."]] ∧
      (entries.filter (fun e => e.Title == "Block Public Access")).map (fun e => e.Findings) =
        [["Bucket " ++ "b" ++
          " does not have a policy, indicating it is not publicly accessible through policy."]] ∧
      "WARNING: Encryption not enabled on bucket b." ∈ flat ∧
      ("Bucket " ++ "b" ++
        " does not have a policy, indicating it is not publicly accessible through policy.")
          ∈ flat :=
  ScanS3_bare_bucket examples.bareS3Client examples.helpfulResponder "us-east-1" [] "b"
    "WARNING: Encryption not enabled on bucket b." rfl rfl ⟨_, rfl, rfl⟩
    (Or.inl ⟨_, rfl, rfl, by decide, rfl⟩) (fun _ _ => ⟨_, _, rfl⟩)

/-- C21 (counterexample). `ScanS3` over the single in-region bucket b without
policy whose encryption lookup answers HTTP 404 returns the "Encryption" entry
with the findings ["WARNING: Encryption not enabled on bucket b."], and over
the same bucket whose encryption lookup succeeds without a configuration the
findings ["WARNING: Bucket b does not have encryption enabled."]; in neither
run is "Bucket b does not have encryption enabled." a finding of the entry or
of the flat list. -/
theorem encryption_finding_text_counterexample :
    (∃ flat entries,
      (ScanS3 ⟨accountOf examples.bareS3Client, examples.helpfulResponder⟩ "us-east-1" []).1 =
        .ok (flat, entries) ∧
      (entries.filter (fun e => e.Title == "Encryption")).map (fun e => e.Findings) =
        [["WARNING: Encryption not enabled on bucket b."]] ∧
      "Bucket b does not have encryption enabled." ∉ flat) ∧
    (∃ flat entries,
      (ScanS3 ⟨accountOf examples.nilEncryptionS3Client, examples.helpfulResponder⟩
          "us-east-1" []).1 = .ok (flat, entries) ∧
      (entries.filter (fun e => e.Title == "Encryption")).map (fun e => e.Findings) =
        [["WARNING: Bucket b does not have encryption enabled."]] ∧
      "Bucket b does not have encryption enabled." ∉ flat) := by
  refine ⟨⟨_, _, rfl, rfl, by decide⟩, ⟨_, _, rfl, rfl, by decide⟩⟩

end s3scanner

theorem finishScan_of_summarizer (g : geminiapi.Gemini) (service region : String)
    (hg : ∀ t f, ∃ r tr', geminiapi.SummarizeFindings g service region f t = (.ok r, tr'))
    (cats : List Category) (flat : List String) (tr : Trace) :
    ∃ entries tr',
      finishScan flat (summarizeCategories g service region cats [] tr) =
        (.ok (flat, entries), tr') ∧
      entries.map (fun e => (e.Title, e.Findings)) =
        (nonEmptyCategories cats).map (fun c => (c.Title, c.findings)) := by
  obtain ⟨entries, hentries⟩ := summarizeCategories_ok_of_summarizer g service region hg cats [] tr
  obtain ⟨calls, -, -, -, hok, -⟩ := summarizeCategories_contract g service region cats tr
  generalize summarizeCategories g service region cats [] tr = run at hentries hok
  obtain ⟨res, tr1⟩ := run
  simp only at hentries
  subst hentries
  exact ⟨entries, tr1, rfl, (hok entries rfl).2.2.1⟩

namespace ec2scanner

/-- C22 (as amended). `ScanEC2` over exactly one instance that has a public
IP and one attached volume that is not encrypted, no security groups and no
unassociated Elastic IP, with a summarizer that succeeds, produces exactly
five findings: the public IP finding, the volume finding, and the one finding
that each of `CheckInstanceIAMRole`, `CheckCloudWatchMonitoring` and
`CheckMetadataVersion` returns for every instance.  The flat findings are
exactly those five and exactly five entries are returned, one per category. -/
theorem ScanEC2_exposed_instance (client : EC2Client) (g : geminiapi.Gemini) (region : String)
    (tr : Trace) (inst : Instance) (ip : String) (volumeId : Option String)
    (encrypted : Option Bool) (addresses : List Address)
    (hlist : ListInstances client = .ok [inst])
    (hip : inst.PublicIpAddress = some ip)
    (hvol : inst.BlockDeviceMappings = [volumeId])
    (hdesc : client.DescribeVolumes volumeId = .ok [encrypted])
    (henc : aws.BoolValue encrypted = false)
    (hsg : inst.SecurityGroups = [])
    (haddr : client.DescribeAddresses = .ok addresses)
    (hassoc : ∀ a ∈ addresses, a.AssociationId ≠ none)
    (hg : ∀ t f, ∃ r tr', geminiapi.SummarizeFindings g region "ec2" f t = (.ok r, tr')) :
    ∃ iamRole monitoring metadata entries tr',
      CheckInstanceIAMRole inst = [iamRole] ∧
      CheckCloudWatchMonitoring inst = [monitoring] ∧
      CheckMetadataVersion inst = [metadata] ∧
      ScanEC2 ⟨accountOf client, g⟩ region tr =
        (.ok (["Instance " ++ aws.StringValue inst.InstanceId ++ " has a public IP: " ++ ip,
            "Volume " ++ aws.StringValue volumeId ++ " attached to instance " ++
              aws.StringValue inst.InstanceId ++ " is not encrypted",
            iamRole, monitoring, metadata], entries), tr') ∧
      entries.map (fun e => (e.Title, e.Findings)) =
        [("Public IP Findings",
            ["Instance " ++ aws.StringValue inst.InstanceId ++ " has a public IP: " ++ ip]),
          ("Volume Encryption Findings",
            ["Volume " ++ aws.StringValue volumeId ++ " attached to instance " ++
              aws.StringValue inst.InstanceId ++ " is not encrypted"]),
          ("IAM Role Findings", [iamRole]),
          ("CloudWatch Monitoring Findings", [monitoring]),
          ("Metadata Findings", [metadata])] ∧
      entries.length = 5 := by
  obtain ⟨iamRole, hiam⟩ : ∃ x, CheckInstanceIAMRole inst = [x] := by
    unfold CheckInstanceIAMRole
    split <;> exact ⟨_, rfl⟩
  obtain ⟨monitoring, hmon⟩ : ∃ x, CheckCloudWatchMonitoring inst = [x] := by
    unfold CheckCloudWatchMonitoring
    split
    · split <;> exact ⟨_, rfl⟩
    · exact ⟨_, rfl⟩
  obtain ⟨metadata, hmeta⟩ : ∃ x, CheckMetadataVersion inst = [x] := by
    unfold CheckMetadataVersion
    split
    · split <;> exact ⟨_, rfl⟩
    · exact ⟨_, rfl⟩
  have hpub : HasPublicIP inst = (true, "Instance " ++ aws.StringValue inst.InstanceId ++
      " has a public IP: " ++ ip) := by
    simp [HasPublicIP, hip, aws.StringValue]
  have hvols : AreVolumesEncrypted client inst = (false, ["Volume " ++ aws.StringValue volumeId ++
      " attached to instance " ++ aws.StringValue inst.InstanceId ++ " is not encrypted"]) := by
    simp [AreVolumesEncrypted, hvol, hdesc, henc]
  have hsgs : CheckSecurityGroups client inst = [] := by
    simp [CheckSecurityGroups, hsg]
  have heip : CheckUnassociatedElasticIPs ⟨accountOf client, g⟩ = .ok [] :=
    CheckUnassociatedElasticIPs_all_associated ⟨accountOf client, g⟩ addresses haddr hassoc
  obtain ⟨entries, tr', hscan, hmap⟩ := finishScan_of_summarizer g region "ec2" hg
    (categories ["Instance " ++ aws.StringValue inst.InstanceId ++ " has a public IP: " ++ ip]
      ["Volume " ++ aws.StringValue volumeId ++ " attached to instance " ++
        aws.StringValue inst.InstanceId ++ " is not encrypted"] []
      [iamRole] [monitoring] [metadata] [])
    ["Instance " ++ aws.StringValue inst.InstanceId ++ " has a public IP: " ++ ip,
      "Volume " ++ aws.StringValue volumeId ++ " attached to instance " ++
        aws.StringValue inst.InstanceId ++ " is not encrypted",
      iamRole, monitoring, metadata] tr
  have hmap' : entries.map (fun e => (e.Title, e.Findings)) =
      [("Public IP Findings",
          ["Instance " ++ aws.StringValue inst.InstanceId ++ " has a public IP: " ++ ip]),
        ("Volume Encryption Findings",
          ["Volume " ++ aws.StringValue volumeId ++ " attached to instance " ++
            aws.StringValue inst.InstanceId ++ " is not encrypted"]),
        ("IAM Role Findings", [iamRole]),
        ("CloudWatch Monitoring Findings", [monitoring]),
        ("Metadata Findings", [metadata])] := by
    rw [hmap]
    simp [categories, nonEmptyCategories, List.filter]
  refine ⟨iamRole, monitoring, metadata, entries, tr', hiam, hmon, hmeta, ?_, hmap', ?_⟩
  · rw [← hscan]
    unfold ScanEC2
    have hl : (accountOf client).ListInstances = .ok [inst] := hlist
    simp only [hl, heip]
    simp [scanInstance, accountOf, hpub, hvols, hsgs, hiam, hmon, hmeta,
      processAndSummarizeFindings]
  · have := congrArg List.length hmap'
    simpa using this

end ec2scanner

namespace ec2scanner

theorem ScanEC2_exposed_instance_witness :
    ∃ iamRole monitoring metadata entries tr',
      CheckInstanceIAMRole examples.exposedInstance = [iamRole] ∧
      CheckCloudWatchMonitoring examples.exposedInstance = [monitoring] ∧
      CheckMetadataVersion examples.exposedInstance = [metadata] ∧
      ScanEC2 ⟨accountOf examples.exposedInstanceEC2Client, examples.helpfulResponder⟩
          "us-east-1" [] =
        (.ok (["Instance " ++ "i-1" ++ " has a public IP: " ++ "198.51.100.4",
            "Volume " ++ "vol-1" ++ " attached to instance " ++ "i-1" ++ " is not encrypted",
            iamRole, monitoring, metadata], entries), tr') ∧
      entries.map (fun e => (e.Title, e.Findings)) =
        [("Public IP Findings", ["Instance " ++ "i-1" ++ " has a public IP: " ++ "198.51.100.4"]),
          ("Volume Encryption Findings",
            ["Volume " ++ "vol-1" ++ " attached to instance " ++ "i-1" ++ " is not encrypted"]),
          ("IAM Role Findings", [iamRole]),
          ("CloudWatch Monitoring Findings", [monitoring]),
          ("Metadata Findings", [metadata])] ∧
      entries.length = 5 :=
  ScanEC2_exposed_instance examples.exposedInstanceEC2Client examples.helpfulResponder
    "us-east-1" []
    examples.exposedInstance
    "198.51.100.4" (some "vol-1") (some false) [] rfl rfl rfl rfl rfl rfl rfl
    (fun a ha => by simp at ha) (fun _ _ => ⟨_, _, rfl⟩)

/-- C22 (counterexample). `ScanEC2` over the single instance i-1 with a public
IP and one unencrypted volume, no security groups and no Elastic IPs returns
five flat findings and five entries, not two; so it does when the instance
has an instance profile, monitoring enabled and IMDSv2 required. -/
theorem ScanEC2_five_findings_counterexample :
    (∃ entries,
      (ScanEC2 ⟨accountOf examples.exposedInstanceEC2Client, examples.helpfulResponder⟩
          "us-east-1" []).1 =
        .ok (["Instance i-1 has a public IP: 198.51.100.4",
            "Volume vol-1 attached to instance i-1 is not encrypted",
            "WARNING: Instance i-1 does not have an IAM role attached",
            "WARNING: CloudWatch monitoring is not enabled for instance i-1",
            "WARNING: Instance i-1 is not using IMDSv2 for metadata access"], entries) ∧
      entries.map (fun e => e.Title) =
        ["Public IP Findings", "Volume Encryption Findings", "IAM Role Findings",
          "CloudWatch Monitoring Findings", "Metadata Findings"]) ∧
    (∃ entries,
      (ScanEC2 ⟨accountOf examples.hardenedInstanceEC2Client, examples.helpfulResponder⟩
          "us-east-1" []).1 =
        .ok (["Instance i-1 has a public IP: 198.51.100.4",
            "Volume vol-1 attached to instance i-1 is not encrypted",
            "Instance i-1 has an IAM instance profile attached: arn:aws:iam::123456789012:instance-profile/web",
            "CloudWatch monitoring is enabled for instance i-1",
            "Instance i-1 is using IMDSv2 for metadata access"], entries) ∧
      entries.map (fun e => e.Title) =
        ["Public IP Findings", "Volume Encryption Findings", "IAM Role Findings",
          "CloudWatch Monitoring Findings", "Metadata Findings"]) := by
  exact ⟨⟨_, rfl, rfl⟩, ⟨_, rfl, rfl⟩⟩

end ec2scanner

namespace time

theorem Since_gt_ninety_days (now t : Int) :
    Since now t > 90 * 24 * Hour ↔ now - t > 90 * 24 * (3600 * 1000000000) := by
  unfold Since Sub maxDuration minDuration Hour
  split
  · constructor
    · intro _; omega
    · intro _; norm_num
  · split
    · constructor
      · intro h; norm_num at h
      · intro h; omega
    · constructor <;> intro h <;> omega

end time

namespace iamscanner

theorem checkAccessKeys_eq (client : iam.IAM) (now : Nat → Int) (user : User) :
    ∀ (keys : List (Option String)) (i : Nat) (findings : List String),
      checkAccessKeys client now user i keys findings =
        findings ++ ((keys.enumFrom i).map
          (fun p => accessKeyFindings client now user p.1 p.2)).flatten := by
  intro keys
  induction keys with
  | nil => intro i findings; simp [checkAccessKeys]
  | cons k rest ih =>
    intro i findings
    rw [checkAccessKeys, ih]
    simp only [List.enumFrom_cons, List.map_cons, List.flatten_cons, accessKeyFindings]
    rw [← List.append_assoc]
    congr 1
    cases client.GetAccessKeyLastUsed k with
    | error err => rfl
    | ok lastUsedDate =>
      cases lastUsedDate with
      | none => rfl
      | some date =>
        simp only
        split <;> simp

/-- C28. For every list of access keys of a user and every reading of the
clock, the findings of `CheckUnusedAccessKeys` are the per-key findings in the
order of the keys, and for every key whose last-used lookup succeeds the
per-key findings are the one "has not been used for over 90 days" WARNING when
the last-used date is absent or lies strictly more than 90 times 24 hours
before the current time, and empty otherwise; so a key last used exactly 90
days ago or more recently yields no finding. -/
theorem CheckUnusedAccessKeys_ninety_days (client : iam.IAM) (now : Nat → Int) (user : User)
    (keys : List (Option String)) (hlist : client.ListAccessKeys user.UserName = .ok keys) :
    ∃ perKey : List (List String),
      perKey.length = keys.length ∧
      CheckUnusedAccessKeys client now user = perKey.flatten ∧
      ∀ (i : Nat) (accessKeyId : Option String), keys[i]? = some accessKeyId →
        ∀ lastUsedDate, client.GetAccessKeyLastUsed accessKeyId = .ok lastUsedDate →
          ((lastUsedDate = none ∨
              ∃ date, lastUsedDate = some date ∧
                now i - date > 90 * 24 * (3600 * 1000000000)) →
            perKey[i]? = some ["WARNING: Access key " ++ aws.StringValue accessKeyId ++
              " for user " ++ aws.StringValue user.UserName ++
              " has not been used for over 90 days."]) ∧
          ((∃ date, lastUsedDate = some date ∧
                now i - date ≤ 90 * 24 * (3600 * 1000000000)) →
            perKey[i]? = some []) := by
  refine ⟨(keys.enumFrom 0).map (fun p => accessKeyFindings client now user p.1 p.2),
    by simp, ?_, ?_⟩
  · unfold CheckUnusedAccessKeys
    rw [hlist]
    simp only
    rw [checkAccessKeys_eq]
    simp
  · intro i accessKeyId hi lastUsedDate hlookup
    have hget : ((keys.enumFrom 0).map
        (fun p => accessKeyFindings client now user p.1 p.2))[i]? =
        some (accessKeyFindings client now user i accessKeyId) := by
      simp [List.getElem?_map, List.getElem?_enumFrom, hi]
    rw [hget]
    constructor
    · rintro (rfl | ⟨date, rfl, hdate⟩)
      · simp [accessKeyFindings, hlookup]
      · have := (time.Since_gt_ninety_days (now i) date).mpr hdate
        simp only [accessKeyFindings, hlookup, if_pos this]
    · rintro ⟨date, rfl, hdate⟩
      have : ¬ time.Since (now i) date > 90 * 24 * time.Hour := by
        rw [time.Since_gt_ninety_days]; omega
      simp only [accessKeyFindings, hlookup, if_neg this]

theorem CheckUnusedAccessKeys_ninety_days_witness :
    CheckUnusedAccessKeys examples.keysIAMClient (fun _ => 1000 + 90 * 24 * time.Hour)
        { UserName := some "alice" } =
      ["WARNING: Access key AKIA1 for user alice has not been used for over 90 days.",
        "WARNING: Access key AKIA3 for user alice has not been used for over 90 days.",
        "Error checking last used time for access key AKIA4: AccessDenied: Access Denied"] ∧
    ∃ perKey : List (List String),
      perKey.length = 4 ∧
      CheckUnusedAccessKeys examples.keysIAMClient (fun _ => 1000 + 90 * 24 * time.Hour)
        { UserName := some "alice" } = perKey.flatten ∧
      perKey[1]? = some [] := by
  obtain ⟨perKey, hlen, hjoin, hkeys⟩ :=
    CheckUnusedAccessKeys_ninety_days examples.keysIAMClient
      (fun _ => 1000 + 90 * 24 * time.Hour) { UserName := some "alice" }
      [some "AKIA1", some "AKIA2", some "AKIA3", some "AKIA4"] rfl
  refine ⟨by decide, perKey, hlen, hjoin, ?_⟩
  exact (hkeys 1 (some "AKIA2") rfl (some 1000) rfl).2 ⟨1000, rfl, by decide⟩

end iamscanner

namespace strings

theorem splitChars_length (sep : Char) (l : List Char) :
    (splitChars sep l).length = l.count sep + 1 := by
  induction l with
  | nil => simp [splitChars]
  | cons c cs ih =>
    unfold splitChars
    by_cases hc : c = sep
    · subst hc
      simp [ih]
    · rw [if_neg hc]
      have hne : (c == sep) = false := by simpa using hc
      rw [List.count_cons, hne]
      cases hs : splitChars sep cs with
      | nil => rw [hs] at ih; simp at ih
      | cons part parts =>
        rw [hs] at ih
        simp only [List.length_cons] at ih ⊢
        simpa using ih

theorem Split_of_separator (s : String) (sep : Char) (h : sep ∈ s.data) :
    ∃ first second rest, Split s sep = first :: second :: rest := by
  have hlen : 2 ≤ (Split s sep).length := by
    unfold Split
    rw [List.length_map, splitChars_length]
    have := List.count_pos_iff.mpr h
    omega
  match hsplit : Split s sep, hlen with
  | first :: second :: rest, _ => exact ⟨first, second, rest, rfl⟩

end strings

/-- C29 (code as it is). For every role ARN that contains a '/', with the
'/'-separated segments `first :: second :: rest`, the Lambda checks look up
the role named by the second segment and the ECS check the role named by the
last segment; the two names are equal exactly when the last segment is the
second one, as it is for an ARN with a single '/'.  For the ARN
arn:aws:iam::123456789012:role/service-role/MyRole the Lambda checks look up
"service-role" and report that this role does not exist, while the ECS check
looks up and finds "MyRole". -/
theorem roleNameOf_second_segment_and_last (roleArn : String) (h : '/' ∈ roleArn.data) :
    (∃ first second rest, strings.Split roleArn '/' = first :: second :: rest ∧
      lambdascanner.roleNameOf roleArn = some second ∧
      ecsscanner.roleNameOf roleArn = (second :: rest).getLast? ∧
      (rest = [] → lambdascanner.roleNameOf roleArn = ecsscanner.roleNameOf roleArn) ∧
      (lambdascanner.roleNameOf roleArn = ecsscanner.roleNameOf roleArn ↔
        (second :: rest).getLast? = some second)) ∧
    lambdascanner.roleNameOf "arn:aws:iam::123456789012:role/service-role/MyRole" =
      some "service-role" ∧
    ecsscanner.roleNameOf "arn:aws:iam::123456789012:role/service-role/MyRole" =
      some "MyRole" ∧
    lambdascanner.CheckFunctionIAMRole examples.pathRoleIAMClient
        { FunctionName := some "f"
          Role := some "arn:aws:iam::123456789012:role/service-role/MyRole" } =
      .ok ["WARNING: IAM role service-role for Lambda function f does not exist."] ∧
    lambdascanner.CheckCloudWatchLogs examples.pathRoleIAMClient
        { FunctionName := some "f"
          Role := some "arn:aws:iam::123456789012:role/service-role/MyRole" } =
      .ok ["WARNING: IAM role service-role for Lambda function f does not exist."] ∧
    ecsscanner.CheckTaskDefinitionIAMRoles
        (fun _ => .ok (some "arn:aws:iam::123456789012:role/service-role/MyRole"))
        examples.pathRoleIAMClient "td" =
      .ok ["Found IAM role for task definition td: MyRole"] := by
  refine ⟨?_, by rfl, by rfl, by rfl, by rfl, by rfl⟩
  obtain ⟨first, second, rest, hsplit⟩ := strings.Split_of_separator roleArn '/' h
  have hl : lambdascanner.roleNameOf roleArn = some second := by
    simp [lambdascanner.roleNameOf, hsplit]
  have he : ecsscanner.roleNameOf roleArn = (second :: rest).getLast? := by
    simp [ecsscanner.roleNameOf, hsplit, List.getLast?_cons_cons]
  refine ⟨first, second, rest, hsplit, hl, he, ?_, ?_⟩
  · intro hrest
    rw [hl, he, hrest]
    rfl
  · rw [hl, he]
    exact eq_comm

theorem roleNameOf_second_segment_and_last_witness :
    lambdascanner.roleNameOf "arn:aws:iam::123456789012:role/MyRole" =
      ecsscanner.roleNameOf "arn:aws:iam::123456789012:role/MyRole" := by
  obtain ⟨⟨first, second, rest, hsplit, -, -, hone, -⟩, -⟩ :=
    roleNameOf_second_segment_and_last "arn:aws:iam::123456789012:role/MyRole" (by decide)
  apply hone
  have hs : strings.Split "arn:aws:iam::123456789012:role/MyRole" '/' =
      ["arn:aws:iam::123456789012:role", "MyRole"] := by rfl
  rw [hs] at hsplit
  simp only [List.cons.injEq] at hsplit
  exact hsplit.2.2.symm

theorem foldl_flag {σ α : Type} (flag : σ → Bool) (step : σ → α → σ)
    (hpres : ∀ s x, flag s = true → flag (step s x) = true) :
    ∀ (l : List α) (s : σ), flag s = true → flag (l.foldl step s) = true := by
  intro l
  induction l with
  | nil => intro s h; exact h
  | cons x xs ih => intro s h; exact ih _ (hpres s x h)

theorem foldl_flag_of_mem {σ α : Type} (flag : σ → Bool) (step : σ → α → σ)
    (hpres : ∀ s x, flag s = true → flag (step s x) = true) (x : α)
    (htrig : ∀ s, flag (step s x) = true) :
    ∀ (l : List α), x ∈ l → ∀ s : σ, flag (l.foldl step s) = true := by
  intro l
  induction l with
  | nil => intro h; simp at h
  | cons y ys ih =>
    intro h s
    rcases List.mem_cons.mp h with rfl | h
    · exact foldl_flag flag step hpres ys _ (htrig s)
    · exact ih h _

namespace iamscanner

theorem saveError_isSome (saved : Option String) (e : String) :
    (geminiapi.saveError saved e).isSome = true := by
  cases saved <;> rfl

theorem decodeStringField_saved (struct field : String) (v : JSONValue) (old : String)
    (saved : Option String) (h : saved.isSome = true) :
    (decodeStringField struct field v old saved).2.isSome = true := by
  cases v <;> simp [decodeStringField, h, saveError_isSome]

theorem decodePrincipalEntry_saved (acc : Principal × Option String) (kv : String × JSONValue)
    (h : acc.2.isSome = true) : (decodePrincipalEntry acc kv).2.isSome = true := by
  unfold decodePrincipalEntry
  split
  · exact decodeStringField_saved _ _ _ _ _ h
  · exact h

theorem decodePrincipalEntry_list (acc : Principal × Option String) (accounts : List JSONValue) :
    (decodePrincipalEntry acc ("AWS", .array accounts)).2.isSome = true := by
  have hk : keyMatchesFold "AWS" "AWS" = true := by rfl
  simp [decodePrincipalEntry, hk, decodeStringField, saveError_isSome]

theorem decodePrincipal_saved (v : JSONValue) (old : Option Principal) (saved : Option String)
    (h : saved.isSome = true) : (decodePrincipal v old saved).2.isSome = true := by
  cases v with
  | object fields =>
    exact foldl_flag (fun s : Principal × Option String => s.2.isSome) decodePrincipalEntry
      decodePrincipalEntry_saved fields _ h
  | null => exact h
  | _ => simp [decodePrincipal, saveError_isSome]

theorem decodePrincipal_outside (v : JSONValue) (old : Option Principal)
    (saved : Option String) (hv : outsidePrincipalType v) :
    (decodePrincipal v old saved).2.isSome = true := by
  rcases hv with ⟨s, rfl⟩ | ⟨members, accounts, rfl, hmem⟩
  · simp [decodePrincipal, saveError_isSome]
  · exact foldl_flag_of_mem (fun s : Principal × Option String => s.2.isSome)
      decodePrincipalEntry decodePrincipalEntry_saved _
      (fun s => decodePrincipalEntry_list s accounts) members hmem _

theorem decodeStatementEntry_saved (acc : Statement × Option String) (kv : String × JSONValue)
    (h : acc.2.isSome = true) : (decodeStatementEntry acc kv).2.isSome = true := by
  unfold decodeStatementEntry
  split
  · exact decodeStringField_saved _ _ _ _ _ h
  · split
    · exact h
    · split
      · exact h
      · split
        · exact decodePrincipal_saved _ _ _ h
        · exact h

theorem decodeStatementEntry_outside (acc : Statement × Option String) (principal : JSONValue)
    (hv : outsidePrincipalType principal) :
    (decodeStatementEntry acc ("Principal", principal)).2.isSome = true := by
  have h1 : keyMatchesFold "Effect" "Principal" = false := by rfl
  have h2 : keyMatchesFold "Action" "Principal" = false := by rfl
  have h3 : keyMatchesFold "Resource" "Principal" = false := by rfl
  have h4 : keyMatchesFold "Principal" "Principal" = true := by rfl
  simp only [decodeStatementEntry, h1, h2, h3, h4, if_true, Bool.false_eq_true, if_false]
  exact decodePrincipal_outside _ _ _ hv

theorem decodeStatement_saved (v : JSONValue) (old : Statement) (saved : Option String)
    (h : saved.isSome = true) : (decodeStatement v old saved).2.isSome = true := by
  cases v with
  | object fields =>
    exact foldl_flag (fun s : Statement × Option String => s.2.isSome) decodeStatementEntry
      decodeStatementEntry_saved fields _ h
  | null => exact h
  | _ => simp [decodeStatement, saveError_isSome]

theorem decodeStatement_outside (members : List (String × JSONValue)) (principal : JSONValue)
    (old : Statement) (saved : Option String) (hmem : ("Principal", principal) ∈ members)
    (hv : outsidePrincipalType principal) :
    (decodeStatement (.object members) old saved).2.isSome = true :=
  foldl_flag_of_mem (fun s : Statement × Option String => s.2.isSome) decodeStatementEntry
    decodeStatementEntry_saved _ (fun s => decodeStatementEntry_outside s principal hv)
    members hmem _

theorem decodeStatements_saved :
    ∀ (items : List JSONValue) (old : List Statement) (saved : Option String),
      saved.isSome = true → (decodeStatements items old saved).2.isSome = true := by
  intro items
  induction items with
  | nil => intro old saved h; exact h
  | cons v vs ih =>
    intro old saved h
    simp only [decodeStatements]
    exact ih _ _ (decodeStatement_saved _ _ _ h)

theorem decodeStatements_outside (members : List (String × JSONValue)) (principal : JSONValue)
    (hmem : ("Principal", principal) ∈ members) (hv : outsidePrincipalType principal) :
    ∀ (items : List JSONValue), JSONValue.object members ∈ items →
      ∀ (old : List Statement) (saved : Option String),
        (decodeStatements items old saved).2.isSome = true := by
  intro items
  induction items with
  | nil => intro h; simp at h
  | cons v vs ih =>
    intro h old saved
    simp only [decodeStatements]
    rcases List.mem_cons.mp h with heq | h
    · rw [← heq]
      exact decodeStatements_saved _ _ _ (decodeStatement_outside members principal _ _ hmem hv)
    · exact ih h _ _

theorem decodePolicyEntry_saved (acc : PolicyFields) (kv : String × JSONValue)
    (h : acc.saved.isSome = true) : (decodePolicyEntry acc kv).saved.isSome = true := by
  unfold decodePolicyEntry
  split
  · exact decodeStringField_saved _ _ _ _ _ h
  · split
    · split
      · rename_i items _
        cases items with
        | nil => exact decodeStatements_saved _ _ _ h
        | cons x xs => exact decodeStatements_saved _ _ _ h
      · exact h
      · exact saveError_isSome _ _
    · exact h

theorem decodePolicyEntry_outside (acc : PolicyFields) (items : List JSONValue)
    (members : List (String × JSONValue)) (principal : JSONValue)
    (hitem : JSONValue.object members ∈ items) (hmem : ("Principal", principal) ∈ members)
    (hv : outsidePrincipalType principal) :
    (decodePolicyEntry acc ("Statement", .array items)).saved.isSome = true := by
  have h1 : keyMatchesFold "Version" "Statement" = false := by rfl
  have h2 : keyMatchesFold "Statement" "Statement" = true := by rfl
  simp only [decodePolicyEntry, h1, h2, if_true, Bool.false_eq_true, if_false]
  cases items with
  | nil => simp at hitem
  | cons x xs => exact decodeStatements_outside members principal hmem hv _ hitem _ _

theorem unmarshalPolicyDocument_outside (fields : List (String × JSONValue))
    (items : List JSONValue) (members : List (String × JSONValue)) (principal : JSONValue)
    (hfield : ("Statement", .array items) ∈ fields) (hitem : JSONValue.object members ∈ items)
    (hmem : ("Principal", principal) ∈ members) (hv : outsidePrincipalType principal) :
    ∃ err, unmarshalPolicyDocument (.object fields) = .error err := by
  have hflag := foldl_flag_of_mem (fun s : PolicyFields => s.saved.isSome) decodePolicyEntry
    decodePolicyEntry_saved _
    (fun s => decodePolicyEntry_outside s items members principal hitem hmem hv) fields hfield {}
  simp only [unmarshalPolicyDocument]
  cases hs : (fields.foldl decodePolicyEntry {}).saved with
  | none => rw [hs] at hflag; simp at hflag
  | some e => exact ⟨e, rfl⟩

end iamscanner

namespace iamscanner

theorem foldl_trust_statements (roleName : String) (statements : List Statement) :
    ∀ findings : List String,
      statements.foldl (fun findings statement =>
        match statement.Principal with
        | some principal =>
          if principal.AWS = "*" then
            findings ++ ["WARNING: Role " ++ roleName ++
              " has a trust policy allowing ANY AWS account to assume it. " ++
              "Cross-account access should be restricted."]
          else findings
        | none => findings) findings =
      findings ++ List.replicate (statements.countP allowsAnyAccount)
        ("WARNING: Role " ++ roleName ++
          " has a trust policy allowing ANY AWS account to assume it. " ++
          "Cross-account access should be restricted.") := by
  induction statements with
  | nil => intro findings; simp
  | cons st rest ih =>
    intro findings
    rw [List.foldl_cons, ih, List.countP_cons]
    cases hp : st.Principal with
    | none => simp [allowsAnyAccount, hp]
    | some principal =>
      by_cases haws : principal.AWS = "*"
      · simp [allowsAnyAccount, hp, haws, List.replicate_succ, Nat.add_comm]
      · simp [allowsAnyAccount, hp, haws]

/-- C27 (code as it is). For a role whose trust policy document unescapes
to JSON text: when the document decodes into `PolicyDocument`,
`CheckRoleTrustPolicies` returns the "ANY AWS account" WARNING once for every
decoded statement whose principal has `AWS` equal to "*", and nothing else;
when it does not decode, the check returns the one finding
`Error parsing trust policy document for role <name>: <error>` and no WARNING.
A document does not decode whenever the `Statement` array of one of its
members holds a statement with a member `Principal` that is a JSON string
(such as the bare principal "*") or an object whose member `AWS` is a list,
whatever else the document holds.  So for the role admin, the trust policy
with the principal "*" and the one whose `AWS` principal is a list of two
account ARNs each give the parsing error as the only finding. -/
theorem CheckRoleTrustPolicies_warnings :
    (∀ (client : iam.IAM) (role : Role) (v : JSONValue),
      client.GetRole role.RoleName = .ok (.json v) →
      (∀ policyDoc, unmarshalPolicyDocument v = .ok policyDoc →
        CheckRoleTrustPolicies client role =
          List.replicate (policyDoc.Statement.countP allowsAnyAccount)
            ("WARNING: Role " ++ aws.StringValue role.RoleName ++
              " has a trust policy allowing ANY AWS account to assume it. " ++
              "Cross-account access should be restricted.")) ∧
      (∀ err, unmarshalPolicyDocument v = .error err →
        CheckRoleTrustPolicies client role =
          ["Error parsing trust policy document for role " ++ aws.StringValue role.RoleName ++
            ": " ++ err]) ∧
      (∀ account, v = trustPolicyOf (.object [("AWS", .string account)]) →
        CheckRoleTrustPolicies client role =
          if account = "*" then
            ["WARNING: Role " ++ aws.StringValue role.RoleName ++
              " has a trust policy allowing ANY AWS account to assume it. " ++
              "Cross-account access should be restricted."]
          else []) ∧
      (∀ s, v = trustPolicyOf (.string s) →
        CheckRoleTrustPolicies client role =
          ["Error parsing trust policy document for role " ++ aws.StringValue role.RoleName ++
            ": " ++ "json: cannot unmarshal string into Go struct field Statement.Statement.Principal of type iamscanner.Principal"]) ∧
      (∀ accounts, v = trustPolicyOf (.object [("AWS", .array accounts)]) →
        CheckRoleTrustPolicies client role =
          ["Error parsing trust policy document for role " ++ aws.StringValue role.RoleName ++
            ": " ++ "json: cannot unmarshal array into Go struct field Principal.Statement.Principal.AWS of type string"]) ∧
      (∀ (fields : List (String × JSONValue)) (items : List JSONValue)
          (members : List (String × JSONValue)) (principal : JSONValue),
        v = .object fields → ("Statement", .array items) ∈ fields →
        JSONValue.object members ∈ items → ("Principal", principal) ∈ members →
        outsidePrincipalType principal →
        ∃ err, CheckRoleTrustPolicies client role =
          ["Error parsing trust policy document for role " ++ aws.StringValue role.RoleName ++
            ": " ++ err])) ∧
    CheckRoleTrustPolicies (examples.trustIAMClient (.string "*")) { RoleName := some "admin" } =
      ["Error parsing trust policy document for role admin: json: cannot unmarshal string into Go struct field Statement.Statement.Principal of type iamscanner.Principal"] ∧
    CheckRoleTrustPolicies
        (examples.trustIAMClient (.object [("AWS", .array
          [.string "arn:aws:iam::111122223333:root", .string "arn:aws:iam::444455556666:root"])]))
        { RoleName := some "admin" } =
      ["Error parsing trust policy document for role admin: json: cannot unmarshal array into Go struct field Principal.Statement.Principal.AWS of type string"] := by
  refine ⟨?_, by rfl, by rfl⟩
  intro client role v hrole
  have hok : ∀ policyDoc, unmarshalPolicyDocument v = .ok policyDoc →
      CheckRoleTrustPolicies client role =
        List.replicate (policyDoc.Statement.countP allowsAnyAccount)
          ("WARNING: Role " ++ aws.StringValue role.RoleName ++
            " has a trust policy allowing ANY AWS account to assume it. " ++
            "Cross-account access should be restricted.") := by
    intro policyDoc hdoc
    unfold CheckRoleTrustPolicies
    simp only [hrole, hdoc]
    rw [foldl_trust_statements]
    simp
  have herr : ∀ err, unmarshalPolicyDocument v = .error err →
      CheckRoleTrustPolicies client role =
        ["Error parsing trust policy document for role " ++ aws.StringValue role.RoleName ++
          ": " ++ err] := by
    intro err hdoc
    unfold CheckRoleTrustPolicies
    simp only [hrole, hdoc]
  refine ⟨hok, herr, ?_, ?_, ?_, ?_⟩
  · intro account hv
    have hdoc : unmarshalPolicyDocument v =
        .ok { Version := "2012-10-17"
              Statement := [{ Effect := "Allow", Action := .string "sts:AssumeRole",
                              Principal := some { AWS := account } }] } := by
      rw [hv]
      rfl
    rw [hok _ hdoc]
    by_cases ha : account = "*"
    · simp [allowsAnyAccount, ha]
    · simp [allowsAnyAccount, ha]
  · intro s hv
    rw [herr _ (by rw [hv]; rfl)]
    rfl
  · intro accounts hv
    rw [herr _ (by rw [hv]; rfl)]
    rfl
  · intro fields items members principal hv hfield hitem hmem hout
    obtain ⟨err, he⟩ := unmarshalPolicyDocument_outside fields items members principal hfield
      hitem hmem hout
    rw [← hv] at he
    exact ⟨err, herr err he⟩

theorem CheckRoleTrustPolicies_warnings_witness :
    (CheckRoleTrustPolicies (examples.trustIAMClient (.object [("AWS", .string "*")]))
        { RoleName := some "admin" } =
      if "*" = "*" then
        ["WARNING: Role " ++ aws.StringValue (some "admin") ++
          " has a trust policy allowing ANY AWS account to assume it. " ++
          "Cross-account access should be restricted."]
      else []) ∧
    ∃ err, CheckRoleTrustPolicies (examples.trustIAMClient (.string "*"))
        { RoleName := some "admin" } =
      ["Error parsing trust policy document for role " ++ aws.StringValue (some "admin") ++
        ": " ++ err] :=
  ⟨(CheckRoleTrustPolicies_warnings.1 (examples.trustIAMClient (.object [("AWS", .string "*")]))
      { RoleName := some "admin" } _ rfl).2.2.1 "*" rfl,
   (CheckRoleTrustPolicies_warnings.1 (examples.trustIAMClient (.string "*"))
      { RoleName := some "admin" } _ rfl).2.2.2.2.2 _ _ _ (.string "*") rfl
      (List.mem_cons_of_mem _ (List.mem_singleton.mpr rfl)) (List.mem_singleton.mpr rfl)
      (List.mem_cons_of_mem _ (List.mem_cons_self _ _)) (Or.inl ⟨"*", rfl⟩)⟩

end iamscanner

namespace iamscanner

theorem actionsOf_array (items : List JSONValue) :
    actionsOf (.array items) =
      items.filterMap (fun a => match a with
        | .string actionStr => some actionStr
        | _ => none) := by
  unfold actionsOf
  suffices h : ∀ (l : List JSONValue) (acc : List String),
      l.foldl (fun actions a =>
        match a with
        | .string actionStr => actions ++ [actionStr]
        | _ => actions) acc =
      acc ++ l.filterMap (fun a => match a with
        | .string actionStr => some actionStr
        | _ => none) by
    simpa using h items []
  intro l
  induction l with
  | nil => intro acc; simp
  | cons a rest ih =>
    intro acc
    rw [List.foldl_cons, ih]
    cases a <;> simp [List.filterMap_cons]

theorem mem_actionsOf_array (items : List JSONValue) (action : String) :
    action ∈ actionsOf (.array items) ↔ JSONValue.string action ∈ items := by
  rw [actionsOf_array, List.mem_filterMap]
  constructor
  · rintro ⟨a, ha, h⟩
    cases a <;> simp at h
    subst h
    exact ha
  · intro h
    exact ⟨_, h, rfl⟩

theorem foldl_wildcard_actions (warning : String) (actions : List String) :
    ∀ findings : List String,
      actions.foldl (fun findings action =>
        if action = "*" then findings ++ [warning] else findings) findings =
      findings ++ List.replicate (actions.count "*") warning := by
  induction actions with
  | nil => intro findings; simp
  | cons a rest ih =>
    intro findings
    rw [List.foldl_cons, ih]
    by_cases ha : a = "*"
    · subst ha
      simp [List.replicate_succ, Nat.add_comm]
    · have : (a == "*") = false := by simpa using ha
      simp [ha, List.count_cons, this]

theorem foldl_wildcard_statements (warning : String) (statements : List Statement) :
    ∀ findings : List String,
      statements.foldl (fun findings statement =>
        (actionsOf statement.Action).foldl (fun findings action =>
          if action = "*" then findings ++ [warning] else findings) findings) findings =
      findings ++ List.replicate
        ((statements.map (fun statement => (actionsOf statement.Action).count "*")).sum)
        warning := by
  induction statements with
  | nil => intro findings; simp
  | cons st rest ih =>
    intro findings
    rw [List.foldl_cons, ih, foldl_wildcard_actions, List.map_cons, List.sum_cons,
      List.replicate_add, List.append_assoc]

end iamscanner

namespace lambdascanner

theorem foldl_list_actions (warning invalid : String) (statements : List JSONValue)
    (hlists : ∀ stmt ∈ statements, ∃ statement items,
      stmt = .object statement ∧ mapIndex statement "Action" = .array items) :
    ∀ findings : List String,
      statements.foldl (fun findings stmt =>
        match stmt with
        | .object statement =>
          match mapIndex statement "Action" with
          | .string action => if action = "*" then findings ++ [warning] else findings
          | _ => findings
        | _ => findings ++ [invalid]) findings = findings := by
  induction statements with
  | nil => intro findings; rfl
  | cons stmt rest ih =>
    intro findings
    obtain ⟨statement, items, rfl, hitems⟩ := hlists stmt (List.mem_cons_self _ _)
    rw [List.foldl_cons]
    simp only [hitems]
    exact ih (fun s hs => hlists s (List.mem_cons_of_mem _ hs)) findings

end lambdascanner

/-- C26 (code as it is). The type switch of the IAM checks reads both shapes
of an `Action`: a single string is the one action, and a list yields its
string elements, so that for every document that decodes,
`CheckOverlyPermissivePolicies` appends its WARNING once for every action "*"
of every statement, whether the action is the string "*" or an element "*" of
a list.  `CheckFunctionIAMRole` of the Lambda scanner compares the `Action`
value itself with "*": a policy all of whose statements give their actions as
a list contributes no finding, also when a list contains "*".  For the policy
with the one statement whose `Action` is the list ["*"], the IAM check returns
the WARNING and the Lambda check returns no finding; for the `Action` "*" both
return their WARNING. -/
theorem wildcard_action_shapes :
    (∀ action, iamscanner.actionsOf (.string action) = [action]) ∧
    (∀ items action,
      action ∈ iamscanner.actionsOf (.array items) ↔ JSONValue.string action ∈ items) ∧
    (∀ (client : iam.IAM) (user : iamscanner.User) (findings : List String)
        (policy : iam.AttachedPolicy) (defaultVersionId : Option String) (v : JSONValue)
        (policyDoc : iamscanner.PolicyDocument),
      client.GetPolicy policy.PolicyArn = .ok defaultVersionId →
      client.GetPolicyVersion policy.PolicyArn defaultVersionId = .ok (.json v) →
      iamscanner.unmarshalPolicyDocument v = .ok policyDoc →
      iamscanner.checkPermissivePolicy client user findings policy =
        findings ++ List.replicate (iamscanner.wildcardCount policyDoc)
          ("WARNING: Policy " ++ aws.StringValue policy.PolicyName ++ " attached to user " ++
            aws.StringValue user.UserName ++
            " allows overly permissive actions (wildcard \"*\").")) ∧
    (∀ (client : iam.IAM) (function : lambdascanner.FunctionConfiguration) (roleName : String)
        (findings : List String) (policy : iam.AttachedPolicy)
        (defaultVersionId : Option String) (policyDoc : List (String × JSONValue))
        (statements : List JSONValue),
      client.GetPolicy policy.PolicyArn = .ok defaultVersionId →
      client.GetPolicyVersion policy.PolicyArn defaultVersionId =
        .ok (.json (.object policyDoc)) →
      mapIndex policyDoc "Statement" = .array statements →
      (∀ stmt ∈ statements, ∃ statement items,
        stmt = .object statement ∧ mapIndex statement "Action" = .array items) →
      lambdascanner.checkRolePolicy client function roleName findings policy = findings) ∧
    iamscanner.CheckOverlyPermissivePolicies
        (examples.policyIAMClient (.json (examples.policyWithAction (.array [.string "*"]))))
        { UserName := some "alice" } =
      ["WARNING: Policy p attached to user alice allows overly permissive actions (wildcard \"*\")."] ∧
    lambdascanner.CheckFunctionIAMRole
        (examples.policyIAMClient (.json (examples.policyWithAction (.array [.string "*"]))))
        examples.functionF = .ok [] ∧
    iamscanner.CheckOverlyPermissivePolicies
        (examples.policyIAMClient (.json (examples.policyWithAction (.string "*"))))
        { UserName := some "alice" } =
      ["WARNING: Policy p attached to user alice allows overly permissive actions (wildcard \"*\")."] ∧
    lambdascanner.CheckFunctionIAMRole
        (examples.policyIAMClient (.json (examples.policyWithAction (.string "*"))))
        examples.functionF =
      .ok ["WARNING: Lambda function f has overly permissive actions in IAM role lambda-role."] := by
  refine ⟨fun _ => rfl, iamscanner.mem_actionsOf_array, ?_, ?_, by rfl, by rfl, by rfl, by rfl⟩
  · intro client user findings policy defaultVersionId v policyDoc hpol hver hdoc
    unfold iamscanner.checkPermissivePolicy
    simp only [hpol, hver, hdoc]
    rw [iamscanner.foldl_wildcard_statements]
    rfl
  · intro client function roleName findings policy defaultVersionId policyDoc statements
      hpol hver hstmts hlists
    unfold lambdascanner.checkRolePolicy
    simp only [hpol, hver, unmarshalMap, hstmts]
    exact lambdascanner.foldl_list_actions _ _ statements hlists findings

theorem wildcard_action_shapes_witness :
    iamscanner.checkPermissivePolicy
        (examples.policyIAMClient (.json (examples.policyWithAction (.array [.string "*"]))))
        { UserName := some "alice" } []
        { PolicyArn := some "arn:aws:iam::123456789012:policy/p", PolicyName := some "p" } =
      [] ++ List.replicate 1
        ("WARNING: Policy " ++ aws.StringValue (some "p") ++ " attached to user " ++
          aws.StringValue (some "alice") ++
          " allows overly permissive actions (wildcard \"*\").") ∧
    lambdascanner.checkRolePolicy
        (examples.policyIAMClient (.json (examples.policyWithAction (.array [.string "*"]))))
        examples.functionF "lambda-role" []
        { PolicyArn := some "arn:aws:iam::123456789012:policy/p", PolicyName := some "p" } = [] :=
  ⟨wildcard_action_shapes.2.2.1
      (examples.policyIAMClient (.json (examples.policyWithAction (.array [.string "*"]))))
      { UserName := some "alice" } []
      { PolicyArn := some "arn:aws:iam::123456789012:policy/p", PolicyName := some "p" }
      (some "v1") _
      { Version := "2012-10-17"
        Statement := [{ Effect := "Allow", Action := .array [.string "*"],
                        Resource := .string "*" }] }
      rfl rfl rfl,
   wildcard_action_shapes.2.2.2.1
      (examples.policyIAMClient (.json (examples.policyWithAction (.array [.string "*"]))))
      examples.functionF "lambda-role" []
      { PolicyArn := some "arn:aws:iam::123456789012:policy/p", PolicyName := some "p" }
      (some "v1") _ [.object [("Effect", .string "Allow"), ("Action", .array [.string "*"]),
        ("Resource", .string "*")]] rfl rfl rfl
      (fun stmt hstmt => by
        simp only [List.mem_singleton] at hstmt
        exact ⟨_, [.string "*"], hstmt, rfl⟩)⟩

theorem foldl_append_only {α : Type} (step : List String → α → List String)
    (h : ∀ f x, step f x = f ++ step [] x) :
    ∀ (l : List α) (f : List String), l.foldl step f = f ++ l.foldl step [] := by
  intro l
  induction l with
  | nil => intro f; simp
  | cons x xs ih =>
    intro f
    rw [List.foldl_cons, ih, List.foldl_cons, ih (step [] x), h f x, List.append_assoc]

theorem foldl_insert {α : Type} (step : List String → α → List String)
    (h : ∀ f x, step f x = f ++ step [] x) (pre post : List α) (p : α) :
    (pre ++ p :: post).foldl step [] = pre.foldl step [] ++ step [] p ++ post.foldl step [] ∧
    (pre ++ post).foldl step [] = pre.foldl step [] ++ post.foldl step [] := by
  constructor
  · rw [List.foldl_append, List.foldl_cons, foldl_append_only step h post, h]
  · rw [List.foldl_append, foldl_append_only step h post]

namespace iamscanner

theorem checkPermissivePolicy_append (client : iam.IAM) (user : User) (findings : List String)
    (policy : iam.AttachedPolicy) :
    checkPermissivePolicy client user findings policy =
      findings ++ checkPermissivePolicy client user [] policy := by
  unfold checkPermissivePolicy
  cases client.GetPolicy policy.PolicyArn with
  | error err => simp
  | ok defaultVersionId =>
    simp only []
    cases client.GetPolicyVersion policy.PolicyArn defaultVersionId with
    | error err => simp
    | ok document =>
      cases document with
      | badEscape err => simp
      | badSyntax err => simp
      | json v =>
        simp only []
        cases unmarshalPolicyDocument v with
        | error err => simp
        | ok policyDoc =>
          simp only
          rw [foldl_wildcard_statements, foldl_wildcard_statements _ _ []]
          simp

theorem checkEscalationPolicy_append (client : iam.IAM) (user : User) (findings : List String)
    (policy : iam.AttachedPolicy) :
    checkEscalationPolicy client user findings policy =
      findings ++ checkEscalationPolicy client user [] policy := by
  unfold checkEscalationPolicy
  cases client.GetPolicy policy.PolicyArn with
  | error err => simp
  | ok defaultVersionId =>
    simp only []
    cases client.GetPolicyVersion policy.PolicyArn defaultVersionId with
    | error err => simp
    | ok document =>
      cases document with
      | badEscape err => simp
      | badSyntax err => simp
      | json v =>
        simp only []
        cases unmarshalPolicyDocument v with
        | error err => simp
        | ok policyDoc =>
          simp only
          refine foldl_append_only _ ?_ policyDoc.Statement findings
          intro f statement
          refine foldl_append_only _ ?_ (actionsOf statement.Action) f
          intro f action
          split <;> simp

end iamscanner

namespace lambdascanner

theorem checkRolePolicy_append (client : iam.IAM) (function : FunctionConfiguration)
    (roleName : String) (findings : List String) (policy : iam.AttachedPolicy) :
    checkRolePolicy client function roleName findings policy =
      findings ++ checkRolePolicy client function roleName [] policy := by
  unfold checkRolePolicy
  cases client.GetPolicy policy.PolicyArn with
  | error err => simp
  | ok defaultVersionId =>
    simp only []
    cases client.GetPolicyVersion policy.PolicyArn defaultVersionId with
    | error err => simp
    | ok document =>
      cases document with
      | badEscape err => simp
      | badSyntax err => simp
      | json v =>
        simp only []
        cases unmarshalMap v with
        | error err => simp
        | ok policyDoc =>
          simp only
          cases mapIndex policyDoc "Statement" with
          | array statements =>
            simp only
            refine foldl_append_only _ ?_ statements findings
            intro f stmt
            cases stmt with
            | object statement =>
              simp only
              cases mapIndex statement "Action" with
              | string action =>
                simp only
                split <;> simp
              | _ => simp
            | _ => simp
          | _ => simp

end lambdascanner

namespace lambdascanner

theorem logStatements_findings (policyName : String) (statements : List JSONValue) :
    ∀ (f : List String) (b : Bool),
      logStatements policyName statements (f, b) =
        (f ++ (logStatements policyName statements ([], b)).1,
          (logStatements policyName statements ([], b)).2) := by
  induction statements with
  | nil => intro f b; simp [logStatements]
  | cons stmt rest ih =>
    intro f b
    cases stmt with
    | object statement =>
      simp only [logStatements]
      cases mapIndex statement "Action" with
      | array actionList =>
        simp only
        rw [ih]
      | string actionStr =>
        simp only
        split
        · simp
        · rw [ih]
      | null => simp only; rw [ih]
      | bool _ => simp only; rw [ih]
      | number => simp only; rw [ih]
      | object _ => simp only; rw [ih]
    | null =>
      simp only [logStatements, List.nil_append]
      rw [ih, ih [_]]
      simp
    | bool _ =>
      simp only [logStatements, List.nil_append]
      rw [ih, ih [_]]
      simp
    | number =>
      simp only [logStatements, List.nil_append]
      rw [ih, ih [_]]
      simp
    | string _ =>
      simp only [logStatements, List.nil_append]
      rw [ih, ih [_]]
      simp
    | array _ =>
      simp only [logStatements, List.nil_append]
      rw [ih, ih [_]]
      simp

theorem checkLogPolicy_findings (client : iam.IAM) (policy : iam.AttachedPolicy)
    (f : List String) (b : Bool) :
    checkLogPolicy client (f, b) policy =
      (f ++ (checkLogPolicy client ([], b) policy).1,
        (checkLogPolicy client ([], b) policy).2) := by
  unfold checkLogPolicy
  cases client.GetPolicy policy.PolicyArn with
  | error err => simp
  | ok defaultVersionId =>
    simp only []
    cases client.GetPolicyVersion policy.PolicyArn defaultVersionId with
    | error err => simp
    | ok document =>
      cases document with
      | badEscape err => simp
      | badSyntax err => simp
      | json v =>
        simp only []
        cases unmarshalMap v with
        | error err => simp
        | ok policyDoc =>
          simp only
          cases mapIndex policyDoc "Statement" with
          | array statements =>
            simp only
            rw [logStatements_findings]
          | _ => simp

theorem foldl_checkLogPolicy_findings (client : iam.IAM) (policies : List iam.AttachedPolicy) :
    ∀ (f : List String) (b : Bool),
      policies.foldl (checkLogPolicy client) (f, b) =
        (f ++ (policies.foldl (checkLogPolicy client) ([], b)).1,
          (policies.foldl (checkLogPolicy client) ([], b)).2) := by
  induction policies with
  | nil => intro f b; simp
  | cons p rest ih =>
    intro f b
    rw [List.foldl_cons, checkLogPolicy_findings, ih, List.foldl_cons,
      ih (checkLogPolicy client ([], b) p).1]
    simp

end lambdascanner

namespace iamscanner

theorem checkPermissivePolicy_malformed (client : iam.IAM) (user : User)
    (p : iam.AttachedPolicy) (defaultVersionId : Option String) (doc : iam.Document)
    (diag : String) (hpol : client.GetPolicy p.PolicyArn = .ok defaultVersionId)
    (hver : client.GetPolicyVersion p.PolicyArn defaultVersionId = .ok doc)
    (hdiag : iam.documentDiagnostic (fun v => errorOf (unmarshalPolicyDocument v))
      (aws.StringValue p.PolicyName) doc = some diag) :
    checkPermissivePolicy client user [] p = [diag] := by
  unfold checkPermissivePolicy
  simp only [hpol, hver]
  cases doc with
  | badEscape err => simpa [iam.documentDiagnostic] using hdiag
  | badSyntax err => simpa [iam.documentDiagnostic] using hdiag
  | json v =>
    simp only [iam.documentDiagnostic] at hdiag
    cases hu : unmarshalPolicyDocument v with
    | error e =>
      rw [hu] at hdiag
      simp only [hu]
      simpa [errorOf] using hdiag
    | ok d =>
      rw [hu] at hdiag
      simp [errorOf] at hdiag

theorem checkEscalationPolicy_malformed (client : iam.IAM) (user : User)
    (p : iam.AttachedPolicy) (defaultVersionId : Option String) (doc : iam.Document)
    (diag : String) (hpol : client.GetPolicy p.PolicyArn = .ok defaultVersionId)
    (hver : client.GetPolicyVersion p.PolicyArn defaultVersionId = .ok doc)
    (hdiag : iam.documentDiagnostic (fun v => errorOf (unmarshalPolicyDocument v))
      (aws.StringValue p.PolicyName) doc = some diag) :
    checkEscalationPolicy client user [] p = [diag] := by
  unfold checkEscalationPolicy
  simp only [hpol, hver]
  cases doc with
  | badEscape err => simpa [iam.documentDiagnostic] using hdiag
  | badSyntax err => simpa [iam.documentDiagnostic] using hdiag
  | json v =>
    simp only [iam.documentDiagnostic] at hdiag
    cases hu : unmarshalPolicyDocument v with
    | error e =>
      rw [hu] at hdiag
      simp only [hu]
      simpa [errorOf] using hdiag
    | ok d =>
      rw [hu] at hdiag
      simp [errorOf] at hdiag

end iamscanner

namespace lambdascanner

theorem checkRolePolicy_malformed (client : iam.IAM) (function : FunctionConfiguration)
    (roleName : String) (p : iam.AttachedPolicy) (defaultVersionId : Option String)
    (doc : iam.Document) (diag : String)
    (hpol : client.GetPolicy p.PolicyArn = .ok defaultVersionId)
    (hver : client.GetPolicyVersion p.PolicyArn defaultVersionId = .ok doc)
    (hdiag : iam.documentDiagnostic (fun v => errorOf (unmarshalMap v))
      (aws.StringValue p.PolicyName) doc = some diag) :
    checkRolePolicy client function roleName [] p = [diag] := by
  unfold checkRolePolicy
  simp only [hpol, hver]
  cases doc with
  | badEscape err => simpa [iam.documentDiagnostic] using hdiag
  | badSyntax err => simpa [iam.documentDiagnostic] using hdiag
  | json v =>
    simp only [iam.documentDiagnostic] at hdiag
    cases hu : unmarshalMap v with
    | error e =>
      rw [hu] at hdiag
      simp only [hu]
      simpa [errorOf] using hdiag
    | ok d =>
      rw [hu] at hdiag
      simp [errorOf] at hdiag

theorem checkLogPolicy_parse_failure (client : iam.IAM) (state : List String × Bool)
    (p : iam.AttachedPolicy) (defaultVersionId : Option String) (doc : iam.Document)
    (hpol : client.GetPolicy p.PolicyArn = .ok defaultVersionId)
    (hver : client.GetPolicyVersion p.PolicyArn defaultVersionId = .ok doc)
    (hdoc : (∃ err, doc = .badSyntax err) ∨ ∃ v err, doc = .json v ∧ unmarshalMap v = .error err) :
    checkLogPolicy client state p = state := by
  unfold checkLogPolicy
  simp only [hpol, hver]
  rcases hdoc with ⟨err, rfl⟩ | ⟨v, err, rfl, hv⟩
  · rfl
  · simp only [hv]

theorem checkLogPolicy_bad_escape (client : iam.IAM) (state : List String × Bool)
    (p : iam.AttachedPolicy) (defaultVersionId : Option String) (err : String)
    (hpol : client.GetPolicy p.PolicyArn = .ok defaultVersionId)
    (hver : client.GetPolicyVersion p.PolicyArn defaultVersionId = .ok (.badEscape err)) :
    checkLogPolicy client state p =
      (state.1 ++ ["Error decoding policy document for policy " ++
        aws.StringValue p.PolicyName ++ ": " ++ err], state.2) := by
  unfold checkLogPolicy
  simp only [hpol, hver]

end lambdascanner

/-- C23 (code as it is). In `CheckOverlyPermissivePolicies`,
`CheckPrivilegeEscalation` and the Lambda `CheckFunctionIAMRole`, for every
list of attached policies, a policy whose document cannot be unescaped or
parsed contributes exactly the one diagnostic finding that names it, between
the findings of the policies before it and those of the policies after it,
which are what the check returns, without error, for the list without that
policy.  In `CheckCloudWatchLogs` this holds for a document that cannot be
unescaped, whereas a document that cannot be parsed contributes nothing: the
check returns what it returns for the list without that policy.  For the
policies p and q, p with JSON text that ends early, `CheckFunctionIAMRole`
returns the parsing error for p and then the finding of q, and
`CheckCloudWatchLogs` returns only its verdict on logging. -/
theorem malformed_policy_document_findings :
    (∀ (client : iam.IAM) (user : iamscanner.User) (pre post : List iam.AttachedPolicy)
        (p : iam.AttachedPolicy) (defaultVersionId : Option String) (doc : iam.Document)
        (diag : String),
      client.ListAttachedUserPolicies user.UserName = .ok (pre ++ p :: post) →
      client.GetPolicy p.PolicyArn = .ok defaultVersionId →
      client.GetPolicyVersion p.PolicyArn defaultVersionId = .ok doc →
      iam.documentDiagnostic (fun v => errorOf (iamscanner.unmarshalPolicyDocument v))
        (aws.StringValue p.PolicyName) doc = some diag →
      (iamscanner.CheckOverlyPermissivePolicies client user =
          pre.foldl (iamscanner.checkPermissivePolicy client user) [] ++ [diag] ++
            post.foldl (iamscanner.checkPermissivePolicy client user) [] ∧
        iamscanner.CheckOverlyPermissivePolicies
            { client with ListAttachedUserPolicies := fun _ => .ok (pre ++ post) } user =
          pre.foldl (iamscanner.checkPermissivePolicy client user) [] ++
            post.foldl (iamscanner.checkPermissivePolicy client user) []) ∧
      (iamscanner.CheckPrivilegeEscalation client user =
          pre.foldl (iamscanner.checkEscalationPolicy client user) [] ++ [diag] ++
            post.foldl (iamscanner.checkEscalationPolicy client user) [] ∧
        iamscanner.CheckPrivilegeEscalation
            { client with ListAttachedUserPolicies := fun _ => .ok (pre ++ post) } user =
          pre.foldl (iamscanner.checkEscalationPolicy client user) [] ++
            post.foldl (iamscanner.checkEscalationPolicy client user) [])) ∧
    (∀ (client : iam.IAM) (function : lambdascanner.FunctionConfiguration) (roleName : String)
        (trust : iam.Document) (pre post : List iam.AttachedPolicy) (p : iam.AttachedPolicy)
        (defaultVersionId : Option String) (doc : iam.Document),
      aws.StringValue function.Role ≠ "" →
      lambdascanner.roleNameOf (aws.StringValue function.Role) = some roleName →
      client.GetRole (some roleName) = .ok trust →
      client.ListAttachedRolePolicies (some roleName) = .ok (pre ++ p :: post) →
      client.GetPolicy p.PolicyArn = .ok defaultVersionId →
      client.GetPolicyVersion p.PolicyArn defaultVersionId = .ok doc →
      (∀ diag, iam.documentDiagnostic (fun v => errorOf (unmarshalMap v))
          (aws.StringValue p.PolicyName) doc = some diag →
        lambdascanner.CheckFunctionIAMRole client function =
          .ok (pre.foldl (lambdascanner.checkRolePolicy client function roleName) [] ++ [diag] ++
            post.foldl (lambdascanner.checkRolePolicy client function roleName) []) ∧
        lambdascanner.CheckFunctionIAMRole
            { client with ListAttachedRolePolicies := fun _ => .ok (pre ++ post) } function =
          .ok (pre.foldl (lambdascanner.checkRolePolicy client function roleName) [] ++
            post.foldl (lambdascanner.checkRolePolicy client function roleName) [])) ∧
      (∀ err, doc = .badEscape err →
        ∃ before after verdict,
          lambdascanner.CheckCloudWatchLogs client function =
            .ok (before ++ ["Error decoding policy document for policy " ++
              aws.StringValue p.PolicyName ++ ": " ++ err] ++ after ++ [verdict]) ∧
          lambdascanner.CheckCloudWatchLogs
              { client with ListAttachedRolePolicies := fun _ => .ok (pre ++ post) } function =
            .ok (before ++ after ++ [verdict])) ∧
      (((∃ err, doc = .badSyntax err) ∨
          ∃ v err, doc = .json v ∧ unmarshalMap v = .error err) →
        lambdascanner.CheckCloudWatchLogs client function =
          lambdascanner.CheckCloudWatchLogs
            { client with ListAttachedRolePolicies := fun _ => .ok (pre ++ post) } function)) ∧
    lambdascanner.CheckFunctionIAMRole
        (examples.twoPoliciesIAMClient (.badSyntax "unexpected end of JSON input"))
        examples.functionF =
      .ok ["Error parsing policy document for policy p: unexpected end of JSON input",
        "WARNING: Lambda function f has overly permissive actions in IAM role lambda-role."] ∧
    lambdascanner.CheckCloudWatchLogs
        (examples.twoPoliciesIAMClient (.badSyntax "unexpected end of JSON input"))
        examples.functionF =
      .ok ["CloudWatch logging is enabled for Lambda function f."] := by
  refine ⟨?_, ?_, by rfl, by rfl⟩
  · intro client user pre post p defaultVersionId doc diag hlist hpol hver hdiag
    constructor
    · have hp := iamscanner.checkPermissivePolicy_malformed client user p defaultVersionId doc
        diag hpol hver hdiag
      obtain ⟨h1, h2⟩ := foldl_insert (iamscanner.checkPermissivePolicy client user)
        (iamscanner.checkPermissivePolicy_append client user) pre post p
      rw [hp] at h1
      constructor
      · unfold iamscanner.CheckOverlyPermissivePolicies
        simp only [hlist]
        exact h1
      · exact h2
    · have hp := iamscanner.checkEscalationPolicy_malformed client user p defaultVersionId doc
        diag hpol hver hdiag
      obtain ⟨h1, h2⟩ := foldl_insert (iamscanner.checkEscalationPolicy client user)
        (iamscanner.checkEscalationPolicy_append client user) pre post p
      rw [hp] at h1
      constructor
      · unfold iamscanner.CheckPrivilegeEscalation
        simp only [hlist]
        exact h1
      · exact h2
  · intro client function roleName trust pre post p defaultVersionId doc hrole hname hget hlist
      hpol hver
    refine ⟨?_, ?_, ?_⟩
    · intro diag hdiag
      have hp := lambdascanner.checkRolePolicy_malformed client function roleName p
        defaultVersionId doc diag hpol hver hdiag
      obtain ⟨h1, h2⟩ := foldl_insert (lambdascanner.checkRolePolicy client function roleName)
        (lambdascanner.checkRolePolicy_append client function roleName) pre post p
      rw [hp] at h1
      constructor
      · unfold lambdascanner.CheckFunctionIAMRole
        simp only [hrole, if_false, hname, hget, hlist]
        rw [h1]
      · unfold lambdascanner.CheckFunctionIAMRole
        simp only [hrole, if_false, hname, hget]
        exact congrArg Except.ok h2
    · intro err hdoc
      subst hdoc
      have hstep := lambdascanner.checkLogPolicy_bad_escape client
        (pre.foldl (lambdascanner.checkLogPolicy client) ([], false)) p defaultVersionId err
        hpol hver
      have hpost := lambdascanner.foldl_checkLogPolicy_findings client post
      refine ⟨(pre.foldl (lambdascanner.checkLogPolicy client) ([], false)).1,
        (post.foldl (lambdascanner.checkLogPolicy client)
          ([], (pre.foldl (lambdascanner.checkLogPolicy client) ([], false)).2)).1,
        if (post.foldl (lambdascanner.checkLogPolicy client)
          ([], (pre.foldl (lambdascanner.checkLogPolicy client) ([], false)).2)).2 then
          "CloudWatch logging is enabled for Lambda function " ++
            aws.StringValue function.FunctionName ++ "."
        else "WARNING: CloudWatch logging is not enabled for Lambda function " ++
            aws.StringValue function.FunctionName ++ ".", ?_, ?_⟩
      · unfold lambdascanner.CheckCloudWatchLogs
        simp only [hrole, if_false, hname, hget, hlist]
        rw [List.foldl_append, List.foldl_cons, hstep, hpost]
        split <;> simp_all
      · have hfold : (pre ++ post).foldl (lambdascanner.checkLogPolicy client) ([], false) =
            ((pre.foldl (lambdascanner.checkLogPolicy client) ([], false)).1 ++
              (post.foldl (lambdascanner.checkLogPolicy client)
                ([], (pre.foldl (lambdascanner.checkLogPolicy client) ([], false)).2)).1,
              (post.foldl (lambdascanner.checkLogPolicy client)
                ([], (pre.foldl (lambdascanner.checkLogPolicy client) ([], false)).2)).2) := by
          rw [List.foldl_append]
          exact hpost _ _
        have hbody : lambdascanner.checkLogPolicy
            { client with ListAttachedRolePolicies := fun _ => .ok (pre ++ post) } =
            lambdascanner.checkLogPolicy client := rfl
        have hget' : ({ client with ListAttachedRolePolicies := fun _ => .ok (pre ++ post) } :
            iam.IAM).GetRole (some roleName) = .ok trust := hget
        have hlist' : ({ client with ListAttachedRolePolicies := fun _ => .ok (pre ++ post) } :
            iam.IAM).ListAttachedRolePolicies (some roleName) = .ok (pre ++ post) := rfl
        generalize ({ client with ListAttachedRolePolicies := fun _ => .ok (pre ++ post) } :
            iam.IAM) = client' at hbody hget' hlist' ⊢
        unfold lambdascanner.CheckCloudWatchLogs
        simp only [hrole, if_false, hname, hget', hlist', hbody]
        rw [hfold]
        split <;> simp_all
    · intro hdoc
      have hstep := fun state => lambdascanner.checkLogPolicy_parse_failure client state p
        defaultVersionId doc hpol hver hdoc
      unfold lambdascanner.CheckCloudWatchLogs
      simp only [hrole, if_false, hname, hget, hlist]
      have hfold : (pre ++ p :: post).foldl (lambdascanner.checkLogPolicy client) ([], false) =
          (pre ++ post).foldl (lambdascanner.checkLogPolicy client) ([], false) := by
        rw [List.foldl_append, List.foldl_cons, hstep, List.foldl_append]
      rw [hfold]
      rfl

theorem malformed_policy_document_findings_witness :
    lambdascanner.CheckCloudWatchLogs
        (examples.twoPoliciesIAMClient (.badSyntax "unexpected end of JSON input"))
        examples.functionF =
      lambdascanner.CheckCloudWatchLogs
        { examples.twoPoliciesIAMClient (.badSyntax "unexpected end of JSON input") with
          ListAttachedRolePolicies := fun _ =>
            .ok ([] ++ [{ PolicyArn := some "arn:aws:iam::123456789012:policy/q",
                          PolicyName := some "q" }]) }
        examples.functionF :=
  (malformed_policy_document_findings.2.1
    (examples.twoPoliciesIAMClient (.badSyntax "unexpected end of JSON input"))
    examples.functionF "lambda-role" (.json (.object [])) []
    [{ PolicyArn := some "arn:aws:iam::123456789012:policy/q", PolicyName := some "q" }]
    { PolicyArn := some "arn:aws:iam::123456789012:policy/p", PolicyName := some "p" }
    (some "v1") (.badSyntax "unexpected end of JSON input")
    (by decide) rfl rfl rfl rfl rfl).2.2 (Or.inl ⟨_, rfl⟩)

end Guard
